import Mathlib

/-!
Verification of fan2go: configuration validation and the PID control loop.

A shallow embedding of `internal/configuration/validation.go` and of
`internal/control_loop/pid.go`, followed by theorems about the embedded code.

Conventions of the embedding:

* Go pointers to sub-configurations (`*HwMonSensorConfig`, ...) are `Option`s, `nil` is `none`.
* A Go `error` result is an `Option String`: `none` is `nil`, `some msg` is `errors.New(msg)`.
* `ui.Warning` and `util.CheckFilePermissionsForExecution` are outside the package; every call
  to one of them is recorded, in program order, in a list of `Effect`s returned next to the
  error. The answer of the permission check is a parameter of the embedding.
* `tarjan.Connections` (a third-party package) is a parameter of the embedding, constrained by
  the contract `IsConnections`; `Connections` below is an executable instance, both written
  from the specification.
* The process-wide variable `CurrentConfig` is an explicit argument.
* `float64` is embedded with its rounding, its infinities and NaN; the mutable state of a
  control loop is passed explicitly, `Cycle` returns its result and the state after the call.
-/

namespace Fan2go

/-! ## Data model (the fields read by the validator) -/

/-- Modelled from the spec: the type `HwMonSensorConfig`, declared outside `validation.go`
(the `hwmon` backing of a sensor carries an integer `index`). -/
structure HwMonSensorConfig where
  Index : Int
deriving DecidableEq, Repr

/-- Modelled from the spec: the type `FileSensorConfig`, declared outside `validation.go`
(the `file` backing of a sensor; no field of it is read by the validator). -/
structure FileSensorConfig where
  Path : String
deriving DecidableEq, Repr

/-- Modelled from the spec: the type `CmdSensorConfig`, declared outside `validation.go`
(the `cmd` backing of a sensor; no field of it is read by the validator). -/
structure CmdSensorConfig where
  Exec : String
  Args : List String
deriving DecidableEq, Repr

/-- Modelled from the spec: the type `SensorConfig`, declared outside `validation.go` (an id
and the three optional backings HwMon, File, Cmd). -/
structure SensorConfig where
  ID : String
  HwMon : Option HwMonSensorConfig
  File : Option FileSensorConfig
  Cmd : Option CmdSensorConfig
deriving DecidableEq, Repr

/-- Modelled from the spec: the type `LinearCurveConfig`, declared outside `validation.go`
(a linear curve references a sensor id; nothing else of it is read by the validator). -/
structure LinearCurveConfig where
  Sensor : String
deriving DecidableEq, Repr

/-- Modelled from the spec: the type `PidCurveConfig`, declared outside `validation.go` (a PID
curve references a sensor id and has gains p, i, d). The gains are floats; the validator only
compares them with zero, and they are embedded as rationals. -/
structure PidCurveConfig where
  Sensor : String
  P : Rat
  I : Rat
  D : Rat
deriving DecidableEq, Repr

/-- Modelled from the spec: the type `FunctionCurveConfig`, declared outside `validation.go`
(a type tag and an ordered list of referenced curve ids). The field `Type` of the source is
`Type_` here, `Type` being a keyword. -/
structure FunctionCurveConfig where
  Type_ : String
  Curves : List String
deriving DecidableEq, Repr

/-- Modelled from the spec: the type `CurveConfig`, declared outside `validation.go` (an id and
the three optional definitions Linear, PID, Function). -/
structure CurveConfig where
  ID : String
  Linear : Option LinearCurveConfig
  PID : Option PidCurveConfig
  Function : Option FunctionCurveConfig
deriving DecidableEq, Repr

/-- Modelled from the spec: the type `HwMonFanConfig`, declared outside `validation.go`
(integers `index`, `channel` and `pwmChannel`). -/
structure HwMonFanConfig where
  Index : Int
  Channel : Int
  PwmChannel : Int
deriving DecidableEq, Repr

/-- Modelled from the spec: the type `FileFanConfig`, declared outside `validation.go` (a
path). -/
structure FileFanConfig where
  Path : String
deriving DecidableEq, Repr

/-- Modelled from the spec: the type of the `setPwm` and `getPwm` blocks of a command fan,
declared outside `validation.go` (an executable path; the arguments are not read by the
validator). -/
structure ExecConfig where
  Exec : String
  Args : List String
deriving DecidableEq, Repr

/-- Modelled from the spec: the type `CmdFanConfig`, declared outside `validation.go` (an
optional `setPwm` and an optional `getPwm` block). -/
structure CmdFanConfig where
  SetPwm : Option ExecConfig
  GetPwm : Option ExecConfig
deriving DecidableEq, Repr

/-- Modelled from the spec: the type `FanConfig`, declared outside `validation.go` (an id, a
curve id and the three optional backings HwMon, File, Cmd). -/
structure FanConfig where
  ID : String
  Curve : String
  HwMon : Option HwMonFanConfig
  File : Option FileFanConfig
  Cmd : Option CmdFanConfig
deriving DecidableEq, Repr

/-- Modelled from the spec: the type `Configuration`, declared outside `validation.go` (the
lists of sensors, curves and fans). -/
structure Configuration where
  Sensors : List SensorConfig
  Curves : List CurveConfig
  Fans : List FanConfig
deriving DecidableEq, Repr

/-- Modelled from the spec: the constant `FunctionMinimum`, declared outside `validation.go`
(the closed set of function types is minimum, average, maximum, delta, sum, difference). -/
def FunctionMinimum : String := "minimum"
/-- Modelled from the spec: the constant `FunctionAverage`, declared outside `validation.go`. -/
def FunctionAverage : String := "average"
/-- Modelled from the spec: the constant `FunctionMaximum`, declared outside `validation.go`. -/
def FunctionMaximum : String := "maximum"
/-- Modelled from the spec: the constant `FunctionDelta`, declared outside `validation.go`. -/
def FunctionDelta : String := "delta"
/-- Modelled from the spec: the constant `FunctionSum`, declared outside `validation.go`. -/
def FunctionSum : String := "sum"
/-- Modelled from the spec: the constant `FunctionDifference`, declared outside
`validation.go`. -/
def FunctionDifference : String := "difference"

/-! ## Effects and results -/

/-- A call to a collaborator outside the package. -/
inductive Effect where
  /-- A call `ui.Warning(msg)`. -/
  | warning (msg : String)
  /-- A call `util.CheckFilePermissionsForExecution(path)`. -/
  | checkFilePermissions (path : String)
deriving DecidableEq, Repr

/-- The returned error (`none` is `nil`) and the effects performed, in order. -/
abbrev Result := Option String × List Effect

/-- Run `r` after the effects `ws` have been performed. -/
def Result.after (ws : List Effect) (r : Result) : Result := (r.1, ws ++ r.2)

/-- Go's `len(s)` for a string, used only in the tests `len(s) <= 0`. -/
def len (s : String) : Nat := s.length

/-! ## The dependency graph, a Go `map[interface{}][]interface{}` -/

/-- A Go map from curve ids to lists of curve ids, as an association list with distinct keys. -/
abbrev Graph := List (String × List String)

/-- Reading `graph[k]`: the zero value (a nil slice) when the key is absent. -/
def Graph.get (g : Graph) (k : String) : List String :=
  match g with
  | [] => []
  | (k', v) :: rest => if k' = k then v else Graph.get rest k

/-- The assignment `graph[k] = v`: overwrite the entry when the key is present, add it
otherwise. -/
def Graph.set (g : Graph) (k : String) (v : List String) : Graph :=
  match g with
  | [] => [(k, v)]
  | (k', v') :: rest => if k' = k then (k, v) :: rest else (k', v') :: Graph.set rest k v

/-- The keys of the map. -/
def Graph.keys (g : Graph) : List String := g.map Prod.fst

/-- The vertices of the graph: the keys and every id some key lists. -/
def Graph.nodes (g : Graph) : List String := g.keys ++ g.flatMap Prod.snd

/-- Go's `%v` formatting of a slice of strings: the items, separated by blanks, in brackets. -/
def formatSlice (items : List String) : String := "[" ++ " ".intercalate items ++ "]"

/-- The edge relation of the graph: `a` lists `b`. -/
def Graph.Edge (g : Graph) (a b : String) : Prop := b ∈ g.get a

/-- Reachability along zero or more edges. -/
def Graph.Reach (g : Graph) : String → String → Prop := Relation.ReflTransGen g.Edge

/-- Modelled from the spec: the contract of `tarjan.Connections`, a third-party package whose
source is not part of the repository (the CycleDetector of the specification: it returns, for
each strongly connected component, its member node ids, a component being a maximal set of
nodes each reachable from every other). No member is listed twice, the members of a component
are exactly the vertices mutually reachable with any one of them, and every vertex is in a
component. The order of the components and of their members is left open. -/
structure IsConnections (g : Graph) (out : List (List String)) : Prop where
  nodup : ∀ c ∈ out, c.Nodup
  scc : ∀ c ∈ out, ∀ a ∈ c, ∀ b, b ∈ c ↔ (g.Reach a b ∧ g.Reach b a)
  cover : ∀ v ∈ g.nodes, ∃ c ∈ out, v ∈ c

/-- One round of the reachability computation: the ids listed by a member of `seen` that are
not in `seen` yet. -/
def Graph.expand (g : Graph) (seen : List String) : List String :=
  ((seen.flatMap g.get).filter (fun w => !seen.contains w)).dedup

/-- Rounds of `expand` until nothing new is found (`fuel` bounds the number of rounds). -/
def Graph.closure (g : Graph) : Nat → List String → List String
  | 0, seen => seen
  | fuel + 1, seen =>
    if g.expand seen = [] then seen else Graph.closure g fuel (seen ++ g.expand seen)

/-- The vertices reachable from `v`. -/
def Graph.reachable (g : Graph) (v : String) : List String :=
  g.closure (g.nodes.length + 1) [v]

/-- The strongly connected component of `v`: the vertices reachable from `v` from which `v`
is reachable. -/
def Graph.component (g : Graph) (v : String) : List String :=
  (g.reachable v).filter (fun w => (g.reachable w).contains v)

/-- The components of the vertices `vs`, after the components `out` found so far. -/
def Graph.components (g : Graph) : List String → List (List String) → List (List String)
  | [], out => out
  | v :: vs, out =>
    if out.any (fun c => c.contains v) then Graph.components g vs out
    else Graph.components g vs (out ++ [g.component v])

/-- Modelled from the spec: `tarjan.Connections`, a third-party package whose source is not
part of the repository. For each strongly connected component of the graph, the list of its
member node ids; the components are listed in the order in which the map yields their first
vertex. -/
def Connections (graph : Graph) : List (List String) :=
  graph.components graph.nodes []

/-! ## `validation.go` -/

/-- The function `containsCmdFan`, which reads the global `CurrentConfig`. -/
def containsCmdFan (CurrentConfig : Configuration) : Bool :=
  CurrentConfig.Fans.any (fun fanConfig => fanConfig.Cmd.isSome)

/-- The function `containsCmdSensors`, which reads the global `CurrentConfig`. -/
def containsCmdSensors (CurrentConfig : Configuration) : Bool :=
  CurrentConfig.Sensors.any (fun sensorConfig => sensorConfig.Cmd.isSome)

/-- The function `isSensorConfigInUse`. -/
def isSensorConfigInUse (config : SensorConfig) : List CurveConfig → Bool
  | [] => false
  | curveConfig :: curves =>
    if curveConfig.Function.isSome then
      -- function curves cannot reference sensors
      isSensorConfigInUse config curves
    else if curveConfig.Linear.any (fun l => l.Sensor = config.ID) then true
    else if curveConfig.PID.any (fun p => p.Sensor = config.ID) then true
    else isSensorConfigInUse config curves

/-- The body of the loop of `validateSensors`, from the entry `sensorConfig` on; `sensorIds`
are the ids seen so far. -/
def validateSensorsLoop (config : Configuration) : List SensorConfig → List String → Result
  | [], _ => (none, [])
  | sensorConfig :: rest, sensorIds =>
    if sensorIds.contains sensorConfig.ID then
      (some ("Duplicate sensor id detected: " ++ sensorConfig.ID), [])
    else
      let sensorIds := sensorIds ++ [sensorConfig.ID]
      let subConfigs : Nat :=
        (if sensorConfig.HwMon.isSome then 1 else 0)
          + (if sensorConfig.File.isSome then 1 else 0)
          + (if sensorConfig.Cmd.isSome then 1 else 0)
      if subConfigs > 1 then
        (some ("Sensor " ++ sensorConfig.ID
          ++ ": only one sensor type can be used per sensor definition block"), [])
      else if subConfigs ≤ 0 then
        (some ("Sensor " ++ sensorConfig.ID
          ++ ": sub-configuration for sensor is missing, use one of: hwmon | file | cmd"), [])
      else
        let warnings :=
          if !isSensorConfigInUse sensorConfig config.Curves then
            [Effect.warning ("Unused sensor configuration: " ++ sensorConfig.ID)]
          else []
        if sensorConfig.HwMon.any (fun hwMon => hwMon.Index ≤ 0) then
          (some ("Sensor " ++ sensorConfig.ID ++ ": invalid index, must be >= 1"), warnings)
        else
          Result.after warnings (validateSensorsLoop config rest sensorIds)

/-- The function `validateSensors`. -/
def validateSensors (config : Configuration) : Result :=
  validateSensorsLoop config config.Sensors []

/-- The function `sensorIdExists`. -/
def sensorIdExists (sensorId : String) (config : Configuration) : Bool :=
  config.Sensors.any (fun sensor => sensor.ID = sensorId)

/-- The function `curveIdExists`. -/
def curveIdExists (curveId : String) (config : Configuration) : Bool :=
  config.Curves.any (fun curve => curve.ID = curveId)

/-- The function `validateNoLoops`; `Connections` stands for `tarjan.Connections`. The first
component with more than one item is reported. -/
def validateNoLoops (Connections : Graph → List (List String)) (graph : Graph) :
    Option String :=
  match (Connections graph).find? (fun items => decide (items.length > 1)) with
  | some items => some ("You have created a curve dependency cycle: " ++ formatSlice items)
  | none => none

/-- The function `isCurveConfigInUse` (`util.ContainsString` is list membership). -/
def isCurveConfigInUse (config : CurveConfig) (curves : List CurveConfig)
    (fans : List FanConfig) : Bool :=
  if curves.any (fun curveConfig =>
      curveConfig.Function.any (fun f => f.Curves.contains config.ID)) then true
  else if fans.any (fun fanConfig => fanConfig.Curve = config.ID) then true
  else false

/-- The inner loop of `validateCurves` over `curveConfig.Function.Curves`: an error, or the
collected `connections`. -/
def functionConnections (config : Configuration) (ID : String) :
    List String → List String → Except String (List String)
  | [], connections => .ok connections
  | curve :: rest, connections =>
    if curve = ID then
      .error ("Curve " ++ ID ++ ": a curve cannot reference itself")
    else if !curveIdExists curve config then
      .error ("Curve " ++ ID ++ ": no curve definition with id \x27" ++ curve ++ "\x27 found")
    else
      functionConnections config ID rest (connections ++ [curve])

/-- The block `if curveConfig.Function != nil` of `validateCurves`: an error, or the graph
after the block. -/
def functionBlock (config : Configuration) (curveConfig : CurveConfig) (graph : Graph) :
    Except String Graph :=
  match curveConfig.Function with
  | none => .ok graph
  | some function =>
    let supportedTypes := [FunctionMinimum, FunctionAverage, FunctionMaximum, FunctionDelta,
      FunctionSum, FunctionDifference]
    if !supportedTypes.contains function.Type_ then
      .error ("Curve " ++ curveConfig.ID ++ ": unsupported function type \x27" ++ function.Type_
        ++ "\x27, use one of: " ++ " | ".intercalate supportedTypes)
    else
      match functionConnections config curveConfig.ID function.Curves [] with
      | .error e => .error e
      | .ok connections => .ok (graph.set curveConfig.ID connections)

/-- The block `if curveConfig.Linear != nil` of `validateCurves`. -/
def linearBlock (config : Configuration) (curveConfig : CurveConfig) : Option String :=
  match curveConfig.Linear with
  | none => none
  | some linear =>
    if len linear.Sensor ≤ 0 then
      some ("Curve " ++ curveConfig.ID ++ ": Missing sensorId")
    else if !sensorIdExists linear.Sensor config then
      some ("Curve " ++ curveConfig.ID ++ ": no sensor definition with id \x27" ++ linear.Sensor
        ++ "\x27 found")
    else none

/-- The block `if curveConfig.PID != nil` of `validateCurves`. -/
def pidBlock (config : Configuration) (curveConfig : CurveConfig) : Option String :=
  match curveConfig.PID with
  | none => none
  | some pidConfig =>
    if len pidConfig.Sensor ≤ 0 then
      some ("Curve " ++ curveConfig.ID ++ ": Missing sensorId")
    else if !sensorIdExists pidConfig.Sensor config then
      some ("Curve " ++ curveConfig.ID ++ ": no sensor definition with id \x27"
        ++ pidConfig.Sensor ++ "\x27 found")
    else if pidConfig.P = 0 ∧ pidConfig.I = 0 ∧ pidConfig.D = 0 then
      some ("Curve " ++ curveConfig.ID ++ ": all PID constants are zero")
    else none

/-- The loop of `validateCurves` from the entry `curveConfig` on, followed by the call of
`validateNoLoops`; `graph` and `curveIds` are the values of the two local variables. -/
def validateCurvesLoop (Connections : Graph → List (List String)) (config : Configuration) :
    List CurveConfig → Graph → List String → Result
  | [], graph, _ => (validateNoLoops Connections graph, [])
  | curveConfig :: rest, graph, curveIds =>
    if curveIds.contains curveConfig.ID then
      (some ("Duplicate curve id detected: " ++ curveConfig.ID), [])
    else
      let curveIds := curveIds ++ [curveConfig.ID]
      let subConfigs : Nat :=
        (if curveConfig.Linear.isSome then 1 else 0)
          + (if curveConfig.PID.isSome then 1 else 0)
          + (if curveConfig.Function.isSome then 1 else 0)
      if subConfigs > 1 then
        (some ("Curve " ++ curveConfig.ID
          ++ ": only one curve type can be used per curve definition block"), [])
      else if subConfigs ≤ 0 then
        (some ("Curve " ++ curveConfig.ID
          ++ ": sub-configuration for curve is missing, use one of: linear | pid | function"),
          [])
      else
        let warnings :=
          if !isCurveConfigInUse curveConfig config.Curves config.Fans then
            [Effect.warning ("Unused curve configuration: " ++ curveConfig.ID)]
          else []
        match functionBlock config curveConfig graph with
        | .error e => (some e, warnings)
        | .ok graph =>
          match linearBlock config curveConfig with
          | some e => (some e, warnings)
          | none =>
            match pidBlock config curveConfig with
            | some e => (some e, warnings)
            | none =>
              Result.after warnings (validateCurvesLoop Connections config rest graph curveIds)

/-- The function `validateCurves`. -/
def validateCurves (Connections : Graph → List (List String)) (config : Configuration) :
    Result :=
  validateCurvesLoop Connections config config.Curves [] []

/-- The block `if fanConfig.HwMon != nil` of `validateFans`. -/
def hwMonFanBlock (fanConfig : FanConfig) : Option String :=
  match fanConfig.HwMon with
  | none => none
  | some hwMon =>
    if (hwMon.Index ≠ 0 ∧ hwMon.Channel ≠ 0) ∨ (hwMon.Index = 0 ∧ hwMon.Channel = 0) then
      some ("Fan " ++ fanConfig.ID ++ ": must have one of index or channel, must be >= 1")
    else if hwMon.Index < 0 then
      some ("Fan " ++ fanConfig.ID ++ ": invalid index, must be >= 1")
    else if hwMon.Channel < 0 then
      some ("Fan " ++ fanConfig.ID ++ ": invalid channel, must be >= 1")
    else if hwMon.PwmChannel < 0 then
      some ("Fan " ++ fanConfig.ID ++ ": invalid pwmChannel, must be >= 1")
    else none

/-- The block `if fanConfig.File != nil` of `validateFans`. -/
def fileFanBlock (fanConfig : FanConfig) : Option String :=
  match fanConfig.File with
  | none => none
  | some file =>
    if len file.Path ≤ 0 then some ("Fan " ++ fanConfig.ID ++ ": no file path provided")
    else none

/-- The block `if fanConfig.Cmd != nil` of `validateFans`. -/
def cmdFanBlock (fanConfig : FanConfig) : Option String :=
  match fanConfig.Cmd with
  | none => none
  | some cmdConfig =>
    match cmdConfig.SetPwm with
    | none => some ("Fan " ++ fanConfig.ID ++ ": missing setPwm configuration")
    | some setPwm =>
      if len setPwm.Exec ≤ 0 then
        some ("Fan " ++ fanConfig.ID ++ ": setPwm executable is missing")
      else
        match cmdConfig.GetPwm with
        | none => some ("Fan " ++ fanConfig.ID ++ ": missing getPwm configuration")
        | some getPwm =>
          if len getPwm.Exec ≤ 0 then
            some ("Fan " ++ fanConfig.ID ++ ": getPwm executable is missing")
          else none

/-- The loop of `validateFans` from the entry `fanConfig` on; `fanIds` are the ids seen so
far. -/
def validateFansLoop (config : Configuration) : List FanConfig → List String → Option String
  | [], _ => none
  | fanConfig :: rest, fanIds =>
    if fanIds.contains fanConfig.ID then
      some ("Duplicate fan id detected: " ++ fanConfig.ID)
    else
      let fanIds := fanIds ++ [fanConfig.ID]
      let subConfigs : Nat :=
        (if fanConfig.HwMon.isSome then 1 else 0)
          + (if fanConfig.File.isSome then 1 else 0)
          + (if fanConfig.Cmd.isSome then 1 else 0)
      if subConfigs > 1 then
        some ("Fan " ++ fanConfig.ID
          ++ ": only one fan type can be used per fan definition block")
      else if subConfigs ≤ 0 then
        some ("Fan " ++ fanConfig.ID
          ++ ": sub-configuration for fan is missing, use one of: hwmon | file | cmd")
      else if len fanConfig.Curve ≤ 0 then
        some ("Fan " ++ fanConfig.ID ++ ": missing curve definition in configuration entry")
      else if !curveIdExists fanConfig.Curve config then
        some ("Fan " ++ fanConfig.ID ++ ": no curve definition with id \x27" ++ fanConfig.Curve
          ++ "\x27 found")
      else
        match hwMonFanBlock fanConfig with
        | some e => some e
        | none =>
          match fileFanBlock fanConfig with
          | some e => some e
          | none =>
            match cmdFanBlock fanConfig with
            | some e => some e
            | none => validateFansLoop config rest fanIds

/-- The function `validateFans`; it calls no collaborator. -/
def validateFans (config : Configuration) : Option String :=
  validateFansLoop config config.Fans []

/-- The function `validateConfig`. `Connections` stands for `tarjan.Connections`,
`CheckFilePermissionsForExecution path` is the error, if any, returned by
`util.CheckFilePermissionsForExecution(path)`, and `CurrentConfig` is the value of the global
variable read by `containsCmdSensors` and `containsCmdFan`. -/
def validateConfig (Connections : Graph → List (List String))
    (CheckFilePermissionsForExecution : String → Option String)
    (CurrentConfig : Configuration) (config : Configuration) (path : String) : Result :=
  match validateSensors config with
  | (some err, effects) => (some err, effects)
  | (none, effects) =>
    match validateCurves Connections config with
    | (some err, effects') => (some err, effects ++ effects')
    | (none, effects') =>
      let err := validateFans config
      if containsCmdSensors CurrentConfig || containsCmdFan CurrentConfig then
        match CheckFilePermissionsForExecution path with
        | some permErr =>
          (some ("Config file \x27" ++ path ++ "\x27 has invalid permissions: " ++ permErr),
            effects ++ effects' ++ [Effect.checkFilePermissions path])
        | none => (err, effects ++ effects' ++ [Effect.checkFilePermissions path])
      else
        (err, effects ++ effects')

/-- The function `Validate`: `validateConfig` on the global `CurrentConfig`. -/
def Validate (Connections : Graph → List (List String))
    (CheckFilePermissionsForExecution : String → Option String)
    (CurrentConfig : Configuration) (configPath : String) : Result :=
  validateConfig Connections CheckFilePermissionsForExecution CurrentConfig CurrentConfig
    configPath

/-! ## `float64` arithmetic -/

/-- Go's type `float64`, an IEEE 754 double: NaN, the two infinities, and the finite values,
`finite m e` being `m * 2^e`. The two zeros are not told apart (addition, subtraction,
multiplication, comparison, `math.Round` and `int()` give the same integer result for both). -/
inductive Float64 where
  | nan
  | inf (negative : Bool)
  | finite (m : Int) (e : Int)
deriving DecidableEq, Repr

/-- The number of binary digits of `n`, for `fuel` at least `n`. -/
def bitLengthAux : Nat → Nat → Nat
  | 0, _ => 0
  | fuel + 1, n => if n = 0 then 0 else bitLengthAux fuel (n / 2) + 1

/-- The number of binary digits of `n`: the least `b` with `n < 2^b`. -/
def bitLength (n : Nat) : Nat := bitLengthAux n n

/-- The double nearest to the exact value `m * 2^e`, a tie going to the even mantissa: at most
53 binary digits, no exponent below -1074, and an infinity when the rounded value reaches
`2^1024`. Every arithmetic operation of `float64` rounds its exact result this way. -/
def Float64.round (m : Int) (e : Int) : Float64 :=
  if m = 0 then Float64.finite 0 0
  else
    let exponent : Int := e + bitLength m.natAbs - 1
    let qe : Int := max (exponent - 52) (-1074)
    if qe ≤ e then
      if exponent < 1024 then Float64.finite m e else Float64.inf (decide (m < 0))
    else
      let shift : Nat := (qe - e).toNat
      let q : Nat := m.natAbs / 2 ^ shift
      let r : Nat := m.natAbs % 2 ^ shift
      let half : Nat := 2 ^ (shift - 1)
      let rounded : Nat := if r > half ∨ (r = half ∧ q % 2 = 1) then q + 1 else q
      if qe + bitLength rounded ≤ 1024 then
        Float64.finite (if m < 0 then -(rounded : Int) else (rounded : Int)) qe
      else Float64.inf (decide (m < 0))

/-- The operation `x + y` of `float64`. -/
def Float64.add : Float64 → Float64 → Float64
  | Float64.nan, _ => Float64.nan
  | _, Float64.nan => Float64.nan
  | Float64.inf a, Float64.inf b => if a = b then Float64.inf a else Float64.nan
  | Float64.inf a, Float64.finite _ _ => Float64.inf a
  | Float64.finite _ _, Float64.inf b => Float64.inf b
  | Float64.finite m1 e1, Float64.finite m2 e2 =>
    Float64.round (m1 * 2 ^ (e1 - min e1 e2).toNat + m2 * 2 ^ (e2 - min e1 e2).toNat)
      (min e1 e2)

/-- The operation `-x` of `float64`. -/
def Float64.neg : Float64 → Float64
  | Float64.nan => Float64.nan
  | Float64.inf a => Float64.inf (!a)
  | Float64.finite m e => Float64.finite (-m) e

/-- The operation `x - y` of `float64`. -/
def Float64.sub (x y : Float64) : Float64 := x.add y.neg

/-- The operation `x * y` of `float64`. -/
def Float64.mul : Float64 → Float64 → Float64
  | Float64.nan, _ => Float64.nan
  | _, Float64.nan => Float64.nan
  | Float64.inf a, Float64.inf b => Float64.inf (a != b)
  | Float64.inf a, Float64.finite m _ =>
    if m = 0 then Float64.nan else Float64.inf (a != decide (m < 0))
  | Float64.finite m _, Float64.inf b =>
    if m = 0 then Float64.nan else Float64.inf (decide (m < 0) != b)
  | Float64.finite m1 e1, Float64.finite m2 e2 => Float64.round (m1 * m2) (e1 + e2)

/-- The comparison `x < y` of `float64`: false when an operand is NaN. -/
def Float64.lt : Float64 → Float64 → Bool
  | Float64.nan, _ => false
  | _, Float64.nan => false
  | Float64.inf a, Float64.inf b => a && !b
  | Float64.inf a, Float64.finite _ _ => a
  | Float64.finite _ _, Float64.inf b => !b
  | Float64.finite m1 e1, Float64.finite m2 e2 =>
    decide (m1 * 2 ^ (e1 - min e1 e2).toNat < m2 * 2 ^ (e2 - min e1 e2).toNat)

/-- The comparison `x > y` of `float64`: false when an operand is NaN. -/
def Float64.gt (x y : Float64) : Bool := y.lt x

/-- Go's conversion `float64(n)` of an integer: the nearest double. -/
def float64 (n : Int) : Float64 := Float64.round n 0

/-- Go's `math.Round`: the nearest integer, halves rounded away from zero; NaN and the
infinities are returned as they are. -/
def Round : Float64 → Float64
  | Float64.nan => Float64.nan
  | Float64.inf a => Float64.inf a
  | Float64.finite m e =>
    if 0 ≤ e then Float64.finite m e
    else
      let shift : Nat := (-e).toNat
      let q : Nat := m.natAbs / 2 ^ shift
      let r : Nat := m.natAbs % 2 ^ shift
      let rounded : Nat := if 2 * r ≥ 2 ^ shift then q + 1 else q
      Float64.finite (if m < 0 then -(rounded : Int) else (rounded : Int)) 0

/-- Go's conversion `int(f)` of a `float64` to the 64-bit `int`: the fraction is discarded.
For NaN, the infinities and the values out of the range of `int` the language leaves the
result to the implementation; the result of the amd64 implementation, `-2^63`, is used. -/
def int : Float64 → Int
  | Float64.nan => -9223372036854775808
  | Float64.inf _ => -9223372036854775808
  | Float64.finite m e =>
    let z : Int :=
      if 0 ≤ e then m * 2 ^ e.toNat
      else if m < 0 then -((m.natAbs / 2 ^ (-e).toNat : Nat) : Int)
      else ((m.natAbs / 2 ^ (-e).toNat : Nat) : Int)
    if -9223372036854775808 ≤ z ∧ z < 9223372036854775808 then z else -9223372036854775808

/-- The value is a finite double, in any of the forms `Float64.round` yields: a mantissa of at
most 53 binary digits, or `2^53` where a mantissa was rounded up, an exponent of at least
-1074, and a magnitude below `2^1024`. -/
def Float64.IsFinite (x : Float64) : Prop :=
  ∃ m e, x = Float64.finite m e ∧ m.natAbs ≤ 2 ^ 53 ∧ -1074 ≤ e
    ∧ e + bitLength m.natAbs ≤ 1024

/-! ## `pid.go` -/

/-- Modelled from the spec: the type `util.PidLoop`, declared outside `pid.go`: the fixed gains
`p`, `i`, `d` and the carried state, the accumulated integral term and the previous error. -/
structure PidLoop where
  P : Float64
  I : Float64
  D : Float64
  integral : Float64
  previousError : Float64
deriving DecidableEq, Repr

/-- Modelled from the spec: `util.NewPidLoop`, declared outside `pid.go`: the gains are the
arguments, the integral term and the previous error are initialised to zero. -/
def NewPidLoop (p i d : Float64) : PidLoop :=
  { P := p, I := i, D := d, integral := Float64.finite 0 0,
    previousError := Float64.finite 0 0 }

/-- Modelled from the spec: `util.PidLoop.Loop`, declared outside `pid.go`, with a unit time
step: `error = target - measured`, `integral += error`, `derivative = error - previousError`,
`previousError = error`, and the returned correction is
`p*error + i*integral + d*derivative`, every operation being one of `float64`. The result is
the correction and the state after the call. -/
def PidLoop.Loop (l : PidLoop) (target measured : Float64) : Float64 × PidLoop :=
  let error := target.sub measured
  let integral := l.integral.add error
  let derivative := error.sub l.previousError
  (((l.P.mul error).add (l.I.mul integral)).add (l.D.mul derivative),
    { l with integral := integral, previousError := error })

/-- Modelled from the spec: `util.Coerce`, declared outside `pid.go`: the value clamped into
the range from `min` to `max` by two comparisons, `max` when `value > max`, `min` when
`value < min`, and `value` otherwise. -/
def Coerce (value min max : Float64) : Float64 :=
  if value.gt max then max else if value.lt min then min else value

/-- The type `PidControlLoop`. -/
structure PidControlLoop where
  pidLoop : PidLoop
deriving DecidableEq, Repr

/-- The function `NewPidControlLoop`. -/
def NewPidControlLoop (p i d : Float64) : PidControlLoop :=
  { pidLoop := NewPidLoop p i d }

/-- The method `PidControlLoop.Cycle`: the returned `stepTarget`, and the control loop after
the call (`pidLoop.Loop` updates the state of `pidLoop`). Go's `int` has 64 bits; the
arguments are converted as `float64()` converts any integer. -/
def PidControlLoop.Cycle (l : PidControlLoop) (target lastSetPwm : Int) :
    Int × PidControlLoop :=
  let (result, pidLoop) := l.pidLoop.Loop (float64 target) (float64 lastSetPwm)
  -- ensure we are within sane bounds
  let coerced := Coerce ((float64 lastSetPwm).add result) (float64 0) (float64 255)
  let stepTarget := int (Round coerced)
  (stepTarget, { pidLoop := pidLoop })

/-! ## The properties of a configuration the claims speak about -/

/-- The number of populated variants among the given pointers (`true` is a non-nil pointer). -/
def populated (flags : List Bool) : Nat := flags.count true

/-- The sensor has exactly one of HwMon, File, Cmd populated. -/
def SensorConfig.ExactlyOne (s : SensorConfig) : Prop :=
  populated [s.HwMon.isSome, s.File.isSome, s.Cmd.isSome] = 1

/-- The curve has exactly one of Linear, PID, Function populated. -/
def CurveConfig.ExactlyOne (c : CurveConfig) : Prop :=
  populated [c.Linear.isSome, c.PID.isSome, c.Function.isSome] = 1

/-- The fan has exactly one of HwMon, File, Cmd populated. -/
def FanConfig.ExactlyOne (f : FanConfig) : Prop :=
  populated [f.HwMon.isSome, f.File.isSome, f.Cmd.isSome] = 1

/-- The id is the id of some sensor of the configuration. -/
def Configuration.HasSensor (cfg : Configuration) (id : String) : Prop :=
  ∃ s ∈ cfg.Sensors, s.ID = id

/-- The id is the id of some curve of the configuration. -/
def Configuration.HasCurve (cfg : Configuration) (id : String) : Prop :=
  ∃ c ∈ cfg.Curves, c.ID = id

/-- The per-sensor conditions: exactly one variant, and an index of at least 1 for HwMon. -/
def SensorConfig.Valid (s : SensorConfig) : Prop :=
  s.ExactlyOne ∧ ∀ hwMon ∈ s.HwMon, 1 ≤ hwMon.Index

/-- The conditions on a Function curve with id `id`: a supported type, and every listed id is
the id of an existing curve other than the curve itself. -/
def FunctionCurveConfig.Valid (cfg : Configuration) (id : String)
    (f : FunctionCurveConfig) : Prop :=
  f.Type_ ∈ [FunctionMinimum, FunctionAverage, FunctionMaximum, FunctionDelta, FunctionSum,
      FunctionDifference]
    ∧ ∀ curve ∈ f.Curves, curve ≠ id ∧ cfg.HasCurve curve

/-- The per-curve conditions: exactly one variant; a valid Function block; for Linear and PID
a non-empty sensor id that exists; for PID gains that are not all zero. -/
def CurveConfig.Valid (cfg : Configuration) (c : CurveConfig) : Prop :=
  c.ExactlyOne
    ∧ (∀ f ∈ c.Function, f.Valid cfg c.ID)
    ∧ (∀ l ∈ c.Linear, l.Sensor ≠ "" ∧ cfg.HasSensor l.Sensor)
    ∧ (∀ p ∈ c.PID, p.Sensor ≠ "" ∧ cfg.HasSensor p.Sensor ∧ ¬ (p.P = 0 ∧ p.I = 0 ∧ p.D = 0))

/-- The HwMon fan rule: exactly one of index and channel is positive, the other is 0, and
pwmChannel is not negative. -/
def HwMonFanConfig.Valid (hwMon : HwMonFanConfig) : Prop :=
  ((0 < hwMon.Index ∧ hwMon.Channel = 0) ∨ (hwMon.Index = 0 ∧ 0 < hwMon.Channel))
    ∧ 0 ≤ hwMon.PwmChannel

/-- The Cmd fan rule: a setPwm and a getPwm block, each with a non-empty executable. -/
def CmdFanConfig.Valid (cmd : CmdFanConfig) : Prop :=
  (∃ setPwm ∈ cmd.SetPwm, setPwm.Exec ≠ "") ∧ (∃ getPwm ∈ cmd.GetPwm, getPwm.Exec ≠ "")

/-- The per-fan conditions. -/
def FanConfig.Valid (cfg : Configuration) (f : FanConfig) : Prop :=
  f.ExactlyOne ∧ f.Curve ≠ "" ∧ cfg.HasCurve f.Curve
    ∧ (∀ hwMon ∈ f.HwMon, hwMon.Valid)
    ∧ (∀ file ∈ f.File, file.Path ≠ "")
    ∧ (∀ cmd ∈ f.Cmd, cmd.Valid)

/-- The Function-curve reference graph of a configuration: an edge from `a` to `b` whenever a
Function curve with id `a` lists `b` among its curves. -/
def Configuration.Lists (cfg : Configuration) (a b : String) : Prop :=
  ∃ c ∈ cfg.Curves, c.ID = a ∧ ∃ f ∈ c.Function, b ∈ f.Curves

/-- The reference graph has no directed cycle, of any length (self-loops included). -/
def Configuration.Acyclic (cfg : Configuration) : Prop :=
  ∀ a, ¬ Relation.TransGen cfg.Lists a a

/-- The map `validateCurves` has built from `graph` once its loop has run over `curves` without
returning: one assignment `graph[ID] = Curves` per Function curve, in order. -/
def buildGraph : List CurveConfig → Graph → Graph
  | [], graph => graph
  | c :: rest, graph =>
    match c.Function with
    | some f => buildGraph rest (graph.set c.ID f.Curves)
    | none => buildGraph rest graph

/-- The id of the sensor is the sensor of no Linear and of no PID curve. -/
abbrev Configuration.SensorUnused (cfg : Configuration) (s : SensorConfig) : Prop :=
  ∀ c ∈ cfg.Curves, (∀ l ∈ c.Linear, l.Sensor ≠ s.ID) ∧ (∀ p ∈ c.PID, p.Sensor ≠ s.ID)

/-- The id of the curve is listed by no Function curve and is the curve of no fan. -/
abbrev Configuration.CurveUnused (cfg : Configuration) (c : CurveConfig) : Prop :=
  (∀ c' ∈ cfg.Curves, ∀ f ∈ c'.Function, c.ID ∉ f.Curves) ∧ (∀ fan ∈ cfg.Fans, fan.Curve ≠ c.ID)

/-- The messages of the warnings among the effects, in order. -/
def warnings (effects : List Effect) : List String :=
  effects.filterMap (fun e =>
    match e with
    | Effect.warning msg => some msg
    | Effect.checkFilePermissions _ => none)

/-- The list `items` is a strongly connected component of the reference graph with more than
one member: no id twice, and its members are exactly the ids that reach, and are reached from,
any one of them. -/
def Configuration.IsCycleComponent (cfg : Configuration) (items : List String) : Prop :=
  1 < items.length ∧ items.Nodup
    ∧ ∀ a ∈ items, ∀ b, b ∈ items ↔
        (Relation.ReflTransGen cfg.Lists a b ∧ Relation.ReflTransGen cfg.Lists b a)

/-- Modelled from the spec: another function that meets the contract of `tarjan.Connections`,
as a run in which the map yields its keys in another order may behave: the components of
`Connections`, the members of each in the opposite order. -/
def ConnectionsReversed (graph : Graph) : List (List String) :=
  (Connections graph).map List.reverse

/-! ## Example configurations -/

/-- A configuration that passes every check: a hwmon and a command sensor, a linear, a PID and
a function curve, a hwmon and a file fan. -/
def exampleConfig : Configuration where
  Sensors := [
    { ID := "cpu", HwMon := some { Index := 1 }, File := none, Cmd := none },
    { ID := "script", HwMon := none, File := none,
      Cmd := some { Exec := "/usr/bin/temp", Args := [] } }]
  Curves := [
    { ID := "cpu_curve", Linear := some { Sensor := "cpu" }, PID := none, Function := none },
    { ID := "pid_curve", Linear := none,
      PID := some { Sensor := "script", P := 1, I := 0, D := 0 }, Function := none },
    { ID := "max_curve", Linear := none, PID := none,
      Function := some { Type_ := "maximum", Curves := ["cpu_curve", "pid_curve"] } }]
  Fans := [
    { ID := "front", Curve := "max_curve",
      HwMon := some { Index := 1, Channel := 0, PwmChannel := 0 }, File := none, Cmd := none },
    { ID := "rear", Curve := "cpu_curve", HwMon := none,
      File := some { Path := "/tmp/rear_pwm" }, Cmd := none }]

/-- Two function curves that list each other. -/
def cycleConfig : Configuration where
  Sensors := []
  Curves := [
    { ID := "A", Linear := none, PID := none,
      Function := some { Type_ := "sum", Curves := ["B"] } },
    { ID := "B", Linear := none, PID := none,
      Function := some { Type_ := "sum", Curves := ["A"] } }]
  Fans := []

/-- The id `a` occurs twice among the sensors, and the first entry has no variant at all. -/
def duplicateConfig : Configuration where
  Sensors := [
    { ID := "a", HwMon := none, File := none, Cmd := none },
    { ID := "a", HwMon := some { Index := 1 }, File := none, Cmd := none }]
  Curves := []
  Fans := []

/-- The sensor id `a` occurs twice, the first entry being valid. -/
def repeatedSensorConfig : Configuration where
  Sensors := [
    { ID := "a", HwMon := some { Index := 1 }, File := none, Cmd := none },
    { ID := "a", HwMon := some { Index := 2 }, File := none, Cmd := none }]
  Curves := []
  Fans := []

/-- The curve id `c` occurs twice, the first entry being valid; the sensor phase passes. -/
def repeatedCurveConfig : Configuration where
  Sensors := [{ ID := "a", HwMon := some { Index := 1 }, File := none, Cmd := none }]
  Curves := [
    { ID := "c", Linear := some { Sensor := "a" }, PID := none, Function := none },
    { ID := "c", Linear := none, PID := none, Function := none }]
  Fans := []

/-- The fan id `f` occurs twice, the first entry being valid; the sensor and curve phases
pass and nothing uses Cmd. -/
def repeatedFanConfig : Configuration where
  Sensors := [{ ID := "a", HwMon := some { Index := 1 }, File := none, Cmd := none }]
  Curves := [{ ID := "c", Linear := some { Sensor := "a" }, PID := none, Function := none }]
  Fans := [
    { ID := "f", Curve := "c", HwMon := none, File := some { Path := "/tmp/pwm" },
      Cmd := none },
    { ID := "f", Curve := "missing", HwMon := none, File := none, Cmd := none }]

/-- The sensor and curve phases pass, the only fan is a command fan without a `setPwm`
block. -/
def brokenFanConfig : Configuration where
  Sensors := [{ ID := "cpu", HwMon := some { Index := 1 }, File := none, Cmd := none }]
  Curves := [
    { ID := "cpu_curve", Linear := some { Sensor := "cpu" }, PID := none, Function := none }]
  Fans := [
    { ID := "front", Curve := "cpu_curve", HwMon := none, File := none,
      Cmd := some { SetPwm := none, GetPwm := none } }]

/-- The configuration `exampleConfig` without its command sensor. -/
def plainConfig : Configuration where
  Sensors := [{ ID := "cpu", HwMon := some { Index := 1 }, File := none, Cmd := none }]
  Curves := [
    { ID := "cpu_curve", Linear := some { Sensor := "cpu" }, PID := none, Function := none }]
  Fans := [
    { ID := "front", Curve := "cpu_curve",
      HwMon := some { Index := 0, Channel := 2, PwmChannel := 0 }, File := none, Cmd := none }]

/-- The configuration `exampleConfig` with its curves declared in another order. -/
def reorderedConfig : Configuration where
  Sensors := exampleConfig.Sensors
  Curves := [
    { ID := "max_curve", Linear := none, PID := none,
      Function := some { Type_ := "maximum", Curves := ["cpu_curve", "pid_curve"] } },
    { ID := "cpu_curve", Linear := some { Sensor := "cpu" }, PID := none, Function := none },
    { ID := "pid_curve", Linear := none,
      PID := some { Sensor := "script", P := 1, I := 0, D := 0 }, Function := none }]
  Fans := exampleConfig.Fans

/-- The configuration `exampleConfig` with a sensor `spare` no curve reads, a curve `idle`
nothing refers to, and without the command sensor. -/
def unusedConfig : Configuration where
  Sensors := [
    { ID := "spare", HwMon := none, File := some { Path := "/tmp/spare" }, Cmd := none },
    { ID := "cpu", HwMon := some { Index := 1 }, File := none, Cmd := none }]
  Curves := [
    { ID := "cpu_curve", Linear := some { Sensor := "cpu" }, PID := none, Function := none },
    { ID := "idle", Linear := none,
      PID := some { Sensor := "cpu", P := 0, I := 1, D := 0 }, Function := none },
    { ID := "max_curve", Linear := none, PID := none,
      Function := some { Type_ := "maximum", Curves := ["cpu_curve"] } }]
  Fans := [
    { ID := "front", Curve := "max_curve",
      HwMon := some { Index := 1, Channel := 0, PwmChannel := 0 }, File := none, Cmd := none }]

/-- A function curve that lists itself. -/
def selfReferenceConfig : Configuration where
  Sensors := []
  Curves := [
    { ID := "A", Linear := none, PID := none,
      Function := some { Type_ := "sum", Curves := ["A"] } }]
  Fans := []

/-- The graph with the single edge from `A` to `A`. -/
def selfLoopGraph : Graph := [("A", ["A"])]

/-- The global configuration before anything is loaded: no sensors, curves or fans. -/
def emptyConfig : Configuration where
  Sensors := []
  Curves := []
  Fans := []

/-- A control loop with the gains 1, 0, 0 that has been running: the integral and the previous
error are 100. -/
def runningLoop : PidControlLoop where
  pidLoop := {
    P := Float64.finite 1 0
    I := Float64.finite 0 0
    D := Float64.finite 0 0
    integral := Float64.finite 100 0
    previousError := Float64.finite 100 0 }

/-! ## The executable `Connections` meets the contract `IsConnections` -/

theorem Graph.mem_nodes_of_mem_get {g : Graph} {a b : String} (h : b ∈ g.get a) :
    b ∈ g.nodes := by
  have key : b ∈ g.flatMap Prod.snd := by
    induction g with
    | nil => simp [Graph.get] at h
    | cons e rest ih =>
      obtain ⟨k, v⟩ := e
      simp only [Graph.get] at h
      split at h
      · simp [h]
      · simp [ih h]
  exact List.mem_append_right _ key

theorem Graph.mem_expand {g : Graph} {seen : List String} {w : String} :
    w ∈ g.expand seen ↔ (∃ t ∈ seen, w ∈ g.get t) ∧ w ∉ seen := by
  simp [Graph.expand, List.mem_dedup, List.mem_filter, List.mem_flatMap]

theorem Graph.closure_subset (g : Graph) (fuel : Nat) (seen : List String) :
    seen ⊆ g.closure fuel seen := by
  induction fuel generalizing seen with
  | zero => simp [Graph.closure]
  | succ n ih =>
    simp only [Graph.closure]
    split
    · exact List.Subset.refl _
    · exact fun x hx => ih _ (List.mem_append_left _ hx)

theorem Graph.closure_sound (g : Graph) (fuel : Nat) (seen : List String) (w : String)
    (hw : w ∈ g.closure fuel seen) : ∃ s ∈ seen, g.Reach s w := by
  induction fuel generalizing seen with
  | zero => exact ⟨w, by simpa [Graph.closure] using hw, Relation.ReflTransGen.refl⟩
  | succ n ih =>
    simp only [Graph.closure] at hw
    split at hw
    · exact ⟨w, hw, Relation.ReflTransGen.refl⟩
    · obtain ⟨s, hs, hsw⟩ := ih _ hw
      rcases List.mem_append.mp hs with hs | hs
      · exact ⟨s, hs, hsw⟩
      · obtain ⟨⟨t, ht, hts⟩, _⟩ := Graph.mem_expand.mp hs
        exact ⟨t, ht, Relation.ReflTransGen.head hts hsw⟩

theorem Graph.closure_nodup (g : Graph) (fuel : Nat) (seen : List String)
    (hn : seen.Nodup) : (g.closure fuel seen).Nodup := by
  induction fuel generalizing seen with
  | zero => simpa [Graph.closure] using hn
  | succ n ih =>
    simp only [Graph.closure]
    split
    · exact hn
    · apply ih
      refine List.nodup_append.mpr ⟨hn, List.nodup_dedup _, ?_⟩
      intro x hx hx2
      exact (Graph.mem_expand.mp hx2).2 hx

theorem Graph.closure_closed (g : Graph) (U : List String)
    (hU : ∀ a ∈ U, ∀ b ∈ g.get a, b ∈ U) (fuel : Nat) (seen : List String)
    (hsub : seen ⊆ U) (hn : seen.Nodup) (hlen : U.length < seen.length + fuel) :
    ∀ a ∈ g.closure fuel seen, ∀ b ∈ g.get a, b ∈ g.closure fuel seen := by
  induction fuel generalizing seen with
  | zero =>
    have := (hn.subperm hsub).length_le
    omega
  | succ n ih =>
    simp only [Graph.closure]
    split
    · rename_i hnil
      intro a ha b hb
      by_contra hcon
      have : b ∈ g.expand seen := Graph.mem_expand.mpr ⟨⟨a, ha, hb⟩, hcon⟩
      rw [hnil] at this
      exact List.not_mem_nil _ this
    · rename_i hne
      apply ih
      · intro x hx
        rcases List.mem_append.mp hx with hx | hx
        · exact hsub hx
        · obtain ⟨⟨t, ht, htx⟩, _⟩ := Graph.mem_expand.mp hx
          exact hU t (hsub ht) x htx
      · refine List.nodup_append.mpr ⟨hn, List.nodup_dedup _, ?_⟩
        intro x hx hx2
        exact (Graph.mem_expand.mp hx2).2 hx
      · have hpos : 0 < (g.expand seen).length := List.length_pos.mpr hne
        rw [List.length_append]
        omega

theorem Graph.mem_reachable {g : Graph} {v w : String} :
    w ∈ g.reachable v ↔ g.Reach v w := by
  constructor
  · intro h
    obtain ⟨s, hs, hsw⟩ := Graph.closure_sound g _ _ w h
    rw [List.mem_singleton] at hs
    exact hs ▸ hsw
  · intro h
    have hclosed := Graph.closure_closed g (v :: g.nodes)
      (fun a _ b hb => List.mem_cons_of_mem _ (Graph.mem_nodes_of_mem_get hb))
      (g.nodes.length + 1) [v] (by simp) (List.nodup_singleton v) (by simp)
    induction h with
    | refl => exact Graph.closure_subset g _ _ (List.mem_singleton_self v)
    | tail _ hbc ih => exact hclosed _ ih _ hbc

theorem Graph.mem_component {g : Graph} {v w : String} :
    w ∈ g.component v ↔ g.Reach v w ∧ g.Reach w v := by
  simp [Graph.component, List.mem_filter, Graph.mem_reachable]

theorem Graph.component_nodup (g : Graph) (v : String) : (g.component v).Nodup :=
  (Graph.closure_nodup g _ _ (List.nodup_singleton v)).filter _

theorem Graph.components_spec (g : Graph) (vs : List String) (out : List (List String))
    (hout : ∀ c ∈ out, ∃ v, c = g.component v) :
    (∀ c ∈ g.components vs out, ∃ v, c = g.component v) ∧
      (∀ v ∈ vs, ∃ c ∈ g.components vs out, v ∈ c) ∧
      (∀ c ∈ out, c ∈ g.components vs out) := by
  induction vs generalizing out with
  | nil => exact ⟨by simpa [Graph.components] using hout, by simp, by simp [Graph.components]⟩
  | cons v vs ih =>
    simp only [Graph.components]
    split
    · rename_i hany
      obtain ⟨h1, h2, h3⟩ := ih out hout
      refine ⟨h1, ?_, h3⟩
      intro x hx
      rcases List.mem_cons.mp hx with rfl | hx
      · obtain ⟨c, hc, hxc⟩ := List.any_eq_true.mp hany
        exact ⟨c, h3 c hc, by simpa using hxc⟩
      · exact h2 x hx
    · have hout2 : ∀ c ∈ out ++ [g.component v], ∃ u, c = g.component u := by
        intro c hc
        rcases List.mem_append.mp hc with hc | hc
        · exact hout c hc
        · exact ⟨v, by simpa using hc⟩
      obtain ⟨h1, h2, h3⟩ := ih _ hout2
      refine ⟨h1, ?_, fun c hc => h3 c (List.mem_append_left _ hc)⟩
      intro x hx
      rcases List.mem_cons.mp hx with rfl | hx
      · exact ⟨g.component x, h3 _ (by simp),
          Graph.mem_component.mpr ⟨Relation.ReflTransGen.refl, Relation.ReflTransGen.refl⟩⟩
      · exact h2 x hx

/-- The executable `Connections` returns the strongly connected components of the graph. -/
theorem Connections_isConnections (g : Graph) : IsConnections g (Connections g) := by
  obtain ⟨h1, h2, _⟩ := Graph.components_spec g g.nodes [] (by simp)
  refine ⟨?_, ?_, h2⟩
  · intro c hc
    obtain ⟨v, rfl⟩ := h1 c hc
    exact Graph.component_nodup g v
  · intro c hc a ha b
    obtain ⟨v, rfl⟩ := h1 c hc
    obtain ⟨hva, hav⟩ := Graph.mem_component.mp ha
    rw [Graph.mem_component]
    constructor
    · rintro ⟨hvb, hbv⟩
      exact ⟨hav.trans hvb, hbv.trans hva⟩
    · rintro ⟨hab, hba⟩
      exact ⟨hva.trans hab, hba.trans hav⟩

/-! ## Basic facts -/

theorem len_le_zero_iff (s : String) : len s ≤ 0 ↔ s = "" := by
  unfold len
  constructor
  · intro h
    have h0 : s.data.length = 0 := by
      have : s.length = s.data.length := rfl
      omega
    exact String.ext (List.length_eq_zero.mp h0)
  · rintro rfl
    decide

theorem populated_eq (a b c : Bool) :
    ((if a then 1 else 0) + (if b then 1 else 0) + (if c then 1 else 0) : Nat)
      = populated [a, b, c] := by
  cases a <;> cases b <;> cases c <;> rfl

theorem fresh_append_iff {α : Type} (ID : α → String) (x : α) (rest : List α)
    (ids : List String) :
    (∀ y ∈ rest, ID y ∉ ids ++ [ID x]) ↔ (∀ y ∈ rest, ID y ∉ ids) ∧ ID x ∉ rest.map ID := by
  simp only [List.mem_append, List.mem_singleton, not_or, List.mem_map, not_exists, not_and]
  constructor
  · intro h
    exact ⟨fun y hy => (h y hy).1, fun y hy heq => (h y hy).2 heq⟩
  · rintro ⟨h1, h2⟩ y hy
    exact ⟨h1 y hy, fun heq => h2 y hy heq⟩

theorem contains_iff (ids : List String) (x : String) : ids.contains x = true ↔ x ∈ ids := by
  simp

/-! ## Sensor phase -/

theorem validateSensorsLoop_none_iff (cfg : Configuration) (l : List SensorConfig)
    (ids : List String) :
    (validateSensorsLoop cfg l ids).1 = none ↔
      (∀ s ∈ l, s.ID ∉ ids) ∧ (l.map (fun s => s.ID)).Nodup ∧ ∀ s ∈ l, s.Valid := by
  induction l generalizing ids with
  | nil => simp [validateSensorsLoop]
  | cons s rest ih =>
    simp only [validateSensorsLoop, populated_eq, contains_iff]
    by_cases hdup : s.ID ∈ ids
    · simp [hdup]
    · simp only [hdup, if_false]
      by_cases h1 : populated [s.HwMon.isSome, s.File.isSome, s.Cmd.isSome] = 1
      · have hgt : ¬ populated [s.HwMon.isSome, s.File.isSome, s.Cmd.isSome] > 1 := by omega
        have hle : ¬ populated [s.HwMon.isSome, s.File.isSome, s.Cmd.isSome] ≤ 0 := by omega
        simp only [hgt, hle, if_false]
        by_cases hidx : s.HwMon.any (fun hwMon => decide (hwMon.Index ≤ 0)) = true
        · simp only [hidx, if_true]
          have : ¬ s.Valid := by
            rintro ⟨_, hv⟩
            cases hs : s.HwMon with
            | none => simp [hs] at hidx
            | some hw =>
              simp [hs] at hidx
              have := hv hw (by simp [hs])
              omega
          simp [this]
        · simp only [hidx, Result.after, Bool.false_eq_true, if_false]
          rw [ih, fresh_append_iff (fun s : SensorConfig => s.ID) s rest ids]
          have hv : s.Valid := by
            refine ⟨h1, fun hw hhw => ?_⟩
            have hs : s.HwMon = some hw := hhw
            simp [hs] at hidx
            omega
          simp [hdup, hv]
          tauto
      · have : ¬ s.Valid := fun hv => h1 hv.1
        by_cases hgt : populated [s.HwMon.isSome, s.File.isSome, s.Cmd.isSome] > 1
        · simp [hgt, this]
        · have hle : populated [s.HwMon.isSome, s.File.isSome, s.Cmd.isSome] ≤ 0 := by omega
          simp [hgt, hle, this]

/-! ## Fan phase -/

theorem curveIdExists_iff (id : String) (cfg : Configuration) :
    curveIdExists id cfg = true ↔ cfg.HasCurve id := by
  simp [curveIdExists, Configuration.HasCurve]

theorem sensorIdExists_iff (id : String) (cfg : Configuration) :
    sensorIdExists id cfg = true ↔ cfg.HasSensor id := by
  simp [sensorIdExists, Configuration.HasSensor]

theorem hwMonFanBlock_none_iff (f : FanConfig) :
    hwMonFanBlock f = none ↔ ∀ hwMon ∈ f.HwMon, hwMon.Valid := by
  unfold hwMonFanBlock
  cases hf : f.HwMon with
  | none => simp
  | some hw =>
    simp only [Option.mem_def, Option.some.injEq, forall_eq', HwMonFanConfig.Valid]
    split_ifs <;> simp <;> omega

theorem fileFanBlock_none_iff (f : FanConfig) :
    fileFanBlock f = none ↔ ∀ file ∈ f.File, file.Path ≠ "" := by
  unfold fileFanBlock
  cases hf : f.File with
  | none => simp
  | some fl =>
    simp only [Option.mem_def, Option.some.injEq, forall_eq', len_le_zero_iff]
    split_ifs <;> simp [*]

theorem cmdFanBlock_none_iff (f : FanConfig) :
    cmdFanBlock f = none ↔ ∀ cmd ∈ f.Cmd, cmd.Valid := by
  unfold cmdFanBlock
  cases hf : f.Cmd with
  | none => simp
  | some cmd =>
    simp only [Option.mem_def, Option.some.injEq, forall_eq', CmdFanConfig.Valid,
      len_le_zero_iff]
    cases hs : cmd.SetPwm with
    | none => simp
    | some sp =>
      cases hg : cmd.GetPwm with
      | none => simp; split_ifs <;> simp
      | some gp => simp; split_ifs <;> simp [*]

theorem validateFansLoop_none_iff (cfg : Configuration) (l : List FanConfig)
    (ids : List String) :
    validateFansLoop cfg l ids = none ↔
      (∀ f ∈ l, f.ID ∉ ids) ∧ (l.map (fun f => f.ID)).Nodup ∧ ∀ f ∈ l, f.Valid cfg := by
  induction l generalizing ids with
  | nil => simp [validateFansLoop]
  | cons f rest ih =>
    simp only [validateFansLoop, populated_eq, contains_iff, len_le_zero_iff]
    by_cases hdup : f.ID ∈ ids
    · simp [hdup]
    · simp only [hdup, if_false]
      by_cases hv : f.Valid cfg
      · obtain ⟨h1, h2, h3, h4, h5, h6⟩ := hv
        have hv : f.Valid cfg := ⟨h1, h2, h3, h4, h5, h6⟩
        have h1' : populated [f.HwMon.isSome, f.File.isSome, f.Cmd.isSome] = 1 := h1
        have hgt : ¬ populated [f.HwMon.isSome, f.File.isSome, f.Cmd.isSome] > 1 := by omega
        have hle : ¬ populated [f.HwMon.isSome, f.File.isSome, f.Cmd.isSome] ≤ 0 := by omega
        simp only [hgt, hle, if_false, h2, (curveIdExists_iff _ _).mpr h3, Bool.not_true,
          Bool.false_eq_true, (hwMonFanBlock_none_iff f).mpr h4,
          (fileFanBlock_none_iff f).mpr h5, (cmdFanBlock_none_iff f).mpr h6]
        rw [ih, fresh_append_iff (fun f : FanConfig => f.ID) f rest ids]
        simp [hdup, hv]
        tauto
      · have hrhs : ¬ ((∀ x ∈ f :: rest, x.ID ∉ ids) ∧
            (List.map (fun f => f.ID) (f :: rest)).Nodup ∧ ∀ x ∈ f :: rest, x.Valid cfg) :=
          fun h => hv (h.2.2 f (List.mem_cons_self _ _))
        simp only [hrhs, iff_false]
        split_ifs with a1 a2 a3 a4
        · simp
        · simp
        · simp
        · simp
        · have h1 : f.ExactlyOne := by unfold FanConfig.ExactlyOne; omega
          have h3 : cfg.HasCurve f.Curve := by
            rw [← curveIdExists_iff]; simpa using a4
          cases hb1 : hwMonFanBlock f with
          | some e => simp
          | none =>
            cases hb2 : fileFanBlock f with
            | some e => simp
            | none =>
              cases hb3 : cmdFanBlock f with
              | some e => simp
              | none =>
                exact absurd ⟨h1, a3, h3, (hwMonFanBlock_none_iff f).mp hb1,
                  (fileFanBlock_none_iff f).mp hb2, (cmdFanBlock_none_iff f).mp hb3⟩ hv

/-! ## Curve phase: the per-curve blocks -/

theorem functionConnections_ok (cfg : Configuration) (id : String) (l acc : List String)
    (h : ∀ curve ∈ l, curve ≠ id ∧ cfg.HasCurve curve) :
    functionConnections cfg id l acc = .ok (acc ++ l) := by
  induction l generalizing acc with
  | nil => simp [functionConnections]
  | cons x rest ih =>
    have hx := h x (List.mem_cons_self _ _)
    simp only [functionConnections, hx.1, if_false, (curveIdExists_iff _ _).mpr hx.2,
      Bool.not_true, Bool.false_eq_true]
    rw [ih _ (fun c hc => h c (List.mem_cons_of_mem _ hc))]
    simp

theorem functionConnections_error (cfg : Configuration) (id : String) (l acc : List String)
    (h : ¬ ∀ curve ∈ l, curve ≠ id ∧ cfg.HasCurve curve) :
    ∃ e, functionConnections cfg id l acc = .error e := by
  induction l generalizing acc with
  | nil => simp at h
  | cons x rest ih =>
    simp only [functionConnections]
    split_ifs with a1 a2
    · exact ⟨_, rfl⟩
    · exact ⟨_, rfl⟩
    · apply ih
      intro hall
      apply h
      intro c hc
      rcases List.mem_cons.mp hc with rfl | hc
      · exact ⟨a1, (curveIdExists_iff _ _).mp (by simpa using a2)⟩
      · exact hall c hc

theorem functionBlock_ok (cfg : Configuration) (c : CurveConfig) (g : Graph)
    (h : ∀ f ∈ c.Function, f.Valid cfg c.ID) :
    functionBlock cfg c g = .ok (buildGraph [c] g) := by
  unfold functionBlock
  cases hf : c.Function with
  | none => simp [buildGraph, hf]
  | some f =>
    obtain ⟨ht, hc⟩ := h f hf
    have ht' : [FunctionMinimum, FunctionAverage, FunctionMaximum, FunctionDelta, FunctionSum,
        FunctionDifference].contains f.Type_ = true := (contains_iff _ _).mpr ht
    simp only [ht', Bool.not_true, Bool.false_eq_true, if_false,
      functionConnections_ok cfg c.ID f.Curves [] hc, buildGraph, hf, List.nil_append]

theorem functionBlock_error (cfg : Configuration) (c : CurveConfig) (g : Graph)
    (h : ¬ ∀ f ∈ c.Function, f.Valid cfg c.ID) :
    ∃ e, functionBlock cfg c g = .error e := by
  unfold functionBlock
  cases hf : c.Function with
  | none => simp [hf] at h
  | some f =>
    simp only
    split_ifs with a1
    · exact ⟨_, rfl⟩
    · have ht : f.Type_ ∈ [FunctionMinimum, FunctionAverage, FunctionMaximum, FunctionDelta,
          FunctionSum, FunctionDifference] := by
        apply (contains_iff _ _).mp
        cases hcon : [FunctionMinimum, FunctionAverage, FunctionMaximum, FunctionDelta,
          FunctionSum, FunctionDifference].contains f.Type_ with
        | true => rfl
        | false => rw [hcon] at a1; exact absurd rfl a1
      have hc : ¬ ∀ curve ∈ f.Curves, curve ≠ c.ID ∧ cfg.HasCurve curve := by
        intro hall
        apply h
        intro f' hf'
        have : f' = f := by simpa [hf] using hf'.symm
        subst this
        exact ⟨ht, hall⟩
      obtain ⟨e, he⟩ := functionConnections_error cfg c.ID f.Curves [] hc
      exact ⟨e, by rw [he]⟩

theorem linearBlock_none_iff (cfg : Configuration) (c : CurveConfig) :
    linearBlock cfg c = none ↔ ∀ l ∈ c.Linear, l.Sensor ≠ "" ∧ cfg.HasSensor l.Sensor := by
  unfold linearBlock
  cases hl : c.Linear with
  | none => simp
  | some l =>
    simp only [Option.mem_def, Option.some.injEq, forall_eq', len_le_zero_iff,
      ← sensorIdExists_iff]
    split_ifs <;> simp_all

theorem pidBlock_none_iff (cfg : Configuration) (c : CurveConfig) :
    pidBlock cfg c = none ↔
      ∀ p ∈ c.PID, p.Sensor ≠ "" ∧ cfg.HasSensor p.Sensor ∧ ¬ (p.P = 0 ∧ p.I = 0 ∧ p.D = 0) := by
  unfold pidBlock
  cases hl : c.PID with
  | none => simp
  | some l =>
    simp only [Option.mem_def, Option.some.injEq, forall_eq', len_le_zero_iff,
      ← sensorIdExists_iff]
    split_ifs <;> simp_all

theorem buildGraph_cons (c : CurveConfig) (rest : List CurveConfig) (g : Graph) :
    buildGraph (c :: rest) g = buildGraph rest (buildGraph [c] g) := by
  simp only [buildGraph]
  cases c.Function <;> rfl

/-! ## Curve phase: the loop -/

/-- When no id repeats and every curve passes its own checks, the loop of `validateCurves`
ends and the result is the result of `validateNoLoops` on the graph built. -/
theorem validateCurvesLoop_of_valid (conn : Graph → List (List String)) (cfg : Configuration)
    (l : List CurveConfig) (g : Graph) (ids : List String)
    (hfresh : ∀ c ∈ l, c.ID ∉ ids) (hnodup : (l.map (fun c => c.ID)).Nodup)
    (hvalid : ∀ c ∈ l, c.Valid cfg) :
    (validateCurvesLoop conn cfg l g ids).1 = validateNoLoops conn (buildGraph l g) := by
  induction l generalizing g ids with
  | nil => simp [validateCurvesLoop, buildGraph]
  | cons c rest ih =>
    have hdup : c.ID ∉ ids := hfresh c (List.mem_cons_self _ _)
    obtain ⟨h1, h2, h3, h4⟩ := hvalid c (List.mem_cons_self _ _)
    have h1' : populated [c.Linear.isSome, c.PID.isSome, c.Function.isSome] = 1 := h1
    have hgt : ¬ populated [c.Linear.isSome, c.PID.isSome, c.Function.isSome] > 1 := by omega
    have hle : ¬ populated [c.Linear.isSome, c.PID.isSome, c.Function.isSome] ≤ 0 := by omega
    simp only [validateCurvesLoop, populated_eq, contains_iff, hdup, if_false, hgt, hle,
      functionBlock_ok cfg c g h2, (linearBlock_none_iff cfg c).mpr h3,
      (pidBlock_none_iff cfg c).mpr h4, Result.after]
    rw [buildGraph_cons c rest]
    simp only [List.map_cons, List.nodup_cons] at hnodup
    apply ih
    · exact ((fresh_append_iff (fun c : CurveConfig => c.ID) c rest ids).mpr
        ⟨fun y hy => hfresh y (List.mem_cons_of_mem _ hy), hnodup.1⟩)
    · exact hnodup.2
    · exact fun y hy => hvalid y (List.mem_cons_of_mem _ hy)

/-- When the loop of `validateCurves` returns no error, no id repeats and every curve passes
its own checks. -/
theorem valid_of_validateCurvesLoop (conn : Graph → List (List String)) (cfg : Configuration)
    (l : List CurveConfig) (g : Graph) (ids : List String)
    (h : (validateCurvesLoop conn cfg l g ids).1 = none) :
    (∀ c ∈ l, c.ID ∉ ids) ∧ (l.map (fun c => c.ID)).Nodup ∧ ∀ c ∈ l, c.Valid cfg := by
  induction l generalizing g ids with
  | nil => simp
  | cons c rest ih =>
    simp only [validateCurvesLoop, populated_eq, contains_iff] at h
    generalize (if (!isCurveConfigInUse c cfg.Curves cfg.Fans) = true then
      [Effect.warning ("Unused curve configuration: " ++ c.ID)] else []) = ws at h
    split_ifs at h with a1 a2 a3
    · have h1 : c.ExactlyOne := by unfold CurveConfig.ExactlyOne; omega
      by_cases h2 : ∀ f ∈ c.Function, f.Valid cfg c.ID
      · rw [functionBlock_ok cfg c g h2] at h
        simp only at h
        cases hb2 : linearBlock cfg c with
        | some e => simp [hb2] at h
        | none =>
          cases hb3 : pidBlock cfg c with
          | some e => simp [hb2, hb3] at h
          | none =>
            simp only [hb2, hb3, Result.after] at h
            obtain ⟨r1, r2, r3⟩ := ih _ _ h
            obtain ⟨r1a, r1b⟩ := (fresh_append_iff (fun c : CurveConfig => c.ID) c rest ids).mp r1
            have hv : c.Valid cfg :=
              ⟨h1, h2, (linearBlock_none_iff cfg c).mp hb2, (pidBlock_none_iff cfg c).mp hb3⟩
            refine ⟨?_, ?_, ?_⟩
            · intro y hy
              rcases List.mem_cons.mp hy with rfl | hy
              · exact a1
              · exact r1a y hy
            · simp only [List.map_cons, List.nodup_cons]
              exact ⟨r1b, r2⟩
            · intro y hy
              rcases List.mem_cons.mp hy with rfl | hy
              · exact hv
              · exact r3 y hy
      · obtain ⟨e, he⟩ := functionBlock_error cfg c g h2
        rw [he] at h
        simp at h

/-! ## The graph built by `validateCurves` -/

theorem Graph.get_set (g : Graph) (k : String) (v : List String) (k' : String) :
    (g.set k v).get k' = if k = k' then v else g.get k' := by
  induction g with
  | nil => simp [Graph.set, Graph.get]
  | cons e rest ih =>
    obtain ⟨k0, v0⟩ := e
    simp only [Graph.set]
    by_cases h1 : k0 = k
    · subst h1
      by_cases h2 : k0 = k' <;> simp [Graph.get, h2]
    · by_cases h2 : k0 = k'
      · subst h2
        simp [Graph.get, h1, Ne.symm h1]
      · simp [Graph.get, h1, h2, ih]

theorem mem_get_buildGraph (l : List CurveConfig) (g : Graph)
    (hn : (l.map (fun c => c.ID)).Nodup) (a b : String) :
    b ∈ (buildGraph l g).get a ↔
      (∃ c ∈ l, c.ID = a ∧ ∃ f ∈ c.Function, b ∈ f.Curves)
        ∨ ((∀ c ∈ l, c.ID = a → c.Function = none) ∧ b ∈ g.get a) := by
  induction l generalizing g with
  | nil => simp [buildGraph]
  | cons c rest ih =>
    simp only [List.map_cons, List.nodup_cons, List.mem_map, not_exists, not_and] at hn
    obtain ⟨hc, hrest⟩ := hn
    cases hf : c.Function with
    | none =>
      simp only [buildGraph, hf]
      rw [ih g hrest]
      simp [hf]
    | some f =>
      simp only [buildGraph, hf]
      rw [ih _ hrest, Graph.get_set]
      by_cases hca : c.ID = a
      · have hno : ∀ c' ∈ rest, ¬ c'.ID = a := fun c' hc' h => hc c' hc' (h.trans hca.symm)
        simp only [hca, if_true, List.mem_cons, exists_eq_or_imp, hf, Option.mem_def,
          Option.some.injEq, exists_eq_left', forall_eq_or_imp, true_and]
        constructor
        · rintro (⟨c', hc', h, _⟩ | ⟨_, hb⟩)
          · exact absurd h (hno c' hc')
          · exact Or.inl (Or.inl hb)
        · rintro ((hb | ⟨c', hc', h, _⟩) | ⟨h, _⟩)
          · exact Or.inr ⟨fun c' hc' h => absurd h (hno c' hc'), hb⟩
          · exact absurd h (hno c' hc')
          · simp at h
      · simp [hca, hf]

/-- With distinct curve ids, the edges of the graph built by `validateCurves` are the
references of Function curves to the ids they list. -/
theorem edge_buildGraph (cfg : Configuration) (hn : (cfg.Curves.map (fun c => c.ID)).Nodup) :
    Graph.Edge (buildGraph cfg.Curves []) = cfg.Lists := by
  funext a b
  apply propext
  unfold Graph.Edge Configuration.Lists
  rw [mem_get_buildGraph cfg.Curves [] hn]
  simp [Graph.get]

theorem Graph.mem_nodes_of_edge {g : Graph} {a b : String} (h : b ∈ g.get a) :
    a ∈ g.nodes := by
  have key : a ∈ g.keys := by
    induction g with
    | nil => simp [Graph.get] at h
    | cons e rest ih =>
      obtain ⟨k, v⟩ := e
      simp only [Graph.get] at h
      by_cases hk : k = a
      · simp [Graph.keys, hk]
      · simp only [hk, if_false] at h
        have := ih h
        simp only [Graph.keys, List.map_cons, List.mem_cons] at this ⊢
        exact Or.inr this
  exact List.mem_append_left _ key

theorem one_lt_length_of_mem_ne {c : List String} {a b : String} (ha : a ∈ c) (hb : b ∈ c)
    (hab : a ≠ b) : 1 < c.length := by
  match c, ha, hb with
  | [x], ha, hb =>
    simp only [List.mem_singleton] at ha hb
    exact absurd (ha.trans hb.symm) hab
  | _ :: _ :: _, _, _ => simp

theorem exists_ne_of_one_lt_length {c : List String} (hn : c.Nodup) (hl : 1 < c.length) :
    ∃ a ∈ c, ∃ b ∈ c, a ≠ b := by
  match c, hn, hl with
  | x :: y :: _, hn, _ =>
    refine ⟨x, by simp, y, by simp, ?_⟩
    intro hxy
    simp [hxy] at hn

/-- For a component list that meets the contract of `tarjan.Connections`, `validateNoLoops`
returns no error exactly when no two distinct vertices reach each other. -/
theorem validateNoLoops_none_iff (conn : Graph → List (List String)) (g : Graph)
    (hconn : IsConnections g (conn g)) :
    validateNoLoops conn g = none ↔ ¬ ∃ a b, a ≠ b ∧ g.Reach a b ∧ g.Reach b a := by
  unfold validateNoLoops
  constructor
  · intro h
    rintro ⟨a, b, hab, hr1, hr2⟩
    have hfind : (conn g).find? (fun items => decide (items.length > 1)) = none := by
      cases hf : (conn g).find? (fun items => decide (items.length > 1)) with
      | none => rfl
      | some items => simp [hf] at h
    rw [List.find?_eq_none] at hfind
    have hnode : a ∈ g.nodes := by
      rcases Relation.ReflTransGen.cases_head hr1 with heq | ⟨x, hax, _⟩
      · exact absurd heq hab
      · exact Graph.mem_nodes_of_edge hax
    obtain ⟨c, hc, hac⟩ := hconn.cover a hnode
    have hbc : b ∈ c := (hconn.scc c hc a hac b).mpr ⟨hr1, hr2⟩
    have := hfind c hc
    simp only [gt_iff_lt, decide_eq_true_eq] at this
    exact this (one_lt_length_of_mem_ne hac hbc hab)
  · intro h
    cases hf : (conn g).find? (fun items => decide (items.length > 1)) with
    | none => rfl
    | some items =>
      exfalso
      apply h
      have hmem := List.mem_of_find?_eq_some hf
      have hlen := List.find?_some hf
      simp only [gt_iff_lt, decide_eq_true_eq] at hlen
      obtain ⟨a, ha, b, hb, hab⟩ := exists_ne_of_one_lt_length (hconn.nodup _ hmem) hlen
      exact ⟨a, b, hab, (hconn.scc _ hmem a ha b).mp hb⟩

/-- Without self-references, a directed cycle is the same as two distinct ids that reach each
other. -/
theorem acyclic_iff_no_mutual (r : String → String → Prop) (hself : ∀ a, ¬ r a a) :
    (∀ a, ¬ Relation.TransGen r a a) ↔
      ¬ ∃ a b, a ≠ b ∧ Relation.ReflTransGen r a b ∧ Relation.ReflTransGen r b a := by
  constructor
  · rintro h ⟨a, b, hab, h1, h2⟩
    rcases Relation.reflTransGen_iff_eq_or_transGen.mp h1 with heq | ht
    · exact hab heq.symm
    · exact h a (ht.trans_left h2)
  · intro h a hcyc
    obtain ⟨b, hab, hba⟩ := Relation.TransGen.head'_iff.mp hcyc
    apply h
    refine ⟨a, b, ?_, Relation.ReflTransGen.single hab, hba⟩
    rintro rfl
    exact hself _ hab

theorem lists_irrefl_of_valid (cfg : Configuration) (hvalid : ∀ c ∈ cfg.Curves, c.Valid cfg)
    (a : String) : ¬ cfg.Lists a a := by
  rintro ⟨c, hc, hca, f, hf, hmem⟩
  exact ((hvalid c hc).2.1 f hf).2 a hmem |>.1 hca.symm

/-- The acceptance condition of the curve phase, for any `Connections` that meets the contract
of `tarjan.Connections`. -/
theorem validateCurves_none_iff (conn : Graph → List (List String))
    (hconn : ∀ g, IsConnections g (conn g)) (cfg : Configuration) :
    (validateCurves conn cfg).1 = none ↔
      (cfg.Curves.map (fun c => c.ID)).Nodup ∧ (∀ c ∈ cfg.Curves, c.Valid cfg) ∧ cfg.Acyclic := by
  unfold validateCurves
  constructor
  · intro h
    obtain ⟨_, hn, hv⟩ := valid_of_validateCurvesLoop conn cfg cfg.Curves [] [] h
    rw [validateCurvesLoop_of_valid conn cfg cfg.Curves [] [] (by simp) hn hv,
      validateNoLoops_none_iff conn _ (hconn _)] at h
    refine ⟨hn, hv, ?_⟩
    unfold Graph.Reach at h
    rw [edge_buildGraph cfg hn] at h
    exact (acyclic_iff_no_mutual cfg.Lists (lists_irrefl_of_valid cfg hv)).mpr h
  · rintro ⟨hn, hv, hac⟩
    rw [validateCurvesLoop_of_valid conn cfg cfg.Curves [] [] (by simp) hn hv,
      validateNoLoops_none_iff conn _ (hconn _)]
    unfold Graph.Reach
    rw [edge_buildGraph cfg hn]
    exact (acyclic_iff_no_mutual cfg.Lists (lists_irrefl_of_valid cfg hv)).mp hac

/-! ## The whole validation -/

theorem validateConfig_fst (conn : Graph → List (List String)) (perm : String → Option String)
    (cur cfg : Configuration) (path : String) :
    (validateConfig conn perm cur cfg path).1 =
      match (validateSensors cfg).1 with
      | some e => some e
      | none =>
        match (validateCurves conn cfg).1 with
        | some e => some e
        | none =>
          if containsCmdSensors cur || containsCmdFan cur then
            match perm path with
            | some permErr =>
              some ("Config file \x27" ++ path ++ "\x27 has invalid permissions: " ++ permErr)
            | none => validateFans cfg
          else validateFans cfg := by
  unfold validateConfig
  rcases hs : validateSensors cfg with ⟨_ | e, w⟩
  · rcases hc : validateCurves conn cfg with ⟨_ | e, w'⟩
    · simp only
      split_ifs
      · cases perm path <;> rfl
      · rfl
    · rfl
  · rfl

theorem validateSensors_none_iff (cfg : Configuration) :
    (validateSensors cfg).1 = none ↔
      (cfg.Sensors.map (fun s => s.ID)).Nodup ∧ ∀ s ∈ cfg.Sensors, s.Valid := by
  unfold validateSensors
  rw [validateSensorsLoop_none_iff]
  simp

theorem validateFans_none_iff (cfg : Configuration) :
    validateFans cfg = none ↔
      (cfg.Fans.map (fun f => f.ID)).Nodup ∧ ∀ f ∈ cfg.Fans, f.Valid cfg := by
  unfold validateFans
  rw [validateFansLoop_none_iff]
  simp

/-- The result of `validateConfig` is `nil` exactly when the three phases return `nil` and the
permission check, if the global configuration asks for it, succeeds. -/
theorem validateConfig_none_iff (conn : Graph → List (List String))
    (perm : String → Option String) (cur cfg : Configuration) (path : String) :
    (validateConfig conn perm cur cfg path).1 = none ↔
      (validateSensors cfg).1 = none ∧ (validateCurves conn cfg).1 = none
        ∧ validateFans cfg = none
        ∧ ((containsCmdSensors cur || containsCmdFan cur) = true → perm path = none) := by
  rw [validateConfig_fst]
  cases hs : (validateSensors cfg).1 with
  | some e => simp
  | none =>
    cases hc : (validateCurves conn cfg).1 with
    | some e => simp
    | none =>
      simp only [true_and]
      split_ifs with hcmd
      · cases hp : perm path with
        | some e => simp [hcmd]
        | none => simp
      · simp [hcmd]

theorem validateNoLoops_some (conn : Graph → List (List String)) (g : Graph) (e : String)
    (h : validateNoLoops conn g = some e) :
    ∃ items ∈ conn g, 1 < items.length
      ∧ e = "You have created a curve dependency cycle: " ++ formatSlice items := by
  unfold validateNoLoops at h
  cases hf : (conn g).find? (fun items => decide (items.length > 1)) with
  | none => simp [hf] at h
  | some items =>
    simp only [hf, Option.some.injEq] at h
    have hlen := List.find?_some hf
    simp only [gt_iff_lt, decide_eq_true_eq] at hlen
    exact ⟨items, List.mem_of_find?_eq_some hf, hlen, h.symm⟩

theorem containsCmd_eq_false_iff (cfg : Configuration) :
    (containsCmdSensors cfg || containsCmdFan cfg) = false ↔
      (∀ s ∈ cfg.Sensors, s.Cmd = none) ∧ (∀ f ∈ cfg.Fans, f.Cmd = none) := by
  simp [containsCmdSensors, containsCmdFan]

theorem containsCmd_eq_true_iff (cfg : Configuration) :
    (containsCmdSensors cfg || containsCmdFan cfg) = true ↔
      (∃ s ∈ cfg.Sensors, s.Cmd ≠ none) ∨ (∃ f ∈ cfg.Fans, f.Cmd ≠ none) := by
  simp [containsCmdSensors, containsCmdFan, Option.isSome_iff_ne_none]

/-! ## The first repeated id -/

theorem validateSensorsLoop_prefix (cfg : Configuration) (pre : List SensorConfig)
    (x : SensorConfig) (post : List SensorConfig) (ids : List String)
    (hfresh : ∀ s ∈ pre, s.ID ∉ ids) (hn : (pre.map (fun s => s.ID)).Nodup)
    (hv : ∀ s ∈ pre, s.Valid) (hx : x.ID ∈ ids ++ pre.map (fun s => s.ID)) :
    (validateSensorsLoop cfg (pre ++ x :: post) ids).1
      = some ("Duplicate sensor id detected: " ++ x.ID) := by
  induction pre generalizing ids with
  | nil =>
    have hx' : x.ID ∈ ids := by simpa using hx
    simp [validateSensorsLoop, hx']
  | cons s pre ih =>
    have hdup : s.ID ∉ ids := hfresh s (List.mem_cons_self _ _)
    obtain ⟨h1, h2⟩ := hv s (List.mem_cons_self _ _)
    have h1' : populated [s.HwMon.isSome, s.File.isSome, s.Cmd.isSome] = 1 := h1
    have hgt : ¬ populated [s.HwMon.isSome, s.File.isSome, s.Cmd.isSome] > 1 := by omega
    have hle : ¬ populated [s.HwMon.isSome, s.File.isSome, s.Cmd.isSome] ≤ 0 := by omega
    have hidx : s.HwMon.any (fun hwMon => decide (hwMon.Index ≤ 0)) = false := by
      cases hs : s.HwMon with
      | none => rfl
      | some hw =>
        have := h2 hw hs
        simp only [Option.any_some, decide_eq_false_iff_not]
        omega
    simp only [List.cons_append, validateSensorsLoop, populated_eq, contains_iff, hdup, if_false,
      hgt, hle, hidx, Bool.false_eq_true, Result.after]
    simp only [List.map_cons, List.nodup_cons] at hn
    apply ih
    · exact (fresh_append_iff (fun s : SensorConfig => s.ID) s pre ids).mpr
        ⟨fun y hy => hfresh y (List.mem_cons_of_mem _ hy), hn.1⟩
    · exact hn.2
    · exact fun y hy => hv y (List.mem_cons_of_mem _ hy)
    · simpa [List.append_assoc] using hx

theorem validateCurvesLoop_prefix (conn : Graph → List (List String)) (cfg : Configuration)
    (pre : List CurveConfig) (x : CurveConfig) (post : List CurveConfig) (g : Graph)
    (ids : List String)
    (hfresh : ∀ c ∈ pre, c.ID ∉ ids) (hn : (pre.map (fun c => c.ID)).Nodup)
    (hv : ∀ c ∈ pre, c.Valid cfg) (hx : x.ID ∈ ids ++ pre.map (fun c => c.ID)) :
    (validateCurvesLoop conn cfg (pre ++ x :: post) g ids).1
      = some ("Duplicate curve id detected: " ++ x.ID) := by
  induction pre generalizing g ids with
  | nil =>
    have hx' : x.ID ∈ ids := by simpa using hx
    simp [validateCurvesLoop, hx']
  | cons c pre ih =>
    have hdup : c.ID ∉ ids := hfresh c (List.mem_cons_self _ _)
    obtain ⟨h1, h2, h3, h4⟩ := hv c (List.mem_cons_self _ _)
    have h1' : populated [c.Linear.isSome, c.PID.isSome, c.Function.isSome] = 1 := h1
    have hgt : ¬ populated [c.Linear.isSome, c.PID.isSome, c.Function.isSome] > 1 := by omega
    have hle : ¬ populated [c.Linear.isSome, c.PID.isSome, c.Function.isSome] ≤ 0 := by omega
    simp only [List.cons_append, validateCurvesLoop, populated_eq, contains_iff, hdup, if_false,
      hgt, hle, functionBlock_ok cfg c g h2, (linearBlock_none_iff cfg c).mpr h3,
      (pidBlock_none_iff cfg c).mpr h4, Result.after]
    simp only [List.map_cons, List.nodup_cons] at hn
    apply ih
    · exact (fresh_append_iff (fun c : CurveConfig => c.ID) c pre ids).mpr
        ⟨fun y hy => hfresh y (List.mem_cons_of_mem _ hy), hn.1⟩
    · exact hn.2
    · exact fun y hy => hv y (List.mem_cons_of_mem _ hy)
    · simpa [List.append_assoc] using hx

theorem validateFansLoop_prefix (cfg : Configuration) (pre : List FanConfig)
    (x : FanConfig) (post : List FanConfig) (ids : List String)
    (hfresh : ∀ f ∈ pre, f.ID ∉ ids) (hn : (pre.map (fun f => f.ID)).Nodup)
    (hv : ∀ f ∈ pre, f.Valid cfg) (hx : x.ID ∈ ids ++ pre.map (fun f => f.ID)) :
    validateFansLoop cfg (pre ++ x :: post) ids
      = some ("Duplicate fan id detected: " ++ x.ID) := by
  induction pre generalizing ids with
  | nil =>
    have hx' : x.ID ∈ ids := by simpa using hx
    simp [validateFansLoop, hx']
  | cons f pre ih =>
    have hdup : f.ID ∉ ids := hfresh f (List.mem_cons_self _ _)
    obtain ⟨h1, h2, h3, h4, h5, h6⟩ := hv f (List.mem_cons_self _ _)
    have h1' : populated [f.HwMon.isSome, f.File.isSome, f.Cmd.isSome] = 1 := h1
    have hgt : ¬ populated [f.HwMon.isSome, f.File.isSome, f.Cmd.isSome] > 1 := by omega
    have hle : ¬ populated [f.HwMon.isSome, f.File.isSome, f.Cmd.isSome] ≤ 0 := by omega
    simp only [List.cons_append, validateFansLoop, populated_eq, contains_iff,
      len_le_zero_iff, hdup, if_false, hgt, hle, h2, (curveIdExists_iff _ _).mpr h3,
      Bool.not_true, Bool.false_eq_true, (hwMonFanBlock_none_iff f).mpr h4,
      (fileFanBlock_none_iff f).mpr h5, (cmdFanBlock_none_iff f).mpr h6]
    simp only [List.map_cons, List.nodup_cons] at hn
    apply ih
    · exact (fresh_append_iff (fun f : FanConfig => f.ID) f pre ids).mpr
        ⟨fun y hy => hfresh y (List.mem_cons_of_mem _ hy), hn.1⟩
    · exact hn.2
    · exact fun y hy => hv y (List.mem_cons_of_mem _ hy)
    · simpa [List.append_assoc] using hx

/-! ## Effects of the phases -/

theorem validateSensorsLoop_effects (cfg : Configuration) (l : List SensorConfig)
    (ids : List String) (p : String) :
    Effect.checkFilePermissions p ∉ (validateSensorsLoop cfg l ids).2 := by
  induction l generalizing ids with
  | nil => simp [validateSensorsLoop]
  | cons s rest ih =>
    simp only [validateSensorsLoop]
    split_ifs <;> simp [Result.after, ih]

theorem validateCurvesLoop_effects (conn : Graph → List (List String)) (cfg : Configuration)
    (l : List CurveConfig) (g : Graph) (ids : List String) (p : String) :
    Effect.checkFilePermissions p ∉ (validateCurvesLoop conn cfg l g ids).2 := by
  induction l generalizing g ids with
  | nil => simp [validateCurvesLoop]
  | cons c rest ih =>
    simp only [validateCurvesLoop]
    split_ifs
    all_goals
      cases functionBlock cfg c g <;> cases linearBlock cfg c <;> cases pidBlock cfg c <;>
        simp [Result.after, ih]

theorem validateConfig_of_sensors_error (conn : Graph → List (List String))
    (perm : String → Option String) (cur cfg : Configuration) (path : String) (e : String)
    (h : (validateSensors cfg).1 = some e) :
    validateConfig conn perm cur cfg path = validateSensors cfg := by
  unfold validateConfig
  rcases hs : validateSensors cfg with ⟨_ | e', w⟩
  · rw [hs] at h
    simp at h
  · rfl

theorem validateConfig_of_curves_error (conn : Graph → List (List String))
    (perm : String → Option String) (cur cfg : Configuration) (path : String) (e : String)
    (hs : (validateSensors cfg).1 = none) (hc : (validateCurves conn cfg).1 = some e) :
    validateConfig conn perm cur cfg path
      = (some e, (validateSensors cfg).2 ++ (validateCurves conn cfg).2) := by
  unfold validateConfig
  rcases hs' : validateSensors cfg with ⟨_ | e', w⟩
  · rcases hc' : validateCurves conn cfg with ⟨_ | e'', w'⟩
    · rw [hc'] at hc
      simp at hc
    · rw [hc'] at hc
      simp only [Option.some.injEq] at hc
      simp [hc]
  · rw [hs'] at hs
    simp at hs

theorem validateConfig_effects_of_no_cmd (conn : Graph → List (List String))
    (perm : String → Option String) (cur cfg : Configuration) (path : String)
    (hs : (validateSensors cfg).1 = none)
    (hcmd : (containsCmdSensors cur || containsCmdFan cur) = false) :
    (validateConfig conn perm cur cfg path).2
      = (validateSensors cfg).2 ++ (validateCurves conn cfg).2 := by
  unfold validateConfig
  rcases hs' : validateSensors cfg with ⟨_ | e', w⟩
  · rcases hc' : validateCurves conn cfg with ⟨_ | e'', w'⟩
    · simp [hcmd]
    · rfl
  · rw [hs'] at hs
    simp at hs

/-! ## Configurations with the same sensors, fans and set of curves -/

theorem hasCurve_of_same (cfg cfg' : Configuration)
    (hC : ∀ c, c ∈ cfg'.Curves ↔ c ∈ cfg.Curves) (id : String) (h : cfg.HasCurve id) :
    cfg'.HasCurve id := by
  obtain ⟨c, hc, hid⟩ := h
  exact ⟨c, (hC c).mpr hc, hid⟩

theorem hasSensor_of_same (cfg cfg' : Configuration) (hS : cfg'.Sensors = cfg.Sensors)
    (id : String) (h : cfg.HasSensor id) : cfg'.HasSensor id := by
  unfold Configuration.HasSensor at h ⊢
  rw [hS]
  exact h

theorem curve_valid_of_same (cfg cfg' : Configuration) (hS : cfg'.Sensors = cfg.Sensors)
    (hC : ∀ c, c ∈ cfg'.Curves ↔ c ∈ cfg.Curves) (c : CurveConfig) (h : c.Valid cfg) :
    c.Valid cfg' := by
  obtain ⟨h1, h2, h3, h4⟩ := h
  refine ⟨h1, ?_, ?_, ?_⟩
  · intro f hf
    obtain ⟨ht, hl⟩ := h2 f hf
    exact ⟨ht, fun id hid => ⟨(hl id hid).1, hasCurve_of_same cfg cfg' hC id (hl id hid).2⟩⟩
  · intro l hl
    exact ⟨(h3 l hl).1, hasSensor_of_same cfg cfg' hS _ (h3 l hl).2⟩
  · intro p hp
    exact ⟨(h4 p hp).1, hasSensor_of_same cfg cfg' hS _ (h4 p hp).2.1, (h4 p hp).2.2⟩

theorem fan_valid_of_same (cfg cfg' : Configuration)
    (hC : ∀ c, c ∈ cfg'.Curves ↔ c ∈ cfg.Curves) (f : FanConfig) (h : f.Valid cfg) :
    f.Valid cfg' := by
  obtain ⟨h1, h2, h3, h4⟩ := h
  exact ⟨h1, h2, hasCurve_of_same cfg cfg' hC _ h3, h4⟩

theorem lists_of_same (cfg cfg' : Configuration)
    (hC : ∀ c, c ∈ cfg'.Curves ↔ c ∈ cfg.Curves) : cfg'.Lists = cfg.Lists := by
  funext a b
  apply propext
  unfold Configuration.Lists
  constructor
  · rintro ⟨c, hc, h⟩
    exact ⟨c, (hC c).mp hc, h⟩
  · rintro ⟨c, hc, h⟩
    exact ⟨c, (hC c).mpr hc, h⟩

/-- Acceptance carries over to a configuration with the same sensors and fans whose curves are
a permutation. -/
theorem Validate_none_of_perm (conn : Graph → List (List String))
    (hconn : ∀ g, IsConnections g (conn g)) (perm : String → Option String) (path : String)
    (cfg cfg' : Configuration) (hS : cfg'.Sensors = cfg.Sensors) (hF : cfg'.Fans = cfg.Fans)
    (hP : cfg'.Curves.Perm cfg.Curves) (h : (Validate conn perm cfg path).1 = none) :
    (Validate conn perm cfg' path).1 = none := by
  unfold Validate at h ⊢
  rw [validateConfig_none_iff] at h ⊢
  obtain ⟨hs, hc, hf, hp⟩ := h
  have hC : ∀ c, c ∈ cfg'.Curves ↔ c ∈ cfg.Curves := fun c => hP.mem_iff
  rw [validateSensors_none_iff] at hs ⊢
  rw [validateCurves_none_iff conn hconn] at hc ⊢
  rw [validateFans_none_iff] at hf ⊢
  refine ⟨?_, ⟨?_, ?_, ?_⟩, ⟨?_, ?_⟩, ?_⟩
  · rw [hS]
    exact hs
  · exact ((hP.map (fun c => c.ID)).nodup_iff).mpr hc.1
  · exact fun c hc' => curve_valid_of_same cfg cfg' hS hC c (hc.2.1 c ((hC c).mp hc'))
  · unfold Configuration.Acyclic
    rw [lists_of_same cfg cfg' hC]
    exact hc.2.2
  · rw [hF]
    exact hf.1
  · intro f hf'
    rw [hF] at hf'
    exact fan_valid_of_same cfg cfg' hC f (hf.2 f hf')
  · have : (containsCmdSensors cfg' || containsCmdFan cfg')
        = (containsCmdSensors cfg || containsCmdFan cfg) := by
      simp only [containsCmdSensors, containsCmdFan, hS, hF]
    rw [this]
    exact hp

/-! ## The claims -/

/-- C1. Soundness of acceptance: when `validateConfig` returns no error, (1) the ids of the
sensors, of the curves and of the fans are pairwise distinct, (2) every sensor, curve and fan
has exactly one populated variant, (3) the sensor of every Linear or PID curve is the id of
some sensor, every id listed by a Function curve is the id of some curve and the curve of
every fan is the id of some curve, and (4) no PID curve has `p = i = d = 0`. -/
theorem validateConfig_sound (conn : Graph → List (List String))
    (perm : String → Option String) (cur cfg : Configuration) (path : String)
    (h : (validateConfig conn perm cur cfg path).1 = none) :
    ((cfg.Sensors.map (fun s => s.ID)).Nodup ∧ (cfg.Curves.map (fun c => c.ID)).Nodup
        ∧ (cfg.Fans.map (fun f => f.ID)).Nodup)
      ∧ ((∀ s ∈ cfg.Sensors, s.ExactlyOne) ∧ (∀ c ∈ cfg.Curves, c.ExactlyOne)
        ∧ (∀ f ∈ cfg.Fans, f.ExactlyOne))
      ∧ ((∀ c ∈ cfg.Curves, ∀ l ∈ c.Linear, cfg.HasSensor l.Sensor)
        ∧ (∀ c ∈ cfg.Curves, ∀ p ∈ c.PID, cfg.HasSensor p.Sensor)
        ∧ (∀ c ∈ cfg.Curves, ∀ f ∈ c.Function, ∀ id ∈ f.Curves, cfg.HasCurve id)
        ∧ (∀ f ∈ cfg.Fans, cfg.HasCurve f.Curve))
      ∧ (∀ c ∈ cfg.Curves, ∀ p ∈ c.PID, ¬ (p.P = 0 ∧ p.I = 0 ∧ p.D = 0)) := by
  obtain ⟨hs, hc, hf, _⟩ := (validateConfig_none_iff conn perm cur cfg path).mp h
  obtain ⟨hsn, hsv⟩ := (validateSensors_none_iff cfg).mp hs
  obtain ⟨_, hcn, hcv⟩ := valid_of_validateCurvesLoop conn cfg cfg.Curves [] [] hc
  obtain ⟨hfn, hfv⟩ := (validateFans_none_iff cfg).mp hf
  refine ⟨⟨hsn, hcn, hfn⟩, ⟨fun s hs => (hsv s hs).1, fun c hc => (hcv c hc).1,
    fun f hf => (hfv f hf).1⟩, ⟨?_, ?_, ?_, fun f hf => (hfv f hf).2.2.1⟩, ?_⟩
  · exact fun c hc l hl => ((hcv c hc).2.2.1 l hl).2
  · exact fun c hc p hp => ((hcv c hc).2.2.2 p hp).2.1
  · exact fun c hc f hf id hid => (((hcv c hc).2.1 f hf).2 id hid).2
  · exact fun c hc p hp => ((hcv c hc).2.2.2 p hp).2.2

/-- C1 at `exampleConfig`, with a permission check that succeeds: the configuration is
accepted, so its fan ids are pairwise distinct and no PID curve has all-zero gains. -/
theorem validateConfig_sound_witness :
    (validateConfig Connections (fun _ => none) exampleConfig exampleConfig "fan2go.yaml").1
        = none
      ∧ (exampleConfig.Fans.map (fun f => f.ID)).Nodup
      ∧ (∀ c ∈ exampleConfig.Curves, ∀ p ∈ c.PID, ¬ (p.P = 0 ∧ p.I = 0 ∧ p.D = 0)) :=
  have h := validateConfig_sound Connections (fun _ => none) exampleConfig exampleConfig
    "fan2go.yaml" (by decide)
  ⟨by decide, h.1.2.2, h.2.2.2⟩

/-- C2. Acyclicity of accepted configurations: when `validateCurves` returns no error, and so
when `Validate` returns no error, the graph with an edge from `A` to `B` whenever Function
curve `A` lists `B` has no directed cycle of any length, self-loops included
(`tarjan.Connections` is any function that meets its contract). -/
theorem validateCurves_acyclic (conn : Graph → List (List String))
    (hconn : ∀ g, IsConnections g (conn g)) (perm : String → Option String)
    (cfg : Configuration) (path : String) :
    ((validateCurves conn cfg).1 = none → ∀ a, ¬ Relation.TransGen cfg.Lists a a)
      ∧ ((Validate conn perm cfg path).1 = none → ∀ a, ¬ Relation.TransGen cfg.Lists a a) := by
  have key : (validateCurves conn cfg).1 = none → ∀ a, ¬ Relation.TransGen cfg.Lists a a :=
    fun h => ((validateCurves_none_iff conn hconn cfg).mp h).2.2
  exact ⟨key, fun h => key ((validateConfig_none_iff conn perm cfg cfg path).mp h).2.1⟩

/-- C2 at `exampleConfig` with the executable `Connections`: the curve phase passes, so the
reference graph has no cycle. -/
theorem validateCurves_acyclic_witness :
    (∀ g, IsConnections g (Connections g))
      ∧ (validateCurves Connections exampleConfig).1 = none
      ∧ ∀ a, ¬ Relation.TransGen exampleConfig.Lists a a :=
  ⟨Connections_isConnections, by decide,
    (validateCurves_acyclic Connections Connections_isConnections (fun _ => none)
      exampleConfig "fan2go.yaml").1 (by decide)⟩

/-- C3. No spurious rejection: `Validate` returns no error when ids are unique within
Sensors, within Curves and within Fans, every sensor, curve and fan passes its own conditions
(`SensorConfig.Valid`, `CurveConfig.Valid`, `FanConfig.Valid`), the Function curves form no
cycle, and either no sensor or fan uses Cmd or the permission check on the path succeeds
(`tarjan.Connections` is any function that meets its contract). -/
theorem Validate_accepts (conn : Graph → List (List String))
    (hconn : ∀ g, IsConnections g (conn g)) (perm : String → Option String)
    (cfg : Configuration) (path : String)
    (hsn : (cfg.Sensors.map (fun s => s.ID)).Nodup)
    (hcn : (cfg.Curves.map (fun c => c.ID)).Nodup)
    (hfn : (cfg.Fans.map (fun f => f.ID)).Nodup)
    (hsv : ∀ s ∈ cfg.Sensors, s.Valid)
    (hcv : ∀ c ∈ cfg.Curves, c.Valid cfg)
    (hac : ∀ a, ¬ Relation.TransGen cfg.Lists a a)
    (hfv : ∀ f ∈ cfg.Fans, f.Valid cfg)
    (hperm : ((∀ s ∈ cfg.Sensors, s.Cmd = none) ∧ (∀ f ∈ cfg.Fans, f.Cmd = none))
      ∨ perm path = none) :
    (Validate conn perm cfg path).1 = none := by
  unfold Validate
  rw [validateConfig_none_iff]
  refine ⟨(validateSensors_none_iff cfg).mpr ⟨hsn, hsv⟩,
    (validateCurves_none_iff conn hconn cfg).mpr ⟨hcn, hcv, hac⟩,
    (validateFans_none_iff cfg).mpr ⟨hfn, hfv⟩, ?_⟩
  intro hcmd
  rcases hperm with hno | hp
  · rw [(containsCmd_eq_false_iff cfg).mpr hno] at hcmd
    exact absurd hcmd (by decide)
  · exact hp

theorem exampleConfig_acyclic : ∀ a, ¬ Relation.TransGen exampleConfig.Lists a a :=
  ((validateCurves_none_iff Connections Connections_isConnections exampleConfig).mp
    (by decide)).2.2

theorem exampleConfig_sensors_valid : ∀ s ∈ exampleConfig.Sensors, s.Valid := by
  intro s hs
  simp only [exampleConfig, List.mem_cons, List.mem_singleton, List.not_mem_nil,
    or_false] at hs
  rcases hs with rfl | rfl <;>
    simp [SensorConfig.Valid, SensorConfig.ExactlyOne, populated]

theorem exampleConfig_curves_valid : ∀ c ∈ exampleConfig.Curves, c.Valid exampleConfig :=
  ((validateCurves_none_iff Connections Connections_isConnections exampleConfig).mp
    (by decide)).2.1

theorem exampleConfig_fans_valid : ∀ f ∈ exampleConfig.Fans, f.Valid exampleConfig :=
  ((validateFans_none_iff exampleConfig).mp (by decide)).2

/-- C3 at `exampleConfig`, which has a command sensor, with a permission check that succeeds:
all the conditions hold and `Validate` returns no error. -/
theorem Validate_accepts_witness :
    (∀ g, IsConnections g (Connections g))
      ∧ (exampleConfig.Sensors.map (fun s => s.ID)).Nodup
      ∧ (exampleConfig.Curves.map (fun c => c.ID)).Nodup
      ∧ (exampleConfig.Fans.map (fun f => f.ID)).Nodup
      ∧ (∀ s ∈ exampleConfig.Sensors, s.Valid)
      ∧ (∀ c ∈ exampleConfig.Curves, c.Valid exampleConfig)
      ∧ (∀ a, ¬ Relation.TransGen exampleConfig.Lists a a)
      ∧ (∀ f ∈ exampleConfig.Fans, f.Valid exampleConfig)
      ∧ (Validate Connections (fun _ => none) exampleConfig "fan2go.yaml").1 = none :=
  ⟨Connections_isConnections, by decide, by decide, by decide, exampleConfig_sensors_valid,
    exampleConfig_curves_valid, exampleConfig_acyclic, exampleConfig_fans_valid,
    Validate_accepts Connections Connections_isConnections (fun _ => none) exampleConfig
      "fan2go.yaml" (by decide) (by decide) (by decide) exampleConfig_sensors_valid
      exampleConfig_curves_valid exampleConfig_acyclic exampleConfig_fans_valid
      (Or.inr rfl)⟩

/-- C4. Cycle error content: when no curve id repeats and every curve passes its own checks,
and the Function-curve reference graph has a cycle, `validateCurves` fails with the error
"You have created a curve dependency cycle: " followed by a list of ids; the list has more
than one member, no member twice, and its members are exactly the ids that reach, and are
reached from, any one of them: one strongly connected component of the reference graph
(`tarjan.Connections` is any function that meets its contract). -/
theorem validateCurves_cycle_error (conn : Graph → List (List String))
    (hconn : ∀ g, IsConnections g (conn g)) (cfg : Configuration)
    (hcn : (cfg.Curves.map (fun c => c.ID)).Nodup)
    (hcv : ∀ c ∈ cfg.Curves, c.Valid cfg)
    (hcyc : ∃ a, Relation.TransGen cfg.Lists a a) :
    ∃ items : List String,
      (validateCurves conn cfg).1
          = some ("You have created a curve dependency cycle: " ++ formatSlice items)
        ∧ 1 < items.length ∧ items.Nodup
        ∧ ∀ a ∈ items, ∀ b, b ∈ items ↔
            (Relation.ReflTransGen cfg.Lists a b ∧ Relation.ReflTransGen cfg.Lists b a) := by
  have hres : (validateCurves conn cfg).1 = validateNoLoops conn (buildGraph cfg.Curves []) :=
    validateCurvesLoop_of_valid conn cfg cfg.Curves [] [] (by simp) hcn hcv
  have hne : (validateCurves conn cfg).1 ≠ none := by
    intro hnone
    obtain ⟨a, ha⟩ := hcyc
    exact ((validateCurves_none_iff conn hconn cfg).mp hnone).2.2 a ha
  cases he : validateNoLoops conn (buildGraph cfg.Curves []) with
  | none => exact absurd (hres.trans he) hne
  | some e =>
    obtain ⟨items, hmem, hlen, rfl⟩ := validateNoLoops_some conn _ e he
    refine ⟨items, hres.trans he, hlen, (hconn _).nodup items hmem, ?_⟩
    have hscc := (hconn (buildGraph cfg.Curves [])).scc items hmem
    unfold Graph.Reach at hscc
    rw [edge_buildGraph cfg hcn] at hscc
    exact hscc

theorem cycleConfig_curves_valid : ∀ c ∈ cycleConfig.Curves, c.Valid cycleConfig := by
  intro c hc
  simp only [cycleConfig, List.mem_cons, List.mem_singleton, List.not_mem_nil,
    or_false] at hc
  rcases hc with rfl | rfl <;>
    simp [CurveConfig.Valid, CurveConfig.ExactlyOne, populated, FunctionCurveConfig.Valid,
      Configuration.HasCurve, FunctionSum, FunctionMinimum, FunctionAverage, FunctionMaximum,
      FunctionDelta, FunctionDifference] <;>
    simp [cycleConfig]

theorem cycleConfig_cycle : ∃ a, Relation.TransGen cycleConfig.Lists a a := by
  have hab : cycleConfig.Lists "A" "B" :=
    ⟨_, List.mem_cons_self _ _, rfl, _, rfl, List.mem_singleton_self _⟩
  have hba : cycleConfig.Lists "B" "A" :=
    ⟨_, List.mem_cons_of_mem _ (List.mem_cons_self _ _), rfl, _, rfl,
      List.mem_singleton_self _⟩
  exact ⟨"A", Relation.TransGen.head hab (Relation.TransGen.single hba)⟩

/-- C4 at `cycleConfig`, where `A` lists `B` and `B` lists `A`: the hypotheses hold, and with
the executable `Connections` the error lists `A` and `B`. -/
theorem validateCurves_cycle_error_witness :
    (∀ g, IsConnections g (Connections g))
      ∧ (cycleConfig.Curves.map (fun c => c.ID)).Nodup
      ∧ (∀ c ∈ cycleConfig.Curves, c.Valid cycleConfig)
      ∧ (∃ a, Relation.TransGen cycleConfig.Lists a a)
      ∧ (validateCurves Connections cycleConfig).1
          = some "You have created a curve dependency cycle: [A B]"
      ∧ ∃ items : List String,
          (validateCurves Connections cycleConfig).1
              = some ("You have created a curve dependency cycle: " ++ formatSlice items)
            ∧ 1 < items.length ∧ items.Nodup
            ∧ ∀ a ∈ items, ∀ b, b ∈ items ↔
                (Relation.ReflTransGen cycleConfig.Lists a b
                  ∧ Relation.ReflTransGen cycleConfig.Lists b a) :=
  ⟨Connections_isConnections, by decide, cycleConfig_curves_valid, cycleConfig_cycle,
    by decide,
    validateCurves_cycle_error Connections Connections_isConnections cycleConfig (by decide)
      cycleConfig_curves_valid cycleConfig_cycle⟩

/-- C5, the claim as stated fails: in `duplicateConfig` the id `a` occurs twice among the
sensors, and the error `Validate` returns is the missing-variant error of the first entry, not
a duplicate-id error. -/
theorem Validate_duplicate_id_counterexample :
    ¬ (duplicateConfig.Sensors.map (fun s => s.ID)).Nodup
      ∧ (Validate Connections (fun _ => none) duplicateConfig "fan2go.yaml").1
          = some "Sensor a: sub-configuration for sensor is missing, use one of: hwmon | file | cmd"
      ∧ ∀ id, (Validate Connections (fun _ => none) duplicateConfig "fan2go.yaml").1
          ≠ some ("Duplicate sensor id detected: " ++ id) := by
  have hval : (Validate Connections (fun _ => none) duplicateConfig "fan2go.yaml").1
      = some "Sensor a: sub-configuration for sensor is missing, use one of: hwmon | file | cmd" := by
    decide
  refine ⟨by decide, hval, ?_⟩
  intro id h
  rw [hval] at h
  have := congrArg (fun s => s.data.head?) (Option.some.inj h)
  simp at this

/-- C5, amended. `Validate` fails on every configuration in which an id occurs twice within
Sensors, within Curves or within Fans. The error is "Duplicate sensor id detected: <id>" when
the sensors before the first one that repeats an earlier id have distinct ids and pass their
own checks; it is "Duplicate curve id detected: <id>" when the sensor phase passes and the
curves before the first one that repeats an earlier id have distinct ids and pass their own
checks; it is "Duplicate fan id detected: <id>" when the sensor and curve phases pass, the
fans before the first one that repeats an earlier id have distinct ids and pass their own
checks, and either no sensor or fan uses Cmd or the permission check succeeds. In each case
`<id>` is the repeated id. -/
theorem Validate_duplicate_id (conn : Graph → List (List String))
    (perm : String → Option String) (cfg : Configuration) (path : String) :
    ((¬ (cfg.Sensors.map (fun s => s.ID)).Nodup ∨ ¬ (cfg.Curves.map (fun c => c.ID)).Nodup
        ∨ ¬ (cfg.Fans.map (fun f => f.ID)).Nodup) →
        (Validate conn perm cfg path).1 ≠ none)
      ∧ (∀ pre x post, cfg.Sensors = pre ++ x :: post → (pre.map (fun s => s.ID)).Nodup →
          x.ID ∈ pre.map (fun s => s.ID) → (∀ s ∈ pre, s.Valid) →
          (Validate conn perm cfg path).1 = some ("Duplicate sensor id detected: " ++ x.ID))
      ∧ (∀ pre x post, (validateSensors cfg).1 = none →
          cfg.Curves = pre ++ x :: post → (pre.map (fun c => c.ID)).Nodup →
          x.ID ∈ pre.map (fun c => c.ID) → (∀ c ∈ pre, c.Valid cfg) →
          (Validate conn perm cfg path).1 = some ("Duplicate curve id detected: " ++ x.ID))
      ∧ (∀ pre x post, (validateSensors cfg).1 = none → (validateCurves conn cfg).1 = none →
          cfg.Fans = pre ++ x :: post → (pre.map (fun f => f.ID)).Nodup →
          x.ID ∈ pre.map (fun f => f.ID) → (∀ f ∈ pre, f.Valid cfg) →
          (((∀ s ∈ cfg.Sensors, s.Cmd = none) ∧ (∀ f ∈ cfg.Fans, f.Cmd = none))
            ∨ perm path = none) →
          (Validate conn perm cfg path).1 = some ("Duplicate fan id detected: " ++ x.ID)) := by
  refine ⟨?_, ?_, ?_, ?_⟩
  · intro hdup hnone
    obtain ⟨hs, hc, hf, _⟩ := (validateConfig_none_iff conn perm cfg cfg path).mp hnone
    rcases hdup with h | h | h
    · exact h ((validateSensors_none_iff cfg).mp hs).1
    · exact h (valid_of_validateCurvesLoop conn cfg cfg.Curves [] [] hc).2.1
    · exact h ((validateFans_none_iff cfg).mp hf).1
  · intro pre x post hl hn hx hv
    have hs : (validateSensors cfg).1 = some ("Duplicate sensor id detected: " ++ x.ID) := by
      unfold validateSensors
      rw [hl]
      exact validateSensorsLoop_prefix cfg pre x post [] (by simp) hn hv (by simpa using hx)
    unfold Validate
    rw [validateConfig_fst, hs]
  · intro pre x post hs hl hn hx hv
    have hc : (validateCurves conn cfg).1 = some ("Duplicate curve id detected: " ++ x.ID) := by
      unfold validateCurves
      rw [hl]
      exact validateCurvesLoop_prefix conn cfg pre x post [] [] (by simp) hn hv
        (by simpa using hx)
    unfold Validate
    rw [validateConfig_fst, hs, hc]
  · intro pre x post hs hc hl hn hx hv hperm
    have hf : validateFans cfg = some ("Duplicate fan id detected: " ++ x.ID) := by
      unfold validateFans
      rw [hl]
      exact validateFansLoop_prefix cfg pre x post [] (by simp) hn hv (by simpa using hx)
    unfold Validate
    rw [validateConfig_fst, hs, hc, hf]
    rcases hperm with hno | hp
    · simp [(containsCmd_eq_false_iff cfg).mpr hno]
    · simp [hp]

/-- C5 amended, at `repeatedSensorConfig`, `repeatedCurveConfig` and `repeatedFanConfig`: the
id repeats after a valid first entry, `Validate` fails and the error names the id. -/
theorem Validate_duplicate_id_witness :
    (¬ (repeatedSensorConfig.Sensors.map (fun s => s.ID)).Nodup
      ∧ (Validate Connections (fun _ => none) repeatedSensorConfig "fan2go.yaml").1 ≠ none
      ∧ (Validate Connections (fun _ => none) repeatedSensorConfig "fan2go.yaml").1
          = some ("Duplicate sensor id detected: " ++ "a"))
      ∧ (Validate Connections (fun _ => none) repeatedCurveConfig "fan2go.yaml").1
          = some ("Duplicate curve id detected: " ++ "c")
      ∧ (Validate Connections (fun _ => none) repeatedFanConfig "fan2go.yaml").1
          = some ("Duplicate fan id detected: " ++ "f") :=
  have hs := Validate_duplicate_id Connections (fun _ => none) repeatedSensorConfig
    "fan2go.yaml"
  have hc := Validate_duplicate_id Connections (fun _ => none) repeatedCurveConfig
    "fan2go.yaml"
  have hf := Validate_duplicate_id Connections (fun _ => none) repeatedFanConfig
    "fan2go.yaml"
  ⟨⟨by decide, hs.1 (Or.inl (by decide)),
      hs.2.1 [⟨"a", some ⟨1⟩, none, none⟩] ⟨"a", some ⟨2⟩, none, none⟩ [] rfl
        (by decide) (by decide)
        (by
          intro s hs
          rw [List.mem_singleton] at hs
          subst hs
          simp [SensorConfig.Valid, SensorConfig.ExactlyOne, populated])⟩,
    hc.2.2.1
      [⟨"c", some ⟨"a"⟩, none, none⟩] ⟨"c", none, none, none⟩ [] (by decide) rfl
      (by decide) (by decide)
      (by
        intro c hc
        rw [List.mem_singleton] at hc
        subst hc
        simp [CurveConfig.Valid, CurveConfig.ExactlyOne, populated, Configuration.HasSensor,
          repeatedCurveConfig]),
    hf.2.2.2
      [⟨"f", "c", none, some ⟨"/tmp/pwm"⟩, none⟩] ⟨"f", "missing", none, none, none⟩ []
      (by decide) (by decide) rfl (by decide) (by decide)
      (by
        intro f hf
        rw [List.mem_singleton] at hf
        subst hf
        simp [FanConfig.Valid, FanConfig.ExactlyOne, populated, Configuration.HasCurve,
          repeatedFanConfig])
      (Or.inl ⟨by decide, by decide⟩)⟩

/-- C6. Phase precedence: when `validateSensors` returns an error, `validateConfig` returns
that error (and exactly the effects of the sensor phase); when `validateSensors` passes and
`validateCurves` returns an error, `validateConfig` returns that error (and exactly the effects
of the two phases). This holds for every configuration, every value of the global
configuration and every permission-check outcome, and in both cases no permission check is
requested. -/
theorem validateConfig_phase_precedence (conn : Graph → List (List String))
    (perm : String → Option String) (cur cfg : Configuration) (path : String) :
    (∀ e, (validateSensors cfg).1 = some e →
        (validateConfig conn perm cur cfg path).1 = some e
          ∧ validateConfig conn perm cur cfg path = validateSensors cfg
          ∧ ∀ p, Effect.checkFilePermissions p ∉ (validateConfig conn perm cur cfg path).2)
      ∧ (∀ e, (validateSensors cfg).1 = none → (validateCurves conn cfg).1 = some e →
        (validateConfig conn perm cur cfg path).1 = some e
          ∧ validateConfig conn perm cur cfg path
              = (some e, (validateSensors cfg).2 ++ (validateCurves conn cfg).2)
          ∧ ∀ p, Effect.checkFilePermissions p ∉ (validateConfig conn perm cur cfg path).2) := by
  constructor
  · intro e he
    have heq := validateConfig_of_sensors_error conn perm cur cfg path e he
    refine ⟨by rw [heq, he], heq, fun p => ?_⟩
    rw [heq]
    exact validateSensorsLoop_effects cfg cfg.Sensors [] p
  · intro e hs hc
    have heq := validateConfig_of_curves_error conn perm cur cfg path e hs hc
    refine ⟨by rw [heq], heq, fun p => ?_⟩
    rw [heq]
    simp only [List.mem_append, not_or]
    exact ⟨validateSensorsLoop_effects cfg cfg.Sensors [] p,
      validateCurvesLoop_effects conn cfg cfg.Curves [] [] p⟩

/-- C6 at `duplicateConfig`, whose sensor phase fails, and at `cycleConfig`, whose curve phase
fails, with a permission check that always fails and a global configuration that uses Cmd. -/
theorem validateConfig_phase_precedence_witness :
    ((validateSensors duplicateConfig).1
        = some "Sensor a: sub-configuration for sensor is missing, use one of: hwmon | file | cmd"
      ∧ (validateConfig Connections (fun _ => some "denied") exampleConfig duplicateConfig
          "fan2go.yaml").1
        = some "Sensor a: sub-configuration for sensor is missing, use one of: hwmon | file | cmd")
      ∧ ((validateSensors cycleConfig).1 = none
        ∧ (validateCurves Connections cycleConfig).1
          = some "You have created a curve dependency cycle: [A B]"
        ∧ (validateConfig Connections (fun _ => some "denied") exampleConfig cycleConfig
            "fan2go.yaml").1
          = some "You have created a curve dependency cycle: [A B]") :=
  ⟨⟨by decide,
      ((validateConfig_phase_precedence Connections (fun _ => some "denied") exampleConfig
        duplicateConfig "fan2go.yaml").1 _ (by decide)).1⟩,
    ⟨by decide, by decide,
      ((validateConfig_phase_precedence Connections (fun _ => some "denied") exampleConfig
        cycleConfig "fan2go.yaml").2 _ (by decide) (by decide)).1⟩⟩

/-- C7, the code at a failing input: in `brokenFanConfig` the sensor and curve phases pass and
`validateFans` returns the error of the command fan, yet with a failing permission check
`Validate` requests the permission check and returns the permission error instead. -/
theorem Validate_fan_error_overridden :
    (validateSensors brokenFanConfig).1 = none
      ∧ (validateCurves Connections brokenFanConfig).1 = none
      ∧ validateFans brokenFanConfig = some "Fan front: missing setPwm configuration"
      ∧ Validate Connections (fun _ => some "denied") brokenFanConfig "fan2go.yaml"
          = (some "Config file \x27fan2go.yaml\x27 has invalid permissions: denied",
              [Effect.checkFilePermissions "fan2go.yaml"])
      ∧ Validate Connections (fun _ => none) brokenFanConfig "fan2go.yaml"
          = (some "Fan front: missing setPwm configuration",
              [Effect.checkFilePermissions "fan2go.yaml"]) := by
  refine ⟨by decide, by decide, by decide, by decide, by decide⟩

/-- C8. Permission check at the public entry point: when the sensor, curve and fan phases of
`Validate` all pass, then (a) if no sensor and no fan uses Cmd the result is success and no
permission check is requested, whatever its outcome would be; (b) if some sensor or fan uses
Cmd the result is success exactly when the permission check on the path succeeds, and when it
fails with `e` the error is "Config file '<path>' has invalid permissions: <e>". -/
theorem Validate_permission_check (conn : Graph → List (List String))
    (perm : String → Option String) (cfg : Configuration) (path : String)
    (hs : (validateSensors cfg).1 = none) (hc : (validateCurves conn cfg).1 = none)
    (hf : validateFans cfg = none) :
    (((∀ s ∈ cfg.Sensors, s.Cmd = none) ∧ (∀ f ∈ cfg.Fans, f.Cmd = none)) →
        (Validate conn perm cfg path).1 = none
          ∧ ∀ p, Effect.checkFilePermissions p ∉ (Validate conn perm cfg path).2)
      ∧ (((∃ s ∈ cfg.Sensors, s.Cmd ≠ none) ∨ (∃ f ∈ cfg.Fans, f.Cmd ≠ none)) →
        ((Validate conn perm cfg path).1 = none ↔ perm path = none)
          ∧ ∀ e, perm path = some e →
              (Validate conn perm cfg path).1
                = some ("Config file \x27" ++ path ++ "\x27 has invalid permissions: " ++ e)) := by
  unfold Validate
  constructor
  · intro hno
    have hcmd := (containsCmd_eq_false_iff cfg).mpr hno
    refine ⟨?_, fun p => ?_⟩
    · rw [validateConfig_fst, hs, hc, hf]
      simp [hcmd]
    · rw [validateConfig_effects_of_no_cmd conn perm cfg cfg path hs hcmd]
      simp only [List.mem_append, not_or]
      exact ⟨validateSensorsLoop_effects cfg cfg.Sensors [] p,
        validateCurvesLoop_effects conn cfg cfg.Curves [] [] p⟩
  · intro hyes
    have hcmd := (containsCmd_eq_true_iff cfg).mpr hyes
    rw [validateConfig_fst, hs, hc, hf]
    simp only [hcmd, if_true]
    constructor
    · cases perm path <;> simp
    · intro e he
      rw [he]

/-- C8 at `plainConfig`, which uses no Cmd, with a permission check that would fail, and at
`exampleConfig`, which has a command sensor, with a permission check that fails. -/
theorem Validate_permission_check_witness :
    ((validateSensors plainConfig).1 = none ∧ (validateCurves Connections plainConfig).1 = none
        ∧ validateFans plainConfig = none
        ∧ (Validate Connections (fun _ => some "denied") plainConfig "fan2go.yaml").1 = none)
      ∧ ((validateSensors exampleConfig).1 = none
        ∧ (validateCurves Connections exampleConfig).1 = none
        ∧ validateFans exampleConfig = none
        ∧ (Validate Connections (fun _ => some "denied") exampleConfig "fan2go.yaml").1
          = some ("Config file \x27" ++ "fan2go.yaml" ++ "\x27 has invalid permissions: "
              ++ "denied")) :=
  ⟨⟨by decide, by decide, by decide,
      ((Validate_permission_check Connections (fun _ => some "denied") plainConfig
        "fan2go.yaml" (by decide) (by decide) (by decide)).1 ⟨by decide, by decide⟩).1⟩,
    ⟨by decide, by decide, by decide,
      ((Validate_permission_check Connections (fun _ => some "denied") exampleConfig
        "fan2go.yaml" (by decide) (by decide) (by decide)).2 (Or.inl (by decide))).2
          "denied" rfl⟩⟩

/-- C9. HwMon fan index/channel rule: when the fans have distinct ids, exactly one populated
variant each, a non-empty curve id that exists, and valid File and Cmd blocks, `validateFans`
returns no error if and only if every HwMon fan has exactly one of index and channel positive,
the other being 0, and a pwmChannel that is not negative. In particular a HwMon fan with both
positive, with both 0, or with a negative index, channel or pwmChannel is rejected. -/
theorem validateFans_hwMon_rule (cfg : Configuration)
    (hn : (cfg.Fans.map (fun f => f.ID)).Nodup)
    (h1 : ∀ f ∈ cfg.Fans, f.ExactlyOne)
    (h2 : ∀ f ∈ cfg.Fans, f.Curve ≠ "" ∧ cfg.HasCurve f.Curve)
    (h3 : ∀ f ∈ cfg.Fans, ∀ file ∈ f.File, file.Path ≠ "")
    (h4 : ∀ f ∈ cfg.Fans, ∀ cmd ∈ f.Cmd, cmd.Valid) :
    (validateFans cfg = none ↔
        ∀ f ∈ cfg.Fans, ∀ hwMon ∈ f.HwMon,
          ((0 < hwMon.Index ∧ hwMon.Channel = 0) ∨ (hwMon.Index = 0 ∧ 0 < hwMon.Channel))
            ∧ 0 ≤ hwMon.PwmChannel)
      ∧ (∀ f ∈ cfg.Fans, ∀ hwMon ∈ f.HwMon,
          ((0 < hwMon.Index ∧ 0 < hwMon.Channel) ∨ (hwMon.Index = 0 ∧ hwMon.Channel = 0)
            ∨ hwMon.Index < 0 ∨ hwMon.Channel < 0 ∨ hwMon.PwmChannel < 0) →
          validateFans cfg ≠ none) := by
  have key : validateFans cfg = none ↔
      ∀ f ∈ cfg.Fans, ∀ hwMon ∈ f.HwMon,
        ((0 < hwMon.Index ∧ hwMon.Channel = 0) ∨ (hwMon.Index = 0 ∧ 0 < hwMon.Channel))
          ∧ 0 ≤ hwMon.PwmChannel := by
    rw [validateFans_none_iff]
    constructor
    · exact fun h f hf hw hhw => (h.2 f hf).2.2.2.1 hw hhw
    · exact fun h => ⟨hn, fun f hf =>
        ⟨h1 f hf, (h2 f hf).1, (h2 f hf).2, h f hf, h3 f hf, h4 f hf⟩⟩
  refine ⟨key, ?_⟩
  intro f hf hw hhw hbad hnone
  have := (key.mp hnone) f hf hw hhw
  omega

/-- C9 at `plainConfig`, whose only fan is a HwMon fan with index 0 and channel 2. -/
theorem validateFans_hwMon_rule_witness :
    (plainConfig.Fans.map (fun f => f.ID)).Nodup
      ∧ (∀ f ∈ plainConfig.Fans, f.ExactlyOne)
      ∧ (∀ f ∈ plainConfig.Fans, f.Curve ≠ "" ∧ plainConfig.HasCurve f.Curve)
      ∧ (validateFans plainConfig = none ↔
          ∀ f ∈ plainConfig.Fans, ∀ hwMon ∈ f.HwMon,
            ((0 < hwMon.Index ∧ hwMon.Channel = 0) ∨ (hwMon.Index = 0 ∧ 0 < hwMon.Channel))
              ∧ 0 ≤ hwMon.PwmChannel) :=
  have hv := (validateFans_none_iff plainConfig).mp (by decide)
  ⟨hv.1, fun f hf => (hv.2 f hf).1, fun f hf => ⟨(hv.2 f hf).2.1, (hv.2 f hf).2.2.1⟩,
    (validateFans_hwMon_rule plainConfig hv.1 (fun f hf => (hv.2 f hf).1)
      (fun f hf => ⟨(hv.2 f hf).2.1, (hv.2 f hf).2.2.1⟩)
      (fun f hf => (hv.2 f hf).2.2.2.2.1) (fun f hf => (hv.2 f hf).2.2.2.2.2)).1⟩

/-- C10. Order-independence of acceptance: for two configurations with the same Sensors and
Fans whose Curves lists are permutations of each other, and the same permission-check outcome,
`Validate` accepts one if and only if it accepts the other (`tarjan.Connections` is any
function that meets its contract). -/
theorem Validate_curve_order_independent (conn : Graph → List (List String))
    (hconn : ∀ g, IsConnections g (conn g)) (perm : String → Option String) (path : String)
    (cfg cfg' : Configuration) (hS : cfg'.Sensors = cfg.Sensors) (hF : cfg'.Fans = cfg.Fans)
    (hP : cfg'.Curves.Perm cfg.Curves) :
    (Validate conn perm cfg path).1 = none ↔ (Validate conn perm cfg' path).1 = none :=
  ⟨Validate_none_of_perm conn hconn perm path cfg cfg' hS hF hP,
    Validate_none_of_perm conn hconn perm path cfg' cfg hS.symm hF.symm hP.symm⟩

/-- C10 at `exampleConfig` and `reorderedConfig`, which declares the function curve first. -/
theorem Validate_curve_order_independent_witness :
    (∀ g, IsConnections g (Connections g))
      ∧ reorderedConfig.Sensors = exampleConfig.Sensors
      ∧ reorderedConfig.Fans = exampleConfig.Fans
      ∧ reorderedConfig.Curves.Perm exampleConfig.Curves
      ∧ ((Validate Connections (fun _ => none) exampleConfig "fan2go.yaml").1 = none ↔
          (Validate Connections (fun _ => none) reorderedConfig "fan2go.yaml").1 = none) :=
  ⟨Connections_isConnections, rfl, rfl, by decide,
    Validate_curve_order_independent Connections Connections_isConnections (fun _ => none)
      "fan2go.yaml" exampleConfig reorderedConfig rfl rfl (by decide)⟩

/-! ## The PID control loop -/

theorem bitLengthAux_zero (fuel : Nat) : bitLengthAux fuel 0 = 0 := by
  cases fuel <;> simp [bitLengthAux]

theorem bitLengthAux_spec (fuel n : Nat) (h : n ≤ fuel) :
    n < 2 ^ bitLengthAux fuel n ∧ (n ≠ 0 → 2 ^ (bitLengthAux fuel n - 1) ≤ n) := by
  induction fuel generalizing n with
  | zero =>
    have : n = 0 := by omega
    subst this
    simp [bitLengthAux]
  | succ fuel ih =>
    by_cases hn : n = 0
    · subst hn
      simp [bitLengthAux]
    · simp only [bitLengthAux, hn, if_false]
      obtain ⟨h1, h2⟩ := ih (n / 2) (by omega)
      constructor
      · rw [pow_succ]
        omega
      · intro _
        simp only [Nat.add_sub_cancel]
        by_cases hhalf : n / 2 = 0
        · rw [hhalf, bitLengthAux_zero]
          simp
          omega
        · have h3 := h2 hhalf
          have hpos : 0 < bitLengthAux fuel (n / 2) := by
            by_contra hcon
            have hz : bitLengthAux fuel (n / 2) = 0 := by omega
            rw [hz] at h1
            simp at h1
            exact hhalf h1
          have : 2 ^ bitLengthAux fuel (n / 2) = 2 * 2 ^ (bitLengthAux fuel (n / 2) - 1) := by
            rw [← pow_succ']
            congr 1
            omega
          omega

theorem lt_two_pow_bitLength (n : Nat) : n < 2 ^ bitLength n :=
  (bitLengthAux_spec n n (Nat.le_refl n)).1

theorem two_pow_bitLength_le (n : Nat) (h : n ≠ 0) : 2 ^ (bitLength n - 1) ≤ n :=
  (bitLengthAux_spec n n (Nat.le_refl n)).2 h

theorem bitLength_le_of_lt (n k : Nat) (h : n < 2 ^ k) : bitLength n ≤ k := by
  by_cases hn : n = 0
  · subst hn
    simp [bitLength, bitLengthAux_zero]
  · have h1 := two_pow_bitLength_le n hn
    have h2 : 2 ^ (bitLength n - 1) < 2 ^ k := lt_of_le_of_lt h1 h
    have h3 := (Nat.pow_lt_pow_iff_right (by norm_num : 1 < 2)).mp h2
    omega

theorem bitLength_pos (n : Nat) (h : n ≠ 0) : 0 < bitLength n := by
  by_contra hcon
  have hz : bitLength n = 0 := by omega
  have := lt_two_pow_bitLength n
  rw [hz] at this
  simp at this
  exact h this

/-- An integer of magnitude below `2^53` is converted exactly. -/
theorem round_int_exact (z : Int) (h : z.natAbs < 2 ^ 53) :
    Float64.round z 0 = Float64.finite z 0 := by
  unfold Float64.round
  by_cases hz : z = 0
  · simp [hz]
  · have hb := bitLength_le_of_lt z.natAbs 53 h
    simp only [hz, if_false]
    have h1 : max ((0 : Int) + (bitLength z.natAbs : Int) - 1 - 52) (-1074) ≤ 0 := by omega
    have h2 : (0 : Int) + (bitLength z.natAbs : Int) - 1 < 1024 := by omega
    simp only [h1, h2, if_true]

/-- An exact value below the midpoint between the largest double and `2^1024` is rounded to a
finite double. -/
theorem round_finite (m e : Int) (he : -1074 ≤ e)
    (h : m.natAbs * 2 ^ (e + 1074).toNat < (2 ^ 54 - 1) * 2 ^ 2044) :
    ∃ m' e', Float64.round m e = Float64.finite m' e' := by
  unfold Float64.round
  by_cases hm : m = 0
  · exact ⟨0, 0, by simp [hm]⟩
  · simp only [hm, if_false]
    have hn : m.natAbs ≠ 0 := Int.natAbs_ne_zero.mpr hm
    generalize hndef : m.natAbs = n at h hn ⊢
    generalize hbdef : bitLength n = b
    have hb1 : 2 ^ (b - 1) ≤ n := hbdef ▸ two_pow_bitLength_le n hn
    have hb2 : n < 2 ^ b := hbdef ▸ lt_two_pow_bitLength n
    have hbpos : 0 < b := hbdef ▸ bitLength_pos n hn
    generalize hkdef : (e + 1074).toNat = k at h
    have hk : (k : Int) = e + 1074 := by omega
    have hbk : b - 1 + k < 2098 := by
      have : 2 ^ (b - 1 + k) < 2 ^ (54 + 2044) := by
        calc 2 ^ (b - 1 + k) = 2 ^ (b - 1) * 2 ^ k := pow_add _ _ _
          _ ≤ n * 2 ^ k := Nat.mul_le_mul_right _ hb1
          _ < (2 ^ 54 - 1) * 2 ^ 2044 := h
          _ ≤ 2 ^ 54 * 2 ^ 2044 := Nat.mul_le_mul_right _ (Nat.sub_le _ _)
          _ = 2 ^ (54 + 2044) := (pow_add 2 54 2044).symm
      have := (Nat.pow_lt_pow_iff_right (by norm_num)).mp this
      omega
    have hexp : e + (b : Int) - 1 < 1024 := by omega
    by_cases hq : max (e + (b : Int) - 1 - 52) (-1074) ≤ e
    · simp only [hq, if_true, hexp]
      exact ⟨m, e, rfl⟩
    · simp only [hq, if_false]
      have hqe : max (e + (b : Int) - 1 - 52) (-1074) = e + b - 53 := by omega
      have hb53 : 53 < b := by omega
      have hs : (e + (b : Int) - 53 - e).toNat = b - 53 := by omega
      simp only [hqe, hs]
      generalize hsdef : b - 53 = s
      have hspos : 0 < s := by omega
      have hq53 : n / 2 ^ s < 2 ^ 53 := by
        apply Nat.div_lt_of_lt_mul
        calc n < 2 ^ b := hb2
          _ = 2 ^ (s + 53) := by congr 1; omega
          _ = 2 ^ s * 2 ^ 53 := pow_add _ _ _
      generalize hrdef : (if n % 2 ^ s > 2 ^ (s - 1) ∨ n % 2 ^ s = 2 ^ (s - 1) ∧ n / 2 ^ s % 2 = 1
        then n / 2 ^ s + 1 else n / 2 ^ s) = rounded
      have hcond : e + (b : Int) - 53 + (bitLength rounded : Int) ≤ 1024 := by
        have hr54 : rounded ≤ 2 ^ 53 := by
          rw [← hrdef]
          split_ifs <;> omega
        by_cases hlt : rounded < 2 ^ 53
        · have := bitLength_le_of_lt rounded 53 hlt
          omega
        · have hreq : rounded = 2 ^ 53 := by omega
          have hb54 := bitLength_le_of_lt rounded 54 (by omega)
          by_cases htop : e + (b : Int) = 1024
          · exfalso
            have hup : 2 ^ (s - 1) ≤ n % 2 ^ s ∧ n / 2 ^ s = 2 ^ 53 - 1 := by
              rw [← hrdef] at hreq
              split_ifs at hreq with hc
              · refine ⟨?_, by omega⟩
                rcases hc with hc | hc
                · omega
                · omega
              · omega
            have hsplit : 2 ^ s = 2 * 2 ^ (s - 1) := by
              rw [← pow_succ']
              congr 1
              omega
            have hdm := Nat.div_add_mod n (2 ^ s)
            have hnge : (2 ^ 54 - 1) * 2 ^ (s - 1) ≤ n := by
              obtain ⟨hup1, hup2⟩ := hup
              generalize n % 2 ^ s = R at hup1 hdm
              generalize n / 2 ^ s = Q at hup2 hdm
              rw [hsplit] at hdm
              generalize 2 ^ (s - 1) = H at hup1 hdm ⊢
              subst hup2
              norm_num at hdm ⊢
              omega
            have hpow : 2 ^ (s - 1) * 2 ^ k = 2 ^ 2044 := by
              rw [← pow_add]
              congr 1
              omega
            have : (2 ^ 54 - 1) * 2 ^ 2044 ≤ n * 2 ^ k := by
              calc (2 ^ 54 - 1) * 2 ^ 2044 = (2 ^ 54 - 1) * 2 ^ (s - 1) * 2 ^ k := by
                    rw [Nat.mul_assoc, hpow]
                _ ≤ n * 2 ^ k := Nat.mul_le_mul_right _ hnge
            omega
          · omega
      simp only [hcond, if_true]
      exact ⟨_, _, rfl⟩

/-- The sum of two finite values whose exact sum stays below the overflow threshold is
finite. -/
theorem add_finite (m1 e1 m2 e2 : Int) (h1 : -1074 ≤ e1) (h2 : -1074 ≤ e2)
    (h : m1.natAbs * 2 ^ (e1 + 1074).toNat + m2.natAbs * 2 ^ (e2 + 1074).toNat
      < (2 ^ 54 - 1) * 2 ^ 2044) :
    ∃ m' e', (Float64.finite m1 e1).add (Float64.finite m2 e2) = Float64.finite m' e' := by
  simp only [Float64.add]
  apply round_finite
  · omega
  · refine lt_of_le_of_lt ?_ h
    have ha : (e1 - min e1 e2).toNat + (min e1 e2 + 1074).toNat = (e1 + 1074).toNat := by omega
    have hc : (e2 - min e1 e2).toNat + (min e1 e2 + 1074).toNat = (e2 + 1074).toNat := by omega
    rw [← ha, ← hc, pow_add, pow_add, ← Nat.mul_assoc, ← Nat.mul_assoc, ← Nat.add_mul]
    apply Nat.mul_le_mul_right
    refine le_trans (Int.natAbs_add_le _ _) ?_
    simp [Int.natAbs_mul, Int.natAbs_pow]

theorem threshold_bound (K J : Nat) (hK : 53 + J ≤ K) (a c : Nat)
    (ha : a ≤ (2 ^ 53 - 1) * 2 ^ (K + 1)) (hc : c ≤ (2 ^ 53 - 1) * 2 ^ J) :
    a + c < (2 ^ 54 - 1) * 2 ^ K := by
  have h1 : (2 : Nat) ^ (K + 1) = 2 * 2 ^ K := pow_succ' 2 K
  have h2 : (2 ^ 53 - 1) * 2 ^ J < 2 ^ (53 + J) := by
    rw [pow_add]
    exact Nat.mul_lt_mul_of_pos_right (by norm_num) (by positivity)
  have h3 : (2 : Nat) ^ (53 + J) ≤ 2 ^ K := Nat.pow_le_pow_right (by norm_num) hK
  rw [h1] at ha
  generalize (2 : Nat) ^ K = X at *
  generalize (2 ^ 53 - 1) * 2 ^ J = Y at *
  generalize (2 : Nat) ^ (53 + J) = W at *
  norm_num at ha ⊢
  omega

/-- The magnitude of a finite double is at most that of the largest one,
`(2^53 - 1) * 2^971`. -/
theorem finite_bound (K n b k : Nat) (hn : n ≤ 2 ^ 53) (hb1 : n ≠ 0 → 2 ^ (b - 1) ≤ n)
    (hb2 : n < 2 ^ b) (hk : k + b ≤ K + 54) :
    n * 2 ^ k ≤ (2 ^ 53 - 1) * 2 ^ (K + 1) := by
  by_cases h0 : n = 0
  · subst h0
    simp
  have hb1 := hb1 h0
  by_cases htop : n = 2 ^ 53
  · have hb54 : 54 ≤ b := by
      by_contra hcon
      have : (2 : Nat) ^ b ≤ 2 ^ 53 := Nat.pow_le_pow_right (by norm_num) (by omega)
      omega
    have hkK : k ≤ K := by omega
    calc n * 2 ^ k = 2 ^ 53 * 2 ^ k := by rw [htop]
      _ ≤ 2 ^ 53 * 2 ^ K := Nat.mul_le_mul_left _ (Nat.pow_le_pow_right (by norm_num) hkK)
      _ = 2 ^ 52 * 2 ^ (K + 1) := by
        rw [pow_succ' 2 K, ← Nat.mul_assoc]
        congr 1
      _ ≤ (2 ^ 53 - 1) * 2 ^ (K + 1) := Nat.mul_le_mul_right _ (by norm_num)
  · have hlt : n < 2 ^ 53 := by omega
    by_cases hkk : k ≤ K + 1
    · exact Nat.mul_le_mul (by omega) (Nat.pow_le_pow_right (by norm_num) hkk)
    · obtain ⟨j, hj⟩ : ∃ j, k = K + 1 + j := ⟨k - (K + 1), by omega⟩
      have hbj : b + j ≤ 53 := by omega
      have hnj : n * 2 ^ j < 2 ^ 53 := by
        calc n * 2 ^ j < 2 ^ b * 2 ^ j := Nat.mul_lt_mul_of_pos_right hb2 (by positivity)
          _ = 2 ^ (b + j) := (pow_add 2 b j).symm
          _ ≤ 2 ^ 53 := Nat.pow_le_pow_right (by norm_num) hbj
      calc n * 2 ^ k = n * 2 ^ j * 2 ^ (K + 1) := by
            rw [hj, pow_add 2 (K + 1) j, Nat.mul_assoc, Nat.mul_comm (2 ^ j)]
        _ ≤ (2 ^ 53 - 1) * 2 ^ (K + 1) := Nat.mul_le_mul_right _ (by omega)

/-- Whatever finite value `Float64.round` yields is a finite double. -/
theorem round_isFinite (m e m' e' : Int)
    (h : Float64.round m e = Float64.finite m' e') : (Float64.finite m' e').IsFinite := by
  unfold Float64.round at h
  by_cases hm : m = 0
  · simp only [hm, if_true] at h
    rw [← h]
    exact ⟨0, 0, rfl, by decide, by decide, by decide⟩
  · simp only [hm, if_false] at h
    have hn : m.natAbs ≠ 0 := Int.natAbs_ne_zero.mpr hm
    have hb2 : m.natAbs < 2 ^ bitLength m.natAbs := lt_two_pow_bitLength m.natAbs
    generalize hbdef : bitLength m.natAbs = b at h hb2
    by_cases hq : max (e + (b : Int) - 1 - 52) (-1074) ≤ e
    · simp only [hq, if_true] at h
      split_ifs at h with hexp
      rw [← h]
      have hb53 : b ≤ 53 := by omega
      have hlt : m.natAbs < 2 ^ 53 :=
        lt_of_lt_of_le hb2 (Nat.pow_le_pow_right (by norm_num) hb53)
      exact ⟨m, e, rfl, by omega, by omega, by rw [hbdef]; omega⟩
    · simp only [hq, if_false] at h
      generalize hqedef : max (e + (b : Int) - 1 - 52) (-1074) = qe at h hq
      generalize hsdef : (qe - e).toNat = s at h
      have hsb : b ≤ s + 53 := by omega
      have hq53 : m.natAbs / 2 ^ s < 2 ^ 53 := by
        apply Nat.div_lt_of_lt_mul
        calc m.natAbs < 2 ^ b := hb2
          _ ≤ 2 ^ (s + 53) := Nat.pow_le_pow_right (by norm_num) hsb
          _ = 2 ^ s * 2 ^ 53 := pow_add _ _ _
      generalize hrdef : (if m.natAbs % 2 ^ s > 2 ^ (s - 1)
          ∨ m.natAbs % 2 ^ s = 2 ^ (s - 1) ∧ m.natAbs / 2 ^ s % 2 = 1
        then m.natAbs / 2 ^ s + 1 else m.natAbs / 2 ^ s) = rounded at h
      have hr : rounded ≤ 2 ^ 53 := by
        rw [← hrdef]
        split_ifs <;> omega
      split_ifs at h with hcond hneg
      · rw [← h]
        exact ⟨-(rounded : Int), qe, rfl, by rw [Int.natAbs_neg, Int.natAbs_ofNat]; exact hr,
          by omega, by rw [Int.natAbs_neg, Int.natAbs_ofNat]; exact hcond⟩
      · rw [← h]
        exact ⟨(rounded : Int), qe, rfl, by rw [Int.natAbs_ofNat]; exact hr,
          by omega, by rw [Int.natAbs_ofNat]; exact hcond⟩

theorem isFinite_of_int (z : Int) (hz : z.natAbs < 2 ^ 53) : (Float64.finite z 0).IsFinite :=
  ⟨z, 0, rfl, by omega, by norm_num, by
    have := bitLength_le_of_lt z.natAbs 53 hz
    omega⟩

theorem add_finite_small (m e z : Int) (hm : m.natAbs ≤ 2 ^ 53) (he1 : -1074 ≤ e)
    (he2 : e + bitLength m.natAbs ≤ 1024) (hz : z.natAbs < 2 ^ 53) :
    ((Float64.finite m e).add (Float64.finite z 0)).IsFinite
      ∧ ((Float64.finite z 0).add (Float64.finite m e)).IsFinite := by
  obtain ⟨K, hK⟩ : ∃ K : Nat, K = 2044 := ⟨_, rfl⟩
  obtain ⟨J, hJ⟩ : ∃ J : Nat, J = 1074 := ⟨_, rfl⟩
  have hk : (e + 1074).toNat + bitLength m.natAbs ≤ K + 54 := by omega
  have hJ' : ((0 : Int) + 1074).toNat = J := by omega
  have hbig : m.natAbs * 2 ^ (e + 1074).toNat ≤ (2 ^ 53 - 1) * 2 ^ (K + 1) :=
    finite_bound K _ _ _ hm (two_pow_bitLength_le m.natAbs) (lt_two_pow_bitLength m.natAbs) hk
  have hsmall : z.natAbs * 2 ^ J ≤ (2 ^ 53 - 1) * 2 ^ J :=
    Nat.mul_le_mul_right _ (by omega)
  have hnum := threshold_bound K J (by omega) _ _ hbig hsmall
  rw [hK, ← hJ'] at hnum
  constructor
  · obtain ⟨m', e', h⟩ := add_finite m e z 0 he1 (by norm_num) hnum
    rw [h]
    exact round_isFinite _ _ m' e' h
  · obtain ⟨m', e', h⟩ := add_finite z 0 m e (by norm_num) he1
      (by rw [Nat.add_comm]; exact hnum)
    rw [h]
    exact round_isFinite _ _ m' e' h

theorem float64_int (z : Int) (h : z.natAbs < 2 ^ 53) : float64 z = Float64.finite z 0 :=
  round_int_exact z h

theorem add_int (a b : Int) (h : (a + b).natAbs < 2 ^ 53) :
    (Float64.finite a 0).add (Float64.finite b 0) = Float64.finite (a + b) 0 := by
  simp only [Float64.add, min_self, sub_self, Int.toNat_zero, pow_zero, mul_one]
  exact round_int_exact _ h

theorem sub_int (a b : Int) (h : (a - b).natAbs < 2 ^ 53) :
    (Float64.finite a 0).sub (Float64.finite b 0) = Float64.finite (a - b) 0 := by
  simp only [Float64.sub, Float64.neg]
  rw [add_int a (-b) (by rwa [← sub_eq_add_neg]), sub_eq_add_neg]

theorem one_mul_int (z : Int) (h : z.natAbs < 2 ^ 53) :
    (Float64.finite 1 0).mul (Float64.finite z 0) = Float64.finite z 0 := by
  simp only [Float64.mul, one_mul, add_zero]
  exact round_int_exact z h

theorem zero_mul_finite (m e : Int) :
    (Float64.finite 0 0).mul (Float64.finite m e) = Float64.finite 0 0 := by
  simp [Float64.mul, Float64.round]

theorem Coerce_int (t : Int) :
    Coerce (Float64.finite t 0) (float64 0) (float64 255)
      = Float64.finite (max 0 (min 255 t)) 0 := by
  have h0 : float64 0 = Float64.finite 0 0 := by decide
  have h255 : float64 255 = Float64.finite 255 0 := by decide
  rw [h0, h255]
  simp only [Coerce, Float64.gt, Float64.lt, min_self, sub_self, Int.toNat_zero, pow_zero,
    mul_one, decide_eq_true_eq]
  split_ifs with h1 h2
  · rw [min_eq_left (le_of_lt h1), max_eq_right (by norm_num)]
  · rw [min_eq_right (by omega), max_eq_left (le_of_lt h2)]
  · rw [min_eq_right (by omega), max_eq_right (by omega)]

theorem int_Round_int (c : Int) (h0 : 0 ≤ c) (h1 : c ≤ 255) :
    int (Round (Float64.finite c 0)) = c := by
  simp only [Round, int, le_refl, if_true, Int.toNat_zero, pow_zero, mul_one]
  rw [if_pos ⟨by omega, by omega⟩]

theorem Loop_of_pure_proportional (l : PidLoop) (hP : l.P = Float64.finite 1 0)
    (hI : l.I = Float64.finite 0 0) (hD : l.D = Float64.finite 0 0)
    (hint : l.integral.IsFinite) (hprev : l.previousError.IsFinite) (t s : Int)
    (hts : (t - s).natAbs < 2 ^ 53) :
    (l.Loop (Float64.finite t 0) (Float64.finite s 0)).1 = Float64.finite (t - s) 0 := by
  obtain ⟨mi, ei, hi, hmi, hei1, hei2⟩ := hint
  obtain ⟨mp, ep, hp, hmp, hep1, hep2⟩ := hprev
  obtain ⟨m1, e1, h1, -⟩ := (add_finite_small mi ei (t - s) hmi hei1 hei2 hts).1
  obtain ⟨m2, e2, h2, -⟩ := (add_finite_small (-mp) ep (t - s) (by rwa [Int.natAbs_neg]) hep1
    (by rwa [Int.natAbs_neg]) hts).2
  have h0 : (Float64.finite (t - s) 0).add (Float64.finite 0 0) = Float64.finite (t - s) 0 := by
    have := add_int (t - s) 0 (by rwa [add_zero])
    rwa [add_zero] at this
  have h2' : (Float64.finite (t - s) 0).sub (Float64.finite mp ep) = Float64.finite m2 e2 := h2
  simp only [PidLoop.Loop, hP, hI, hD, hi, hp, sub_int t s hts, h1, h2',
    one_mul_int (t - s) hts, zero_mul_finite, h0]

/-- With the gains 1, 0, 0 a finite state stays finite. -/
theorem Loop_state_of_pure_proportional (l : PidLoop) (hint : l.integral.IsFinite) (t s : Int)
    (hts : (t - s).natAbs < 2 ^ 53) :
    (l.Loop (Float64.finite t 0) (Float64.finite s 0)).2.integral.IsFinite
      ∧ (l.Loop (Float64.finite t 0) (Float64.finite s 0)).2.previousError.IsFinite := by
  obtain ⟨mi, ei, hi, hmi, hei1, hei2⟩ := hint
  simp only [PidLoop.Loop, hi, sub_int t s hts]
  exact ⟨(add_finite_small mi ei (t - s) hmi hei1 hei2 hts).1, isFinite_of_int _ hts⟩

theorem Cycle_of_pure_proportional (l : PidControlLoop)
    (hP : l.pidLoop.P = Float64.finite 1 0) (hI : l.pidLoop.I = Float64.finite 0 0)
    (hD : l.pidLoop.D = Float64.finite 0 0) (hint : l.pidLoop.integral.IsFinite)
    (hprev : l.pidLoop.previousError.IsFinite) (target lastSetPwm : Int)
    (ht : |target| < 2 ^ 53) (hl : |lastSetPwm| < 2 ^ 53)
    (htl : |target - lastSetPwm| < 2 ^ 53) :
    (l.Cycle target lastSetPwm).1 = max 0 (min 255 target) := by
  have ht' : target.natAbs < 2 ^ 53 := by
    have := abs_lt.mp ht
    norm_num at this ⊢
    omega
  have hl' : lastSetPwm.natAbs < 2 ^ 53 := by
    have := abs_lt.mp hl
    norm_num at this ⊢
    omega
  have htl' : (target - lastSetPwm).natAbs < 2 ^ 53 := by
    have := abs_lt.mp htl
    norm_num at this ⊢
    omega
  have hsum : (Float64.finite lastSetPwm 0).add (Float64.finite (target - lastSetPwm) 0)
      = Float64.finite target 0 := by
    have := add_int lastSetPwm (target - lastSetPwm) (by rwa [add_sub_cancel])
    rwa [add_sub_cancel] at this
  simp only [PidControlLoop.Cycle, float64_int target ht', float64_int lastSetPwm hl',
    Loop_of_pure_proportional l.pidLoop hP hI hD hint hprev target lastSetPwm htl', hsum,
    Coerce_int]
  exact int_Round_int _ (le_max_left _ _) (max_le (by norm_num) (min_le_left _ _))

/-- With the gains 1, 0, 0 the state after `Cycle` is finite when the state before is. -/
theorem Cycle_state_of_pure_proportional (l : PidControlLoop)
    (hint : l.pidLoop.integral.IsFinite) (target lastSetPwm : Int)
    (ht : |target| < 2 ^ 53) (hl : |lastSetPwm| < 2 ^ 53)
    (htl : |target - lastSetPwm| < 2 ^ 53) :
    (l.Cycle target lastSetPwm).2.pidLoop.integral.IsFinite
      ∧ (l.Cycle target lastSetPwm).2.pidLoop.previousError.IsFinite := by
  have ht' : target.natAbs < 2 ^ 53 := by
    have := abs_lt.mp ht
    norm_num at this ⊢
    omega
  have hl' : lastSetPwm.natAbs < 2 ^ 53 := by
    have := abs_lt.mp hl
    norm_num at this ⊢
    omega
  have htl' : (target - lastSetPwm).natAbs < 2 ^ 53 := by
    have := abs_lt.mp htl
    norm_num at this ⊢
    omega
  simp only [PidControlLoop.Cycle, float64_int target ht', float64_int lastSetPwm hl']
  exact Loop_state_of_pure_proportional l.pidLoop hint target lastSetPwm htl'

/-- Whatever is not NaN is coerced, rounded and converted to an integer from 0 to 255. -/
theorem int_Round_Coerce_range (v : Float64) (hv : v ≠ Float64.nan) :
    0 ≤ int (Round (Coerce v (float64 0) (float64 255)))
      ∧ int (Round (Coerce v (float64 0) (float64 255))) ≤ 255 := by
  have h0 : float64 0 = Float64.finite 0 0 := by decide
  have h255 : float64 255 = Float64.finite 255 0 := by decide
  have hmax : int (Round (Float64.finite 255 0)) = 255 := by decide
  have hmin : int (Round (Float64.finite 0 0)) = 0 := by decide
  rw [h0, h255]
  cases v with
  | nan => exact absurd rfl hv
  | inf a =>
    cases a
    · simp [Coerce, Float64.gt, Float64.lt, hmax]
    · simp [Coerce, Float64.gt, Float64.lt, hmin]
  | finite m e =>
    simp only [Coerce, Float64.gt, Float64.lt, decide_eq_true_eq]
    split_ifs with h1 h2
    · simp [hmax]
    · simp [hmin]
    · by_cases he : 0 ≤ e
      · have ha : min 0 e = 0 := min_eq_left he
        have hb : min e 0 = 0 := min_eq_right he
        simp only [ha, hb, sub_zero, sub_self, Int.toNat_zero, pow_zero, mul_one, zero_mul]
          at h1 h2
        simp only [Round, int, he, if_true]
        rw [if_pos ⟨by omega, by omega⟩]
        omega
      · have ha : min 0 e = e := min_eq_right (by omega)
        have hb : min e 0 = e := min_eq_left (by omega)
        simp only [ha, hb, sub_self, Int.toNat_zero, pow_zero, mul_one, zero_mul, zero_sub]
          at h1 h2
        have hm0 : 0 ≤ m := by omega
        have hmn : (m.natAbs : Int) = m := Int.natAbs_of_nonneg hm0
        have hle : m.natAbs ≤ 255 * 2 ^ (-e).toNat := by
          have : (m.natAbs : Int) ≤ ((255 * 2 ^ (-e).toNat : Nat) : Int) := by
            rw [hmn]
            push_cast
            omega
          exact_mod_cast this
        simp only [Round, int, he, if_false, le_refl, if_true, Int.toNat_zero, pow_zero,
          mul_one, not_lt.mpr hm0]
        generalize hsdef : (-e).toNat = s at hle ⊢
        generalize hndef : m.natAbs = n at hle ⊢
        have hpos : 0 < 2 ^ s := by positivity
        have hq : n / 2 ^ s ≤ 255 := by
          apply Nat.div_le_of_le_mul
          rw [Nat.mul_comm]
          exact hle
        have hdm := Nat.div_add_mod n (2 ^ s)
        have hmod := Nat.mod_lt n hpos
        have hr : (if 2 * (n % 2 ^ s) ≥ 2 ^ s then n / 2 ^ s + 1 else n / 2 ^ s) ≤ 255 := by
          split_ifs with hc
          · by_contra hcon
            have hq255 : n / 2 ^ s = 255 := by omega
            rw [hq255] at hdm
            generalize n % 2 ^ s = R at *
            generalize 2 ^ s = A at *
            omega
          · exact hq
        generalize (if 2 * (n % 2 ^ s) ≥ 2 ^ s then n / 2 ^ s + 1 else n / 2 ^ s) = rounded at hr
        rw [if_pos ⟨by omega, by omega⟩]
        omega

/-- The only way out of the range: when the sum `lastSetPwm + correction` is not NaN, `Cycle`
returns an integer from 0 to 255. -/
theorem Cycle_range_of_not_nan (l : PidControlLoop) (target lastSetPwm : Int)
    (h : (float64 lastSetPwm).add (l.pidLoop.Loop (float64 target) (float64 lastSetPwm)).1
      ≠ Float64.nan) :
    0 ≤ (l.Cycle target lastSetPwm).1 ∧ (l.Cycle target lastSetPwm).1 ≤ 255 :=
  int_Round_Coerce_range _ h

/-- C11, the code at a failing input. With the finite gains `p = 1e308`, `i = 0`,
`d = -1e308` (`1e308` is the double `5010420900022432 * 2^971`), `Cycle(100, 50)` computes
the correction `p*50 + i*50 + d*50`, which is `+Inf + 0 + -Inf`, that is NaN; the sum
`50 + NaN` is NaN, both comparisons of `util.Coerce` are false for NaN, so NaN is returned as
it is, and `int(math.Round(NaN))` is not a value from 0 to 255. -/
theorem Cycle_out_of_range :
    ((NewPidControlLoop (Float64.finite 5010420900022432 971) (Float64.finite 0 0)
        (Float64.finite (-5010420900022432) 971)).pidLoop.Loop (float64 100) (float64 50)).1
        = Float64.nan
      ∧ Coerce ((float64 50).add Float64.nan) (float64 0) (float64 255) = Float64.nan
      ∧ ((NewPidControlLoop (Float64.finite 5010420900022432 971) (Float64.finite 0 0)
          (Float64.finite (-5010420900022432) 971)).Cycle 100 50).1 = -9223372036854775808 := by
  refine ⟨by decide, by decide, by decide⟩

/-- C12, the claim as stated fails: for a control loop built with `p = 1`, `i = 0`, `d = 0`,
`Cycle(1, -2^53)` returns 0, not the target 1: the error `1 + 2^53` is not a double and is
rounded to `2^53`, so the sum `-2^53 + 2^53` is 0. -/
theorem Cycle_pure_proportional_counterexample :
    ((NewPidControlLoop (Float64.finite 1 0) (Float64.finite 0 0)
        (Float64.finite 0 0)).Cycle 1 (-9007199254740992)).1 = 0
      ∧ max (0 : Int) (min 255 1) = 1 := by
  refine ⟨by decide, by decide⟩

/-- C12, amended. For a control loop with `p = 1`, `i = 0`, `d = 0` whose accumulated integral
and previous error are finite doubles, and for integers `target` and `lastSetPwm` such that
`target`, `lastSetPwm` and `target - lastSetPwm` are below `2^53` in magnitude (the values
from 0 to 255 among them), `Cycle(target, lastSetPwm)` returns `target` clamped into the range
0 to 255, leaves the gains as they are, and leaves an integral and a previous error that are
again finite doubles; a loop newly built with these gains has a finite integral and previous
error, so every state reached from it by such calls is covered; in particular, for a loop
built with these gains, `Cycle(200, 100)` returns 200 and a following `Cycle(200, 200)`
returns 200. -/
theorem Cycle_pure_proportional :
    (∀ l : PidControlLoop, l.pidLoop.P = Float64.finite 1 0 →
        l.pidLoop.I = Float64.finite 0 0 → l.pidLoop.D = Float64.finite 0 0 →
        l.pidLoop.integral.IsFinite → l.pidLoop.previousError.IsFinite →
        ∀ target lastSetPwm : Int, |target| < 2 ^ 53 → |lastSetPwm| < 2 ^ 53 →
          |target - lastSetPwm| < 2 ^ 53 →
          (l.Cycle target lastSetPwm).1 = max 0 (min 255 target)
            ∧ (l.Cycle target lastSetPwm).2.pidLoop.P = Float64.finite 1 0
            ∧ (l.Cycle target lastSetPwm).2.pidLoop.I = Float64.finite 0 0
            ∧ (l.Cycle target lastSetPwm).2.pidLoop.D = Float64.finite 0 0
            ∧ (l.Cycle target lastSetPwm).2.pidLoop.integral.IsFinite
            ∧ (l.Cycle target lastSetPwm).2.pidLoop.previousError.IsFinite)
      ∧ (NewPidControlLoop (Float64.finite 1 0) (Float64.finite 0 0)
          (Float64.finite 0 0)).pidLoop.integral.IsFinite
      ∧ (NewPidControlLoop (Float64.finite 1 0) (Float64.finite 0 0)
          (Float64.finite 0 0)).pidLoop.previousError.IsFinite
      ∧ ((NewPidControlLoop (Float64.finite 1 0) (Float64.finite 0 0)
          (Float64.finite 0 0)).Cycle 200 100).1 = 200
      ∧ (((NewPidControlLoop (Float64.finite 1 0) (Float64.finite 0 0)
          (Float64.finite 0 0)).Cycle 200 100).2.Cycle 200 200).1 = 200 := by
  have hzero : (Float64.finite 0 0).IsFinite := ⟨0, 0, rfl, by decide, by decide, by decide⟩
  refine ⟨?_, hzero, hzero, by decide, by decide⟩
  intro l hP hI hD hint hprev target lastSetPwm ht hl htl
  exact ⟨Cycle_of_pure_proportional l hP hI hD hint hprev target lastSetPwm ht hl htl,
    hP, hI, hD, Cycle_state_of_pure_proportional l hint target lastSetPwm ht hl htl⟩

/-- C12 amended, at `runningLoop`, a loop with the gains 1, 0, 0 whose integral and previous
error are 100: `Cycle(300, 40)` returns 255. -/
theorem Cycle_pure_proportional_witness :
    runningLoop.pidLoop.integral.IsFinite ∧ runningLoop.pidLoop.previousError.IsFinite
      ∧ |(300 : Int)| < 2 ^ 53 ∧ |(40 : Int)| < 2 ^ 53 ∧ |(300 : Int) - 40| < 2 ^ 53
      ∧ (runningLoop.Cycle 300 40).1 = 255 :=
  have hfin : (Float64.finite 100 0).IsFinite := ⟨100, 0, rfl, by decide, by decide, by decide⟩
  ⟨hfin, hfin, by decide, by decide, by decide,
    (Cycle_pure_proportional.1 runningLoop rfl rfl rfl hfin hfin 300 40 (by decide) (by decide)
      (by decide)).1⟩

/-! ## Warnings -/

theorem isSensorConfigInUse_iff (s : SensorConfig) (l : List CurveConfig) :
    isSensorConfigInUse s l = true ↔
      ∃ c ∈ l, c.Function = none
        ∧ ((∃ lin ∈ c.Linear, lin.Sensor = s.ID) ∨ (∃ p ∈ c.PID, p.Sensor = s.ID)) := by
  induction l with
  | nil => simp [isSensorConfigInUse]
  | cons c rest ih =>
    simp only [isSensorConfigInUse, List.mem_cons, exists_eq_or_imp]
    cases hf : c.Function with
    | some f => simp [ih]
    | none =>
      cases hl : c.Linear with
      | none =>
        cases hp : c.PID with
        | none => simp [ih]
        | some p =>
          by_cases h : p.Sensor = s.ID <;> simp [ih, h]
      | some lin =>
        by_cases h : lin.Sensor = s.ID
        · simp [h]
        · cases hp : c.PID with
          | none => simp [ih, h]
          | some p =>
            by_cases h' : p.Sensor = s.ID <;> simp [ih, h, h']

theorem exactlyOne_function_none (c : CurveConfig) (h : c.ExactlyOne)
    (hne : c.Linear.isSome ∨ c.PID.isSome) : c.Function = none := by
  unfold CurveConfig.ExactlyOne populated at h
  cases hf : c.Function with
  | none => rfl
  | some f =>
    cases hl : c.Linear <;> cases hp : c.PID <;> simp [hf, hl, hp] at h hne

theorem isSensorConfigInUse_eq_false_iff (cfg : Configuration)
    (hone : ∀ c ∈ cfg.Curves, c.ExactlyOne) (s : SensorConfig) :
    isSensorConfigInUse s cfg.Curves = false ↔ cfg.SensorUnused s := by
  rw [← Bool.not_eq_true, isSensorConfigInUse_iff]
  constructor
  · intro h c hc
    constructor
    · intro lin hlin heq
      exact h ⟨c, hc, exactlyOne_function_none c (hone c hc) (Or.inl (Option.isSome_iff_exists.mpr ⟨lin, hlin⟩)),
        Or.inl ⟨lin, hlin, heq⟩⟩
    · intro p hp heq
      exact h ⟨c, hc, exactlyOne_function_none c (hone c hc) (Or.inr (Option.isSome_iff_exists.mpr ⟨p, hp⟩)),
        Or.inr ⟨p, hp, heq⟩⟩
  · rintro h ⟨c, hc, _, ⟨lin, hlin, heq⟩ | ⟨p, hp, heq⟩⟩
    · exact (h c hc).1 lin hlin heq
    · exact (h c hc).2 p hp heq

theorem isCurveConfigInUse_eq_false_iff (cfg : Configuration) (c : CurveConfig) :
    isCurveConfigInUse c cfg.Curves cfg.Fans = false ↔ cfg.CurveUnused c := by
  unfold isCurveConfigInUse Configuration.CurveUnused
  by_cases h1 : (cfg.Curves.any fun curveConfig =>
      curveConfig.Function.any fun f => f.Curves.contains c.ID) = true
  · simp only [h1, if_true, Bool.true_eq_false, false_iff]
    rintro ⟨h, _⟩
    obtain ⟨c', hc', hany⟩ := List.any_eq_true.mp h1
    cases hf : c'.Function with
    | none => simp [hf] at hany
    | some f =>
      simp only [hf, Option.any_some, contains_iff] at hany
      exact h c' hc' f hf hany
  · have h1' : ∀ c' ∈ cfg.Curves, ∀ f ∈ c'.Function, c.ID ∉ f.Curves := by
      intro c' hc' f hf hmem
      apply h1
      apply List.any_eq_true.mpr
      refine ⟨c', hc', ?_⟩
      have hf' : c'.Function = some f := hf
      simp [hf', hmem]
    simp only [h1, Bool.false_eq_true, if_false]
    by_cases h2 : (cfg.Fans.any fun fanConfig => decide (fanConfig.Curve = c.ID)) = true
    · simp only [h2, if_true, Bool.true_eq_false, false_iff]
      rintro ⟨_, h⟩
      obtain ⟨fan, hfan, heq⟩ := List.any_eq_true.mp h2
      exact h fan hfan (by simpa using heq)
    · simp only [h2, Bool.false_eq_true, if_false, true_iff]
      refine ⟨h1', ?_⟩
      intro fan hfan heq
      apply h2
      exact List.any_eq_true.mpr ⟨fan, hfan, by simpa using heq⟩

theorem validateSensorsLoop_snd (cfg : Configuration) (l : List SensorConfig)
    (ids : List String) (hfresh : ∀ s ∈ l, s.ID ∉ ids)
    (hn : (l.map (fun s => s.ID)).Nodup) (hv : ∀ s ∈ l, s.Valid) :
    (validateSensorsLoop cfg l ids).2
      = (l.filter (fun s => !isSensorConfigInUse s cfg.Curves)).map
          (fun s => Effect.warning ("Unused sensor configuration: " ++ s.ID)) := by
  induction l generalizing ids with
  | nil => simp [validateSensorsLoop]
  | cons s rest ih =>
    have hdup : s.ID ∉ ids := hfresh s (List.mem_cons_self _ _)
    obtain ⟨h1, h2⟩ := hv s (List.mem_cons_self _ _)
    have h1' : populated [s.HwMon.isSome, s.File.isSome, s.Cmd.isSome] = 1 := h1
    have hgt : ¬ populated [s.HwMon.isSome, s.File.isSome, s.Cmd.isSome] > 1 := by omega
    have hle : ¬ populated [s.HwMon.isSome, s.File.isSome, s.Cmd.isSome] ≤ 0 := by omega
    have hidx : s.HwMon.any (fun hwMon => decide (hwMon.Index ≤ 0)) = false := by
      cases hs : s.HwMon with
      | none => rfl
      | some hw =>
        have := h2 hw hs
        simp only [Option.any_some, decide_eq_false_iff_not]
        omega
    simp only [List.map_cons, List.nodup_cons] at hn
    have hrec := ih (ids ++ [s.ID])
      ((fresh_append_iff (fun s : SensorConfig => s.ID) s rest ids).mpr
        ⟨fun y hy => hfresh y (List.mem_cons_of_mem _ hy), hn.1⟩)
      hn.2 (fun y hy => hv y (List.mem_cons_of_mem _ hy))
    simp only [validateSensorsLoop, populated_eq, contains_iff, hdup, if_false, hgt, hle, hidx,
      Bool.false_eq_true, Result.after, hrec, List.filter_cons]
    cases isSensorConfigInUse s cfg.Curves <;> simp

theorem validateCurvesLoop_snd (conn : Graph → List (List String)) (cfg : Configuration)
    (l : List CurveConfig) (g : Graph) (ids : List String)
    (hfresh : ∀ c ∈ l, c.ID ∉ ids) (hn : (l.map (fun c => c.ID)).Nodup)
    (hv : ∀ c ∈ l, c.Valid cfg) :
    (validateCurvesLoop conn cfg l g ids).2
      = (l.filter (fun c => !isCurveConfigInUse c cfg.Curves cfg.Fans)).map
          (fun c => Effect.warning ("Unused curve configuration: " ++ c.ID)) := by
  induction l generalizing g ids with
  | nil => simp [validateCurvesLoop]
  | cons c rest ih =>
    have hdup : c.ID ∉ ids := hfresh c (List.mem_cons_self _ _)
    obtain ⟨h1, h2, h3, h4⟩ := hv c (List.mem_cons_self _ _)
    have h1' : populated [c.Linear.isSome, c.PID.isSome, c.Function.isSome] = 1 := h1
    have hgt : ¬ populated [c.Linear.isSome, c.PID.isSome, c.Function.isSome] > 1 := by omega
    have hle : ¬ populated [c.Linear.isSome, c.PID.isSome, c.Function.isSome] ≤ 0 := by omega
    simp only [List.map_cons, List.nodup_cons] at hn
    have hrec := ih (buildGraph [c] g) (ids ++ [c.ID])
      ((fresh_append_iff (fun c : CurveConfig => c.ID) c rest ids).mpr
        ⟨fun y hy => hfresh y (List.mem_cons_of_mem _ hy), hn.1⟩)
      hn.2 (fun y hy => hv y (List.mem_cons_of_mem _ hy))
    simp only [validateCurvesLoop, populated_eq, contains_iff, hdup, if_false, hgt, hle,
      functionBlock_ok cfg c g h2, (linearBlock_none_iff cfg c).mpr h3,
      (pidBlock_none_iff cfg c).mpr h4, Result.after, hrec, List.filter_cons]
    cases isCurveConfigInUse c cfg.Curves cfg.Fans <;> simp

theorem validateConfig_snd_of_accept (conn : Graph → List (List String))
    (perm : String → Option String) (cur cfg : Configuration) (path : String)
    (hs : (validateSensors cfg).1 = none) (hc : (validateCurves conn cfg).1 = none) :
    (validateConfig conn perm cur cfg path).2
      = (validateSensors cfg).2 ++ (validateCurves conn cfg).2
        ++ (if containsCmdSensors cur || containsCmdFan cur then
            [Effect.checkFilePermissions path] else []) := by
  unfold validateConfig
  rcases hs' : validateSensors cfg with ⟨_ | e', w⟩
  · rcases hc' : validateCurves conn cfg with ⟨_ | e'', w'⟩
    · simp only
      split_ifs
      · cases perm path <;> rfl
      · simp
    · rw [hc'] at hc
      simp at hc
  · rw [hs'] at hs
    simp at hs

theorem warnings_append (a b : List Effect) : warnings (a ++ b) = warnings a ++ warnings b := by
  simp [warnings, List.filterMap_append]

theorem warnings_map_warning {α : Type} (l : List α) (f : α → String) :
    warnings (l.map (fun x => Effect.warning (f x))) = l.map f := by
  induction l with
  | nil => rfl
  | cons x rest ih =>
    simp only [warnings, List.map_cons, List.filterMap_cons] at ih ⊢
    rw [ih]

/-- C13. Exact warning list: for every configuration that `Validate` accepts, the warnings
emitted are, in this order, "Unused sensor configuration: <id>" for each sensor, in declaration
order, whose id is the sensor of no Linear and no PID curve, then "Unused curve configuration:
<id>" for each curve, in declaration order, whose id is listed by no Function curve and is the
curve of no fan; nothing else is warned about, and the warnings do not make validation fail
(the result is no error). -/
theorem Validate_warnings (conn : Graph → List (List String))
    (perm : String → Option String) (cfg : Configuration) (path : String)
    (h : (Validate conn perm cfg path).1 = none) :
    warnings (Validate conn perm cfg path).2
      = (cfg.Sensors.filter (fun s => decide (cfg.SensorUnused s))).map
          (fun s => "Unused sensor configuration: " ++ s.ID)
        ++ (cfg.Curves.filter (fun c => decide (cfg.CurveUnused c))).map
          (fun c => "Unused curve configuration: " ++ c.ID) := by
  unfold Validate at h ⊢
  obtain ⟨hs, hc, _, _⟩ := (validateConfig_none_iff conn perm cfg cfg path).mp h
  obtain ⟨hsn, hsv⟩ := (validateSensors_none_iff cfg).mp hs
  obtain ⟨_, hcn, hcv⟩ := valid_of_validateCurvesLoop conn cfg cfg.Curves [] [] hc
  rw [validateConfig_snd_of_accept conn perm cfg cfg path hs hc]
  unfold validateSensors validateCurves
  rw [validateSensorsLoop_snd cfg cfg.Sensors [] (by simp) hsn hsv,
    validateCurvesLoop_snd conn cfg cfg.Curves [] [] (by simp) hcn hcv,
    warnings_append, warnings_append, warnings_map_warning, warnings_map_warning]
  have hlast : warnings (if (containsCmdSensors cfg || containsCmdFan cfg) = true then
      [Effect.checkFilePermissions path] else []) = [] := by
    split_ifs <;> rfl
  rw [hlast, List.append_nil]
  congr 2
  · apply List.filter_congr
    intro s _
    have := isSensorConfigInUse_eq_false_iff cfg (fun c hc => (hcv c hc).1) s
    by_cases hu : cfg.SensorUnused s
    · rw [this.mpr hu, decide_eq_true hu]
      rfl
    · have hne : isSensorConfigInUse s cfg.Curves = true := by
        cases hb : isSensorConfigInUse s cfg.Curves with
        | true => rfl
        | false => exact absurd (this.mp hb) hu
      rw [hne, decide_eq_false hu]
      rfl
  · apply List.filter_congr
    intro c _
    have := isCurveConfigInUse_eq_false_iff cfg c
    by_cases hu : cfg.CurveUnused c
    · rw [this.mpr hu, decide_eq_true hu]
      rfl
    · have hne : isCurveConfigInUse c cfg.Curves cfg.Fans = true := by
        cases hb : isCurveConfigInUse c cfg.Curves cfg.Fans with
        | true => rfl
        | false => exact absurd (this.mp hb) hu
      rw [hne, decide_eq_false hu]
      rfl

/-- C13 at `unusedConfig`: the configuration is accepted and the warnings are those for the
sensor `spare` and the curve `idle`. -/
theorem Validate_warnings_witness :
    (Validate Connections (fun _ => none) unusedConfig "fan2go.yaml").1 = none
      ∧ warnings (Validate Connections (fun _ => none) unusedConfig "fan2go.yaml").2
          = ["Unused sensor configuration: spare", "Unused curve configuration: idle"]
      ∧ warnings (Validate Connections (fun _ => none) unusedConfig "fan2go.yaml").2
          = (unusedConfig.Sensors.filter (fun s => decide (unusedConfig.SensorUnused s))).map
              (fun s => "Unused sensor configuration: " ++ s.ID)
            ++ (unusedConfig.Curves.filter (fun c => decide (unusedConfig.CurveUnused c))).map
              (fun c => "Unused curve configuration: " ++ c.ID) :=
  ⟨by decide, by decide,
    Validate_warnings Connections (fun _ => none) unusedConfig "fan2go.yaml" (by decide)⟩

/-! ## The curve loop and `tarjan.Connections` -/

/-- The effects of the loop of `validateCurves` do not depend on `tarjan.Connections`, and an
error returned when `tarjan.Connections` finds no component at all is returned whatever
`tarjan.Connections` is: it comes from the loop, not from `validateNoLoops`. -/
theorem validateCurvesLoop_indep (conn : Graph → List (List String)) (cfg : Configuration)
    (l : List CurveConfig) (g : Graph) (ids : List String) :
    (validateCurvesLoop conn cfg l g ids).2 = (validateCurvesLoop (fun _ => []) cfg l g ids).2
      ∧ ∀ e, (validateCurvesLoop (fun _ => []) cfg l g ids).1 = some e →
          (validateCurvesLoop conn cfg l g ids).1 = some e := by
  induction l generalizing g ids with
  | nil =>
    refine ⟨rfl, fun e he => ?_⟩
    simp [validateCurvesLoop, validateNoLoops] at he
  | cons c rest ih =>
    simp only [validateCurvesLoop, populated_eq, contains_iff]
    by_cases hd : c.ID ∈ ids
    · simp only [hd, if_true]
      exact ⟨trivial, fun e he => he⟩
    · simp only [hd, if_false]
      by_cases hgt : populated [c.Linear.isSome, c.PID.isSome, c.Function.isSome] > 1
      · simp only [hgt, if_true]
        exact ⟨trivial, fun e he => he⟩
      · by_cases hle : populated [c.Linear.isSome, c.PID.isSome, c.Function.isSome] ≤ 0
        · simp only [hgt, hle, if_false, if_true]
          exact ⟨trivial, fun e he => he⟩
        · simp only [hgt, hle, if_false]
          cases hfb : functionBlock cfg c g with
          | error e => exact ⟨rfl, fun e he => he⟩
          | ok g' =>
            cases hlb : linearBlock cfg c with
            | some e => exact ⟨rfl, fun e he => he⟩
            | none =>
              cases hpb : pidBlock cfg c with
              | some e => exact ⟨rfl, fun e he => he⟩
              | none =>
                simp only [Result.after]
                exact ⟨by rw [(ih g' (ids ++ [c.ID])).1], (ih g' (ids ++ [c.ID])).2⟩

/-- The loop of `validateCurves` either returns an error of its own, the same whatever
`tarjan.Connections` is, or it ends: then no id repeats, every curve passes its own checks, and
the result is that of `validateNoLoops` on the graph built. -/
theorem validateCurvesLoop_cases (cfg : Configuration) (l : List CurveConfig) (g : Graph)
    (ids : List String) :
    (∃ e, ∀ conn, (validateCurvesLoop conn cfg l g ids).1 = some e)
      ∨ (((∀ c ∈ l, c.ID ∉ ids) ∧ (l.map (fun c => c.ID)).Nodup ∧ ∀ c ∈ l, c.Valid cfg)
        ∧ ∀ conn, (validateCurvesLoop conn cfg l g ids).1
            = validateNoLoops conn (buildGraph l g)) := by
  cases h0 : (validateCurvesLoop (fun _ => []) cfg l g ids).1 with
  | some e => exact Or.inl ⟨e, fun conn => (validateCurvesLoop_indep conn cfg l g ids).2 e h0⟩
  | none =>
    have hv := valid_of_validateCurvesLoop (fun _ => []) cfg l g ids h0
    exact Or.inr ⟨hv, fun conn => validateCurvesLoop_of_valid conn cfg l g ids hv.1 hv.2.1 hv.2.2⟩

theorem Graph.mem_keys_set (g : Graph) (k : String) (v : List String) (k' : String) :
    k' ∈ (g.set k v).keys ↔ k' = k ∨ k' ∈ g.keys := by
  induction g with
  | nil => simp [Graph.set, Graph.keys]
  | cons e rest ih =>
    obtain ⟨k0, v0⟩ := e
    simp only [Graph.set]
    by_cases h1 : k0 = k
    · subst h1
      simp [Graph.keys]
    · simp only [h1, if_false]
      simp only [Graph.keys, List.map_cons, List.mem_cons] at ih ⊢
      rw [ih]
      tauto

theorem mem_keys_buildGraph (l : List CurveConfig) (g : Graph) (k : String) :
    k ∈ (buildGraph l g).keys ↔
      k ∈ g.keys ∨ ∃ c ∈ l, c.ID = k ∧ c.Function.isSome = true := by
  induction l generalizing g with
  | nil => simp [buildGraph]
  | cons c rest ih =>
    cases hf : c.Function with
    | none =>
      simp only [buildGraph, hf]
      rw [ih]
      simp [hf]
    | some f =>
      simp only [buildGraph, hf]
      rw [ih, Graph.mem_keys_set]
      simp only [List.mem_cons, exists_eq_or_imp, hf, Option.isSome_some, and_true]
      constructor
      · rintro ((h | h) | h)
        · exact Or.inr (Or.inl h.symm)
        · exact Or.inl h
        · exact Or.inr (Or.inr h)
      · rintro (h | h | h)
        · exact Or.inl (Or.inr h)
        · exact Or.inl (Or.inl h.symm)
        · exact Or.inr h

/-- C16. Self-references never reach the graph: when some Function curve lists its own id,
`validateCurves` returns an error that is the same whatever `tarjan.Connections` would return,
so it is returned by the loop and `validateNoLoops` is not invoked. In general the loop either
returns such an error of its own, or it ends and `validateNoLoops` is invoked on a graph whose
keys are ids of Function curves, whose edge targets are ids of existing curves, and in which no
key lists itself. -/
theorem self_reference_never_reaches_graph (cfg : Configuration) :
    ((∃ c ∈ cfg.Curves, ∃ f ∈ c.Function, c.ID ∈ f.Curves) →
        ∃ e, ∀ conn, (validateCurves conn cfg).1 = some e)
      ∧ ((∃ e, ∀ conn, (validateCurves conn cfg).1 = some e)
        ∨ ((∀ conn, (validateCurves conn cfg).1
              = validateNoLoops conn (buildGraph cfg.Curves []))
          ∧ (∀ k ∈ (buildGraph cfg.Curves []).keys,
              ∃ c ∈ cfg.Curves, c.ID = k ∧ c.Function.isSome = true)
          ∧ (∀ k b, b ∈ (buildGraph cfg.Curves []).get k → cfg.HasCurve b)
          ∧ (∀ k, k ∉ (buildGraph cfg.Curves []).get k))) := by
  have hcases := validateCurvesLoop_cases cfg cfg.Curves [] []
  constructor
  · rintro ⟨c, hc, f, hf, hself⟩
    rcases hcases with herr | ⟨⟨_, _, hv⟩, _⟩
    · exact herr
    · exact absurd rfl (((hv c hc).2.1 f hf).2 c.ID hself).1
  · rcases hcases with herr | ⟨⟨_, hn, hv⟩, hres⟩
    · exact Or.inl herr
    · refine Or.inr ⟨hres, ?_, ?_, ?_⟩
      · intro k hk
        rcases (mem_keys_buildGraph cfg.Curves [] k).mp hk with h | h
        · simp [Graph.keys] at h
        · exact h
      · intro k b hb
        rcases (mem_get_buildGraph cfg.Curves [] hn k b).mp hb with ⟨c, hc, _, f, hf, hmem⟩ | ⟨_, h⟩
        · exact (((hv c hc).2.1 f hf).2 b hmem).2
        · simp [Graph.get] at h
      · intro k hk
        rcases (mem_get_buildGraph cfg.Curves [] hn k k).mp hk with ⟨c, hc, hid, f, hf, hmem⟩ | ⟨_, h⟩
        · exact (((hv c hc).2.1 f hf).2 k hmem).1 hid.symm
        · simp [Graph.get] at h

/-- C16 at `selfReferenceConfig`, whose only curve lists itself: the error is the one of the
self-reference check, for the executable `Connections` and for any other function. -/
theorem self_reference_never_reaches_graph_witness :
    (∃ c ∈ selfReferenceConfig.Curves, ∃ f ∈ c.Function, c.ID ∈ f.Curves)
      ∧ (validateCurves Connections selfReferenceConfig).1
          = some "Curve A: a curve cannot reference itself"
      ∧ ∃ e, ∀ conn, (validateCurves conn selfReferenceConfig).1 = some e :=
  ⟨by decide, by decide,
    (self_reference_never_reaches_graph selfReferenceConfig).1 (by decide)⟩

/-- C17, the claim as stated fails: in `selfLoopGraph` the node `A` lists itself, the
components are the single list with the single member `A`, and `validateNoLoops` returns no
error. -/
theorem validateNoLoops_self_loop_counterexample :
    "A" ∈ selfLoopGraph.get "A"
      ∧ IsConnections selfLoopGraph (Connections selfLoopGraph)
      ∧ Connections selfLoopGraph = [["A"]]
      ∧ validateNoLoops Connections selfLoopGraph = none :=
  ⟨by decide, Connections_isConnections selfLoopGraph, by decide, by decide⟩

theorem reach_eq_of_only_self_loops (g : Graph) (h : ∀ a b, b ∈ g.get a → b = a)
    (a b : String) (hr : g.Reach a b) : b = a := by
  induction hr with
  | refl => rfl
  | tail _ hbc ih => exact (h _ _ hbc).trans ih

/-- C17, amended. `validateNoLoops` returns an error exactly when two distinct nodes of the
graph reach each other. A graph whose only edges are direct self-loops, such as the graph with
the single edge from `A` to `A`, gets no error from `validateNoLoops`: a direct self-loop is
caught by the per-curve self-reference check only (`tarjan.Connections` is any function that
meets its contract). -/
theorem validateNoLoops_distinct_nodes_only (conn : Graph → List (List String))
    (hconn : ∀ g, IsConnections g (conn g)) (g : Graph) :
    (validateNoLoops conn g ≠ none ↔ ∃ a b, a ≠ b ∧ g.Reach a b ∧ g.Reach b a)
      ∧ ((∀ a b, b ∈ g.get a → b = a) → validateNoLoops conn g = none)
      ∧ validateNoLoops conn selfLoopGraph = none := by
  have key : ∀ g' : Graph, (∀ a b, b ∈ g'.get a → b = a) → validateNoLoops conn g' = none := by
    intro g' h
    rw [validateNoLoops_none_iff conn g' (hconn g')]
    rintro ⟨a, b, hab, hr, _⟩
    exact hab (reach_eq_of_only_self_loops g' h a b hr).symm
  refine ⟨?_, key g, key selfLoopGraph ?_⟩
  · rw [Ne, validateNoLoops_none_iff conn g (hconn g), not_not]
  · intro a b hb
    simp only [selfLoopGraph, Graph.get] at hb
    split_ifs at hb with ha
    · rw [List.mem_singleton] at hb
      exact hb.trans ha
    · simp at hb

/-- C17 amended, at `selfLoopGraph` with the executable `Connections`. -/
theorem validateNoLoops_distinct_nodes_only_witness :
    (∀ g, IsConnections g (Connections g))
      ∧ validateNoLoops Connections selfLoopGraph = none :=
  ⟨Connections_isConnections,
    (validateNoLoops_distinct_nodes_only Connections Connections_isConnections
      selfLoopGraph).2.2⟩

/-- C15, the code at a failing input. `exampleConfig` has a command sensor and the permission
check on the path fails, but the global configuration is empty: `validateConfig` requests no
permission check and returns no error. `plainConfig` uses no Cmd, but the global configuration
is `exampleConfig`: `validateConfig` requests the permission check and returns its error. -/
theorem validateConfig_reads_global :
    (∃ s ∈ exampleConfig.Sensors, s.Cmd ≠ none)
      ∧ validateConfig Connections (fun _ => some "denied") emptyConfig exampleConfig
          "fan2go.yaml" = (none, [])
      ∧ validateConfig Connections (fun _ => some "denied") exampleConfig exampleConfig
          "fan2go.yaml"
          = (some "Config file \x27fan2go.yaml\x27 has invalid permissions: denied",
              [Effect.checkFilePermissions "fan2go.yaml"])
      ∧ ((∀ s ∈ plainConfig.Sensors, s.Cmd = none) ∧ (∀ f ∈ plainConfig.Fans, f.Cmd = none))
      ∧ validateConfig Connections (fun _ => some "denied") emptyConfig plainConfig
          "fan2go.yaml" = (none, [])
      ∧ validateConfig Connections (fun _ => some "denied") exampleConfig plainConfig
          "fan2go.yaml"
          = (some "Config file \x27fan2go.yaml\x27 has invalid permissions: denied",
              [Effect.checkFilePermissions "fan2go.yaml"]) := by
  refine ⟨by decide, by decide, by decide, ⟨by decide, by decide⟩, by decide, by decide⟩

/-! ## Two runs with two answers of `tarjan.Connections` -/

theorem ConnectionsReversed_isConnections (g : Graph) :
    IsConnections g (ConnectionsReversed g) := by
  have h := Connections_isConnections g
  unfold ConnectionsReversed
  refine ⟨?_, ?_, ?_⟩
  · intro c hc
    obtain ⟨c', hc', rfl⟩ := List.mem_map.mp hc
    exact List.nodup_reverse.mpr (h.nodup c' hc')
  · intro c hc a ha b
    obtain ⟨c', hc', rfl⟩ := List.mem_map.mp hc
    rw [List.mem_reverse] at ha ⊢
    exact h.scc c' hc' a ha b
  · intro v hv
    obtain ⟨c, hc, hvc⟩ := h.cover v hv
    exact ⟨c.reverse, List.mem_map.mpr ⟨c, hc, rfl⟩, List.mem_reverse.mpr hvc⟩

theorem validateCurves_snd_indep (conn1 conn2 : Graph → List (List String))
    (cfg : Configuration) : (validateCurves conn1 cfg).2 = (validateCurves conn2 cfg).2 := by
  unfold validateCurves
  rw [(validateCurvesLoop_indep conn1 cfg cfg.Curves [] []).1,
    (validateCurvesLoop_indep conn2 cfg cfg.Curves [] []).1]

theorem validateConfig_congr (conn1 conn2 : Graph → List (List String))
    (perm : String → Option String) (cur cfg : Configuration) (path : String)
    (h : validateCurves conn1 cfg = validateCurves conn2 cfg) :
    validateConfig conn1 perm cur cfg path = validateConfig conn2 perm cur cfg path := by
  unfold validateConfig
  rw [h]

/-- C14, the claim as stated fails for the order of the ids in a cycle error: `Connections`
and `ConnectionsReversed` both meet the contract of `tarjan.Connections`, and on
`cycleConfig`, with the same permission-check outcome, `Validate` lists the ids of the cycle
as `[A B]` with the one and as `[B A]` with the other. -/
theorem Validate_cycle_order_counterexample :
    (∀ g, IsConnections g (Connections g))
      ∧ (∀ g, IsConnections g (ConnectionsReversed g))
      ∧ (Validate Connections (fun _ => none) cycleConfig "fan2go.yaml").1
          = some "You have created a curve dependency cycle: [A B]"
      ∧ (Validate ConnectionsReversed (fun _ => none) cycleConfig "fan2go.yaml").1
          = some "You have created a curve dependency cycle: [B A]" :=
  ⟨Connections_isConnections, ConnectionsReversed_isConnections, by decide, by decide⟩

/-- C14, amended. Two runs of `Validate` on the same configuration with the same
permission-check outcome, each with an answer of `tarjan.Connections` that meets its contract,
perform the same effects in the same order (the same warnings, the same permission check),
accept or reject alike, and return the same error, unless both return a cycle error: then each
error lists the members of a strongly connected component with more than one member, and the
component and the order of its members are those `tarjan.Connections` returned. -/
theorem Validate_deterministic_up_to_cycle_order (conn1 conn2 : Graph → List (List String))
    (h1 : ∀ g, IsConnections g (conn1 g)) (h2 : ∀ g, IsConnections g (conn2 g))
    (perm : String → Option String) (cfg : Configuration) (path : String) :
    (Validate conn1 perm cfg path).2 = (Validate conn2 perm cfg path).2
      ∧ ((Validate conn1 perm cfg path).1 = none ↔ (Validate conn2 perm cfg path).1 = none)
      ∧ ((Validate conn1 perm cfg path).1 = (Validate conn2 perm cfg path).1
        ∨ ∃ items1 items2,
            (Validate conn1 perm cfg path).1
                = some ("You have created a curve dependency cycle: " ++ formatSlice items1)
              ∧ (Validate conn2 perm cfg path).1
                = some ("You have created a curve dependency cycle: " ++ formatSlice items2)
              ∧ cfg.IsCycleComponent items1 ∧ cfg.IsCycleComponent items2) := by
  unfold Validate
  have hsame : validateCurves conn1 cfg = validateCurves conn2 cfg →
      (validateConfig conn1 perm cfg cfg path).2 = (validateConfig conn2 perm cfg cfg path).2
        ∧ ((validateConfig conn1 perm cfg cfg path).1 = none
          ↔ (validateConfig conn2 perm cfg cfg path).1 = none)
        ∧ ((validateConfig conn1 perm cfg cfg path).1
            = (validateConfig conn2 perm cfg cfg path).1
          ∨ ∃ items1 items2,
            (validateConfig conn1 perm cfg cfg path).1
                = some ("You have created a curve dependency cycle: " ++ formatSlice items1)
              ∧ (validateConfig conn2 perm cfg cfg path).1
                = some ("You have created a curve dependency cycle: " ++ formatSlice items2)
              ∧ cfg.IsCycleComponent items1 ∧ cfg.IsCycleComponent items2) := by
    intro h
    rw [validateConfig_congr conn1 conn2 perm cfg cfg path h]
    exact ⟨rfl, Iff.rfl, Or.inl rfl⟩
  have hsnd := validateCurves_snd_indep conn1 conn2 cfg
  cases hs : (validateSensors cfg).1 with
  | some e =>
    rw [validateConfig_of_sensors_error conn1 perm cfg cfg path e hs,
      validateConfig_of_sensors_error conn2 perm cfg cfg path e hs]
    exact ⟨rfl, Iff.rfl, Or.inl rfl⟩
  | none =>
    rcases validateCurvesLoop_cases cfg cfg.Curves [] [] with ⟨e, he⟩ | ⟨⟨_, hn, hv⟩, hres⟩
    · exact hsame (Prod.ext ((he conn1).trans (he conn2).symm) hsnd)
    · have hr1 : (validateCurves conn1 cfg).1 = validateNoLoops conn1 (buildGraph cfg.Curves []) :=
        hres conn1
      have hr2 : (validateCurves conn2 cfg).1 = validateNoLoops conn2 (buildGraph cfg.Curves []) :=
        hres conn2
      cases hn1 : validateNoLoops conn1 (buildGraph cfg.Curves []) with
      | none =>
        have hn2 : validateNoLoops conn2 (buildGraph cfg.Curves []) = none :=
          (validateNoLoops_none_iff conn2 _ (h2 _)).mpr
            ((validateNoLoops_none_iff conn1 _ (h1 _)).mp hn1)
        exact hsame (Prod.ext ((hr1.trans hn1).trans (hr2.trans hn2).symm) hsnd)
      | some e1 =>
        cases hn2 : validateNoLoops conn2 (buildGraph cfg.Curves []) with
        | none =>
          have : validateNoLoops conn1 (buildGraph cfg.Curves []) = none :=
            (validateNoLoops_none_iff conn1 _ (h1 _)).mpr
              ((validateNoLoops_none_iff conn2 _ (h2 _)).mp hn2)
          rw [this] at hn1
          exact absurd hn1 (by simp)
        | some e2 =>
          obtain ⟨items1, hm1, hl1, rfl⟩ := validateNoLoops_some conn1 _ e1 hn1
          obtain ⟨items2, hm2, hl2, rfl⟩ := validateNoLoops_some conn2 _ e2 hn2
          have hscc1 := (h1 (buildGraph cfg.Curves [])).scc items1 hm1
          have hscc2 := (h2 (buildGraph cfg.Curves [])).scc items2 hm2
          unfold Graph.Reach at hscc1 hscc2
          rw [edge_buildGraph cfg hn] at hscc1 hscc2
          rw [validateConfig_of_curves_error conn1 perm cfg cfg path _ hs (hr1.trans hn1),
            validateConfig_of_curves_error conn2 perm cfg cfg path _ hs (hr2.trans hn2)]
          refine ⟨by rw [hsnd], by simp, Or.inr ⟨items1, items2, rfl, rfl,
            ⟨hl1, (h1 _).nodup items1 hm1, hscc1⟩, ⟨hl2, (h2 _).nodup items2 hm2, hscc2⟩⟩⟩

/-- C14 amended, at `cycleConfig` with `Connections` and `ConnectionsReversed`: both runs
perform the same effects and both reject. -/
theorem Validate_deterministic_up_to_cycle_order_witness :
    (∀ g, IsConnections g (Connections g))
      ∧ (∀ g, IsConnections g (ConnectionsReversed g))
      ∧ (Validate Connections (fun _ => none) cycleConfig "fan2go.yaml").2
          = (Validate ConnectionsReversed (fun _ => none) cycleConfig "fan2go.yaml").2
      ∧ ((Validate Connections (fun _ => none) cycleConfig "fan2go.yaml").1 = none
        ↔ (Validate ConnectionsReversed (fun _ => none) cycleConfig "fan2go.yaml").1 = none) :=
  have h := Validate_deterministic_up_to_cycle_order Connections ConnectionsReversed
    Connections_isConnections ConnectionsReversed_isConnections (fun _ => none) cycleConfig
    "fan2go.yaml"
  ⟨Connections_isConnections, ConnectionsReversed_isConnections, h.1, h.2.1⟩

end Fan2go
